import Mathlib

/-!
# Client-portal backend: authentication gate and owner-scoped resource handlers

A shallow embedding of `backend/middleware/auth.js` and of the four resource
routers `backend/routes/{leads,appointments,proposals,support}.js`.

* JavaScript values are the inductive type `JVal`; a request body, a query
  string object and a stored document are objects, that is, association lists
  from property names to values, read with `prop` (a missing property reads as
  `undefined`).
* The document store is a keyed map per collection (`Coll`), with the four
  per-document operations the routers use (`docGet`, `docAdd`, `docUpdate`,
  `docDelete`).  A handler is a function from the environment, the store, the
  authenticated principal and the request to the response it sends and the
  list of calls it issues, in order (`Effect`); `Store.applyAll` replays
  that list on the store.
* Everything the routers obtain from outside is a field of `Env`: the clock,
  the id the store generates on `add`, the query engine behind the list
  endpoints, the blob store, and the builtins `parseInt` and `parseFloat`.
* The query engine of the store is a field of `Env` for the handlers; the
  statements about list requests take `storeQuery`, a model of it after the
  description the spec gives of the store, as that engine.
* The store is taken to work: a read returns what is stored and a write is
  applied.  Two calls fail by their arguments and end in the `catch` block of
  the handler (500): `add` when the generated id is already taken, and
  `collection.doc(path)` when the store client refuses the path (`docRefThrows`:
  a value that is not a string, the empty string, a path holding `//`, or a
  path with an even number of segments such as `a/b`).  A path the client
  accepts is resolved to the document it names (`docId`): a leading or
  trailing slash is dropped, and a path of three or more segments names a
  document of a nested collection, which none of the four collections holds.
* The routers in `routes/auth.js` and `routes/clients.js` read and write only
  the `clients` collection and the credential provider, which are not part of
  `Store`.
-/

namespace Portal

/-! ## JavaScript values -/

/-- JSON-like JavaScript values, with `undefined` for a missing property. -/
inductive JVal where
  | undefined
  | null
  | bool (b : Bool)
  | num (q : ℚ)
  | str (s : String)
  | arr (items : List JVal)
  | obj (fields : List (String × JVal))

/-- An object: property names with their values, in insertion order. -/
abbrev Obj := List (String × JVal)

namespace JVal

/-- JavaScript truthiness (`if (v)`, `!v`, `v || w`). -/
def truthy : JVal → Bool
  | .undefined => false
  | .null => false
  | .bool b => b
  | .num q => decide (q ≠ 0)
  | .str s => decide (s ≠ "")
  | .arr _ => true
  | .obj _ => true

/-- The test `xs.includes(v)` for an array literal `xs` of strings: only a string equal
to one of the entries is included. -/
def includedIn (v : JVal) (xs : List String) : Bool :=
  match v with
  | .str s => decide (s ∈ xs)
  | _ => false

/-- The test `v !== s` against a string `s`. -/
def strictNe (v : JVal) (s : String) : Bool :=
  match v with
  | .str t => decide (t ≠ s)
  | _ => true

/-- A destructuring default, `const { x = d } = o`: the default replaces `undefined` only. -/
def withDefault (v d : JVal) : JVal :=
  match v with
  | .undefined => d
  | _ => v

/-- The expression `v || w`. -/
def orElse (v w : JVal) : JVal :=
  if v.truthy then v else w

end JVal

/-- Property read `o.k`; `undefined` when absent. -/
def prop (o : Obj) (k : String) : JVal :=
  match o.lookup k with
  | some v => v
  | none => .undefined

/-- Property write `o.k = v`: replaces the value in place, or appends a new property. -/
def setProp (o : Obj) (k : String) (v : JVal) : Obj :=
  if (o.lookup k).isSome then o.map (fun kv => if kv.1 = k then (k, v) else kv)
  else o ++ [(k, v)]

/-- The statement `if (v) o.k = v`. -/
def setIfTruthy (o : Obj) (k : String) (v : JVal) : Obj :=
  if v.truthy then setProp o k v else o

/-- The statement `if (v !== undefined) o.k = v`. -/
def setIfDefined (o : Obj) (k : String) (v : JVal) : Obj :=
  match v with
  | .undefined => o
  | _ => setProp o k v

/-- Object spread on top of `base`, as in `{ id: x, ...data }`. -/
def spread (base data : Obj) : Obj :=
  data.foldl (fun acc kv => setProp acc kv.1 kv.2) base

/-! ## JavaScript strings -/

/-- The segments of `s.split(sep)` on character lists, for a non-empty separator: the text is
scanned from the left, `skip` counts the characters of a matched separator still to pass over,
and the head of the result is the segment being read. -/
def splitGo (sep : List Char) : List Char → Nat → List (List Char)
  | [], _ => [[]]
  | _ :: cs, skip + 1 => splitGo sep cs skip
  | c :: cs, 0 =>
    if sep.isPrefixOf (c :: cs) then [] :: splitGo sep cs (sep.length - 1)
    else
      match splitGo sep cs 0 with
      | seg :: segs => (c :: seg) :: segs
      | [] => [[c]]

/-- The call `s.split(sep)` for a non-empty string separator. -/
def jsSplit (s sep : String) : List String :=
  (splitGo sep.data s.data 0).map String.mk

/-! ## Document store -/

/-- A stored document: its fields. -/
abbrev Doc := Obj

/-- A collection: document ids with their documents. -/
abbrev Coll := List (String × Doc)

/-- The four resource collections. -/
inductive CollName where
  | leads
  | appointments
  | proposals
  | support_tickets
  deriving DecidableEq

/-- The document store. -/
structure Store where
  leads : Coll
  appointments : Coll
  proposals : Coll
  support_tickets : Coll

/-- The segments of a path given to `collection.doc(path)`: the pieces of `path.split('/')`
that are not empty; the store client allows a leading and a trailing slash. -/
def pathSegments (path : String) : List String :=
  (jsSplit path "/").filter (fun s => decide (s ≠ ""))

/-- Whether `collection.doc(path)` throws for a string: the store client refuses the empty
path, a path holding `//`, and a path that, appended to the collection, does not point to a
document, that is, one with an even number of segments (`a/b`, or `/` with none). -/
def docRefThrows (path : String) : Bool :=
  decide (path = "") || decide ((jsSplit path "//").length ≠ 1) ||
    decide ((pathSegments path).length % 2 = 0)

/-- The id, within the collection, of the document `collection.doc(path)` refers to: the one
segment of the path. `none` when the call throws, and when the path has three segments or
more: it then names a document of a nested collection, not one of the collection. -/
def docId (path : String) : Option String :=
  if docRefThrows path then none
  else
    match pathSegments path with
    | [id] => some id
    | _ => none

/-- The property `id` of the reference `collection.doc(path)`: the last segment. -/
def docName (path : String) : String :=
  (pathSegments path).getLast?.getD ""

/-- The call `collection.doc(path).get()`, on a path for which `collection.doc` does not throw:
`none` when `exists` is false, else `data()`. -/
def docGet (c : Coll) (path : String) : Option Doc :=
  match docId path with
  | some id => c.lookup id
  | none => none

/-- The call `collection.add(data)`, under the id the store generated. -/
def docAdd (c : Coll) (id : String) (data : Doc) : Coll :=
  c ++ [(id, data)]

/-- The call `collection.doc(path).update(data)`: the given fields are written, the others
kept. -/
def docUpdate (c : Coll) (path : String) (data : Obj) : Coll :=
  match docId path with
  | some id => c.map (fun e => if e.1 = id then (e.1, spread e.2 data) else e)
  | none => c

/-- The call `collection.doc(path).delete()`. -/
def docDelete (c : Coll) (path : String) : Coll :=
  match docId path with
  | some id => c.filter (fun e => decide (e.1 ≠ id))
  | none => c

/-- A document reference `collection.doc(p)` for a value taken from a request body: the
path has to be a string, and one the store client does not refuse; else the call throws. -/
def docPath : JVal → Option String
  | .str s => if docRefThrows s then none else some s
  | _ => none

namespace Store

/-- The store with no documents. -/
def empty : Store := ⟨[], [], [], []⟩

/-- The collection `db.collection(name)`. -/
def coll (db : Store) : CollName → Coll
  | .leads => db.leads
  | .appointments => db.appointments
  | .proposals => db.proposals
  | .support_tickets => db.support_tickets

/-- Replace one collection. -/
def setColl (db : Store) (c : CollName) (x : Coll) : Store :=
  match c with
  | .leads => ⟨x, db.appointments, db.proposals, db.support_tickets⟩
  | .appointments => ⟨db.leads, x, db.proposals, db.support_tickets⟩
  | .proposals => ⟨db.leads, db.appointments, x, db.support_tickets⟩
  | .support_tickets => ⟨db.leads, db.appointments, db.proposals, x⟩

end Store

/-- The calls a handler issues to the document store (writes) and to the blob store. -/
inductive Effect where
  | add (c : CollName) (id : String) (data : Doc)
  | update (c : CollName) (id : String) (data : Obj)
  | delete (c : CollName) (id : String)
  | fileDelete (path : JVal) (succeeded : Bool)
  | signedUrl (path : JVal) (expires : Nat)

namespace Store

/-- The store after one call. Blob-store calls leave the document store as it is. -/
def apply (db : Store) : Effect → Store
  | .add c id data => db.setColl c (docAdd (db.coll c) id data)
  | .update c id data => db.setColl c (docUpdate (db.coll c) id data)
  | .delete c id => db.setColl c (docDelete (db.coll c) id)
  | .fileDelete _ _ => db
  | .signedUrl _ _ => db

/-- The store after a sequence of calls. -/
def applyAll (db : Store) (effects : List Effect) : Store :=
  effects.foldl apply db

end Store

/-! ## Environment and responses -/

/-- What a handler takes from outside the router code during one request. -/
structure Env where
  /-- The result of the k-th `new Date().toISOString()` of the request. -/
  iso : Nat → String
  /-- The result of `Date.now()`. -/
  nowMs : Nat
  /-- The id the document store generates for `add`. -/
  autoId : String
  /-- A generated id is twenty letters and digits: it names the document it is the id of. -/
  autoId_ok : docId autoId = some autoId
  /-- The `message` of an error raised by the document store. -/
  storeError : String
  /-- The builtin `parseInt`. -/
  parseInt : JVal → JVal
  /-- The builtin `parseFloat`. -/
  parseFloat : JVal → JVal
  /-- The query engine: collection, equality filters, limit, offset, descending order field. -/
  runQuery : Coll → List (String × JVal) → JVal → JVal → String → Except String (List (String × Doc))
  /-- Whether `bucket.file(path).delete()` throws. -/
  fileDeleteThrows : JVal → Bool
  /-- The call `file.getSignedUrl` with `action: read` and the given expiry: the URL, or the message of
  the error thrown. -/
  getSignedUrl : JVal → Nat → Except String JVal

/-- An HTTP response: status code and JSON body. -/
structure Response where
  status : Nat
  body : JVal

/-- The failure envelope `res.status(code).json({ error, message })`. -/
def jsonError (code : Nat) (error message : String) : Response :=
  ⟨code, .obj [("error", .str error), ("message", .str message)]⟩

/-- The success envelope `res.json({ success: true, message })`. -/
def jsonOk (message : String) : Response :=
  ⟨200, .obj [("success", .bool true), ("message", .str message)]⟩

/-- The success envelope with data, `res.status(code).json({ success: true, [message,] data })`. -/
def jsonData (code : Nat) (message : Option String) (data : JVal) : Response :=
  match message with
  | some m => ⟨code, .obj [("success", .bool true), ("message", .str m), ("data", data)]⟩
  | none => ⟨code, .obj [("success", .bool true), ("data", data)]⟩

/-- The `error` property of a response body. -/
def Response.error (r : Response) : JVal :=
  match r.body with
  | .obj fields => prop fields "error"
  | _ => .undefined

/-- The `data` property of a response body. -/
def Response.data (r : Response) : JVal :=
  match r.body with
  | .obj fields => prop fields "data"
  | _ => .undefined

/-- What a handler run yields: the response and the calls issued, in order. -/
abbrev Outcome := Response × List Effect

/-! ## List endpoints (`router.get('/')`) -/

/-- The common body of the four list handlers: owner filter, optional status filter,
pagination, descending order; each document is returned with its id. -/
def listDocs (env : Env) (c : Coll) (uid : String) (query : Obj) (statusField orderField failure : String) :
    Outcome :=
  let status := prop query "status"
  let limit := (prop query "limit").withDefault (.num 50)
  let offset := (prop query "offset").withDefault (.num 0)
  let owner : List (String × JVal) := [("clientId", .str uid)]
  let filters := if status.truthy && status.strictNe "all" then owner ++ [(statusField, status)] else owner
  match env.runQuery c filters (env.parseInt limit) (env.parseInt offset) orderField with
  | .error message => (jsonError 500 failure message, [])
  | .ok docs =>
    let items := docs.map (fun e => JVal.obj (spread [("id", .str e.1)] e.2))
    (⟨200, .obj [("success", .bool true), ("data", .arr items),
        ("pagination", .obj [("limit", env.parseInt limit), ("offset", env.parseInt offset),
          ("total", .num items.length)])]⟩, [])

/-- The handler of `GET /leads`. -/
def leadsList (env : Env) (db : Store) (uid : String) (query : Obj) : Outcome :=
  listDocs env db.leads uid query "status" "created_at" "Failed to fetch leads"

/-- The handler of `GET /appointments`. -/
def appointmentsList (env : Env) (db : Store) (uid : String) (query : Obj) : Outcome :=
  listDocs env db.appointments uid query "outcome" "date" "Failed to fetch appointments"

/-- The handler of `GET /proposals`. -/
def proposalsList (env : Env) (db : Store) (uid : String) (query : Obj) : Outcome :=
  listDocs env db.proposals uid query "status" "created_at" "Failed to fetch proposals"

/-- The handler of `GET /support`. -/
def supportList (env : Env) (db : Store) (uid : String) (query : Obj) : Outcome :=
  listDocs env db.support_tickets uid query "status" "created_at" "Failed to fetch support tickets"

/-! ## Leads (`routes/leads.js`) -/

/-- The array `validStatuses` of the leads router. -/
def leadStatuses : List String := ["hot", "warm", "cold", "dead"]

/-- The handler of `GET /leads/:id`. -/
def leadsGet (env : Env) (db : Store) (uid id : String) : Outcome :=
  if docRefThrows id then (jsonError 500 "Failed to fetch lead" env.storeError, [])
  else
    match docGet db.leads id with
    | none => (jsonError 404 "Lead not found" "The specified lead does not exist", [])
    | some leadData =>
      if (prop leadData "clientId").strictNe uid then
        (jsonError 403 "Access denied" "You do not have permission to access this lead", [])
      else
        (jsonData 200 none (.obj (spread [("id", .str (docName id))] leadData)), [])

/-- The object `leadData` built by `POST /leads`. -/
def leadsPostData (env : Env) (uid : String) (body : Obj) : Doc :=
  [("clientId", .str uid),
   ("name", prop body "name"),
   ("phone", prop body "phone"),
   ("email", prop body "email"),
   ("status", (prop body "status").withDefault (.str "warm")),
   ("notes", (prop body "notes").withDefault (.str "")),
   ("created_at", .str (env.iso 0)),
   ("updated_at", .str (env.iso 1)),
   ("last_contacted", .null)]

/-- The handler of `POST /leads`. -/
def leadsPost (env : Env) (db : Store) (uid : String) (body : Obj) : Outcome :=
  let name := prop body "name"
  let phone := prop body "phone"
  let email := prop body "email"
  let status := (prop body "status").withDefault (.str "warm")
  if !name.truthy || !phone.truthy || !email.truthy then
    (jsonError 400 "Missing required fields" "Name, phone, and email are required", [])
  else if !status.includedIn leadStatuses then
    (jsonError 400 "Invalid status" "Status must be one of: hot, warm, cold, dead", [])
  else
    let leadData := leadsPostData env uid body
    if (docGet db.leads env.autoId).isSome then
      (jsonError 500 "Failed to create lead" env.storeError, [])
    else
      (jsonData 201 (some "Lead created successfully") (.obj (spread [("id", .str env.autoId)] leadData)),
        [.add .leads env.autoId leadData])

/-- The object `updateData` built by `PUT /leads/:id`. -/
def leadsPutData (env : Env) (body : Obj) : Obj :=
  let updateData : Obj := [("updated_at", .str (env.iso 0))]
  let updateData := setIfTruthy updateData "name" (prop body "name")
  let updateData := setIfTruthy updateData "phone" (prop body "phone")
  let updateData := setIfTruthy updateData "email" (prop body "email")
  let updateData := setIfTruthy updateData "status" (prop body "status")
  let updateData := setIfDefined updateData "notes" (prop body "notes")
  setIfTruthy updateData "last_contacted" (prop body "last_contacted")

/-- The handler of `PUT /leads/:id`. -/
def leadsPut (env : Env) (db : Store) (uid id : String) (body : Obj) : Outcome :=
  let status := prop body "status"
  if docRefThrows id then (jsonError 500 "Failed to update lead" env.storeError, [])
  else
    match docGet db.leads id with
    | none => (jsonError 404 "Lead not found" "The specified lead does not exist", [])
    | some leadData =>
      if (prop leadData "clientId").strictNe uid then
        (jsonError 403 "Access denied" "You do not have permission to update this lead", [])
      else if status.truthy && !status.includedIn leadStatuses then
        (jsonError 400 "Invalid status" "Status must be one of: hot, warm, cold, dead", [])
      else
        (jsonOk "Lead updated successfully", [.update .leads id (leadsPutData env body)])

/-- The handler of `DELETE /leads/:id`. -/
def leadsDelete (env : Env) (db : Store) (uid id : String) : Outcome :=
  if docRefThrows id then (jsonError 500 "Failed to delete lead" env.storeError, [])
  else
    match docGet db.leads id with
    | none => (jsonError 404 "Lead not found" "The specified lead does not exist", [])
    | some leadData =>
      if (prop leadData "clientId").strictNe uid then
        (jsonError 403 "Access denied" "You do not have permission to delete this lead", [])
      else
        (jsonOk "Lead deleted successfully", [.delete .leads id])

/-! ## Appointments (`routes/appointments.js`) -/

/-- The array `validOutcomes` of `PUT /appointments/outcome/:id`. -/
def validOutcomes : List String := ["completed", "no-show", "follow-up", "cancelled"]

/-- The handler of `GET /appointments/:id`. -/
def appointmentsGet (env : Env) (db : Store) (uid id : String) : Outcome :=
  if docRefThrows id then (jsonError 500 "Failed to fetch appointment" env.storeError, [])
  else
    match docGet db.appointments id with
    | none => (jsonError 404 "Appointment not found" "The specified appointment does not exist", [])
    | some appointmentData =>
      if (prop appointmentData "clientId").strictNe uid then
        (jsonError 403 "Access denied" "You do not have permission to access this appointment", [])
      else
        (jsonData 200 none (.obj (spread [("id", .str (docName id))] appointmentData)), [])

/-- The object `appointmentData` built by `POST /appointments`. -/
def appointmentsPostData (env : Env) (uid : String) (body : Obj) : Doc :=
  [("clientId", .str uid),
   ("leadId", prop body "leadId"),
   ("date", prop body "date"),
   ("time", prop body "time"),
   ("outcome", .str "scheduled"),
   ("notes", (prop body "notes").withDefault (.str "")),
   ("created_at", .str (env.iso 0)),
   ("updated_at", .str (env.iso 1))]

/-- The handler of `POST /appointments`. -/
def appointmentsPost (env : Env) (db : Store) (uid : String) (body : Obj) : Outcome :=
  let leadId := prop body "leadId"
  let date := prop body "date"
  let time := prop body "time"
  if !leadId.truthy || !date.truthy || !time.truthy then
    (jsonError 400 "Missing required fields" "Lead ID, date, and time are required", [])
  else
    match docPath leadId with
    | none => (jsonError 500 "Failed to create appointment" env.storeError, [])
    | some lid =>
      match docGet db.leads lid with
      | none => (jsonError 404 "Lead not found" "The specified lead does not exist", [])
      | some leadData =>
        if (prop leadData "clientId").strictNe uid then
          (jsonError 403 "Access denied"
            "You do not have permission to create appointments for this lead", [])
        else
          let appointmentData := appointmentsPostData env uid body
          if (docGet db.appointments env.autoId).isSome then
            (jsonError 500 "Failed to create appointment" env.storeError, [])
          else
            (jsonData 201 (some "Appointment created successfully")
              (.obj (spread [("id", .str env.autoId)] appointmentData)),
              [.add .appointments env.autoId appointmentData])

/-- The object `updateData` built by `PUT /appointments/outcome/:id`. -/
def appointmentsPutOutcomeData (env : Env) (body : Obj) : Obj :=
  let updateData : Obj := [("outcome", prop body "outcome"), ("updated_at", .str (env.iso 0))]
  setIfDefined updateData "notes" (prop body "notes")

/-- The handler of `PUT /appointments/outcome/:id`. -/
def appointmentsPutOutcome (env : Env) (db : Store) (uid id : String) (body : Obj) : Outcome :=
  let outcome := prop body "outcome"
  if !outcome.includedIn validOutcomes then
    (jsonError 400 "Invalid outcome" "Outcome must be one of: completed, no-show, follow-up, cancelled", [])
  else
    if docRefThrows id then (jsonError 500 "Failed to update appointment outcome" env.storeError, [])
    else
      match docGet db.appointments id with
      | none => (jsonError 404 "Appointment not found" "The specified appointment does not exist", [])
      | some appointmentData =>
        if (prop appointmentData "clientId").strictNe uid then
          (jsonError 403 "Access denied" "You do not have permission to update this appointment", [])
        else
          (jsonOk "Appointment outcome updated successfully",
            [.update .appointments id (appointmentsPutOutcomeData env body)])

/-- The handler of `DELETE /appointments/:id`. -/
def appointmentsDelete (env : Env) (db : Store) (uid id : String) : Outcome :=
  if docRefThrows id then (jsonError 500 "Failed to delete appointment" env.storeError, [])
  else
    match docGet db.appointments id with
    | none => (jsonError 404 "Appointment not found" "The specified appointment does not exist", [])
    | some appointmentData =>
      if (prop appointmentData "clientId").strictNe uid then
        (jsonError 403 "Access denied" "You do not have permission to delete this appointment", [])
      else
        (jsonOk "Appointment deleted successfully", [.delete .appointments id])

/-! ## Proposals (`routes/proposals.js`) -/

/-- The array `validStatuses` of the proposals router. -/
def proposalStatuses : List String := ["draft", "sent", "accepted", "rejected", "revised"]

/-- The handler of `GET /proposals/:id`. -/
def proposalsGet (env : Env) (db : Store) (uid id : String) : Outcome :=
  if docRefThrows id then (jsonError 500 "Failed to fetch proposal" env.storeError, [])
  else
    match docGet db.proposals id with
    | none => (jsonError 404 "Proposal not found" "The specified proposal does not exist", [])
    | some proposalData =>
      if (prop proposalData "clientId").strictNe uid then
        (jsonError 403 "Access denied" "You do not have permission to access this proposal", [])
      else
        (jsonData 200 none (.obj (spread [("id", .str (docName id))] proposalData)), [])

/-- The object `proposalData` built by `POST /proposals`. -/
def proposalsPostData (env : Env) (uid : String) (body : Obj) : Doc :=
  [("clientId", .str uid),
   ("title", prop body "title"),
   ("description", prop body "description"),
   ("amount", env.parseFloat (prop body "amount")),
   ("status", (prop body "status").withDefault (.str "draft")),
   ("pdf_url", .null),
   ("created_at", .str (env.iso 0)),
   ("updated_at", .str (env.iso 1))]

/-- The handler of `POST /proposals`. -/
def proposalsPost (env : Env) (db : Store) (uid : String) (body : Obj) : Outcome :=
  let title := prop body "title"
  let description := prop body "description"
  let amount := prop body "amount"
  let status := (prop body "status").withDefault (.str "draft")
  if !title.truthy || !description.truthy || !amount.truthy then
    (jsonError 400 "Missing required fields" "Title, description, and amount are required", [])
  else if !status.includedIn proposalStatuses then
    (jsonError 400 "Invalid status" "Status must be one of: draft, sent, accepted, rejected, revised", [])
  else
    let proposalData := proposalsPostData env uid body
    if (docGet db.proposals env.autoId).isSome then
      (jsonError 500 "Failed to create proposal" env.storeError, [])
    else
      (jsonData 201 (some "Proposal created successfully")
        (.obj (spread [("id", .str env.autoId)] proposalData)),
        [.add .proposals env.autoId proposalData])

/-- The object passed to `update` by `PUT /proposals/status/:id`. -/
def proposalsPutStatusData (env : Env) (body : Obj) : Obj :=
  [("status", prop body "status"), ("updated_at", .str (env.iso 0))]

/-- The handler of `PUT /proposals/status/:id`. -/
def proposalsPutStatus (env : Env) (db : Store) (uid id : String) (body : Obj) : Outcome :=
  let status := prop body "status"
  if !status.includedIn proposalStatuses then
    (jsonError 400 "Invalid status" "Status must be one of: draft, sent, accepted, rejected, revised", [])
  else
    if docRefThrows id then (jsonError 500 "Failed to update proposal status" env.storeError, [])
    else
      match docGet db.proposals id with
      | none => (jsonError 404 "Proposal not found" "The specified proposal does not exist", [])
      | some proposalData =>
        if (prop proposalData "clientId").strictNe uid then
          (jsonError 403 "Access denied" "You do not have permission to update this proposal", [])
        else
          (jsonOk "Proposal status updated successfully",
            [.update .proposals id (proposalsPutStatusData env body)])

/-- The handler of `GET /proposals/download/:id`. -/
def proposalsDownload (env : Env) (db : Store) (uid id : String) : Outcome :=
  if docRefThrows id then (jsonError 500 "Failed to generate download URL" env.storeError, [])
  else
    match docGet db.proposals id with
    | none => (jsonError 404 "Proposal not found" "The specified proposal does not exist", [])
    | some proposalData =>
      if (prop proposalData "clientId").strictNe uid then
        (jsonError 403 "Access denied" "You do not have permission to access this proposal", [])
      else if !(prop proposalData "pdf_url").truthy then
        (jsonError 404 "PDF not available" "No PDF file has been uploaded for this proposal", [])
      else
        let expires := env.nowMs + 15 * 60 * 1000
        match env.getSignedUrl (prop proposalData "pdf_url") expires with
        | .error message =>
          (jsonError 500 "Failed to generate download URL" message,
            [.signedUrl (prop proposalData "pdf_url") expires])
        | .ok url =>
          (jsonData 200 none (.obj [("download_url", url), ("expires_in", .num (15 * 60))]),
            [.signedUrl (prop proposalData "pdf_url") expires])

/-- The handler of `DELETE /proposals/:id`. -/
def proposalsDelete (env : Env) (db : Store) (uid id : String) : Outcome :=
  if docRefThrows id then (jsonError 500 "Failed to delete proposal" env.storeError, [])
  else
    match docGet db.proposals id with
    | none => (jsonError 404 "Proposal not found" "The specified proposal does not exist", [])
    | some proposalData =>
      if (prop proposalData "clientId").strictNe uid then
        (jsonError 403 "Access denied" "You do not have permission to delete this proposal", [])
      else
        let pdf_url := prop proposalData "pdf_url"
        let cleanup : List Effect :=
          if pdf_url.truthy then
            (if env.fileDeleteThrows pdf_url then [.fileDelete pdf_url false] else [.fileDelete pdf_url true])
          else []
        (jsonOk "Proposal deleted successfully", cleanup ++ [.delete .proposals id])

/-! ## Support tickets (`routes/support.js`) -/

/-- The array `validStatuses` of the support router. -/
def ticketStatuses : List String := ["open", "in_progress", "resolved", "closed"]

/-- The array `validPriorities` of the support router. -/
def validPriorities : List String := ["low", "medium", "high", "urgent"]

/-- The handler of `GET /support/:id`. -/
def supportGet (env : Env) (db : Store) (uid id : String) : Outcome :=
  if docRefThrows id then (jsonError 500 "Failed to fetch support ticket" env.storeError, [])
  else
    match docGet db.support_tickets id with
    | none => (jsonError 404 "Support ticket not found" "The specified support ticket does not exist", [])
    | some ticketData =>
      if (prop ticketData "clientId").strictNe uid then
        (jsonError 403 "Access denied" "You do not have permission to access this support ticket", [])
      else
        (jsonData 200 none (.obj (spread [("id", .str (docName id))] ticketData)), [])

/-- The object `ticketData` built by `POST /support`. -/
def supportPostData (env : Env) (uid : String) (body : Obj) : Doc :=
  [("clientId", .str uid),
   ("subject", prop body "subject"),
   ("message", prop body "message"),
   ("priority", (prop body "priority").withDefault (.str "medium")),
   ("status", .str "open"),
   ("created_at", .str (env.iso 0)),
   ("updated_at", .str (env.iso 1)),
   ("last_updated", .str (env.iso 2))]

/-- The handler of `POST /support`. -/
def supportPost (env : Env) (db : Store) (uid : String) (body : Obj) : Outcome :=
  let subject := prop body "subject"
  let message := prop body "message"
  let priority := (prop body "priority").withDefault (.str "medium")
  if !subject.truthy || !message.truthy then
    (jsonError 400 "Missing required fields" "Subject and message are required", [])
  else if !priority.includedIn validPriorities then
    (jsonError 400 "Invalid priority" "Priority must be one of: low, medium, high, urgent", [])
  else
    let ticketData := supportPostData env uid body
    if (docGet db.support_tickets env.autoId).isSome then
      (jsonError 500 "Failed to create support ticket" env.storeError, [])
    else
      (jsonData 201 (some "Support ticket created successfully")
        (.obj (spread [("id", .str env.autoId)] ticketData)),
        [.add .support_tickets env.autoId ticketData])

/-- The object passed to `update` by `PUT /support/status/:id`. -/
def supportPutStatusData (env : Env) (body : Obj) : Obj :=
  [("status", prop body "status"), ("last_updated", .str (env.iso 0))]

/-- The handler of `PUT /support/status/:id`. -/
def supportPutStatus (env : Env) (db : Store) (uid id : String) (body : Obj) : Outcome :=
  let status := prop body "status"
  if !status.includedIn ticketStatuses then
    (jsonError 400 "Invalid status" "Status must be one of: open, in_progress, resolved, closed", [])
  else
    if docRefThrows id then (jsonError 500 "Failed to update support ticket status" env.storeError, [])
    else
      match docGet db.support_tickets id with
      | none => (jsonError 404 "Support ticket not found" "The specified support ticket does not exist", [])
      | some ticketData =>
        if (prop ticketData "clientId").strictNe uid then
          (jsonError 403 "Access denied" "You do not have permission to update this support ticket", [])
        else
          (jsonOk "Support ticket status updated successfully",
            [.update .support_tickets id (supportPutStatusData env body)])

/-- The object `replyData` built by `POST /support/reply/:id`. -/
def replyData (env : Env) (message : JVal) : Obj :=
  [("id", .str (toString env.nowMs)),
   ("message", message),
   ("author", .str "client"),
   ("created_at", .str (env.iso 0))]

/-- The handler of `POST /support/reply/:id`. The array is `ticketData.replies || []`; on a truthy
value that is not an array, `replies.push` is not a function and the handler answers 500. -/
def supportPostReply (env : Env) (db : Store) (uid id : String) (body : Obj) : Outcome :=
  let message := prop body "message"
  if !message.truthy then
    (jsonError 400 "Missing required fields" "Message is required", [])
  else
    if docRefThrows id then (jsonError 500 "Failed to add reply" env.storeError, [])
    else
      match docGet db.support_tickets id with
      | none => (jsonError 404 "Support ticket not found" "The specified support ticket does not exist", [])
      | some ticketData =>
        if (prop ticketData "clientId").strictNe uid then
          (jsonError 403 "Access denied" "You do not have permission to reply to this support ticket", [])
        else
          match (prop ticketData "replies").orElse (.arr []) with
          | .arr replies =>
            (jsonData 200 (some "Reply added successfully") (.obj (replyData env message)),
              [.update .support_tickets id
                [("replies", .arr (replies ++ [.obj (replyData env message)])),
                 ("last_updated", .str (env.iso 1))]])
          | _ => (jsonError 500 "Failed to add reply" "replies.push is not a function", [])

/-- The handler of `DELETE /support/:id`. -/
def supportDelete (env : Env) (db : Store) (uid id : String) : Outcome :=
  if docRefThrows id then (jsonError 500 "Failed to delete support ticket" env.storeError, [])
  else
    match docGet db.support_tickets id with
    | none => (jsonError 404 "Support ticket not found" "The specified support ticket does not exist", [])
    | some ticketData =>
      if (prop ticketData "clientId").strictNe uid then
        (jsonError 403 "Access denied" "You do not have permission to delete this support ticket", [])
      else
        (jsonOk "Support ticket deleted successfully", [.delete .support_tickets id])

/-! ## The routes -/

/-- The fourteen routes that address one record by its id. -/
inductive ById where
  | leadsGet
  | leadsPut
  | leadsDelete
  | appointmentsGet
  | appointmentsPutOutcome
  | appointmentsDelete
  | proposalsGet
  | proposalsPutStatus
  | proposalsDownload
  | proposalsDelete
  | supportGet
  | supportPutStatus
  | supportPostReply
  | supportDelete
  deriving DecidableEq

namespace ById

/-- The collection a by-id route addresses. -/
def coll : ById → CollName
  | .leadsGet | .leadsPut | .leadsDelete => .leads
  | .appointmentsGet | .appointmentsPutOutcome | .appointmentsDelete => .appointments
  | .proposalsGet | .proposalsPutStatus | .proposalsDownload | .proposalsDelete => .proposals
  | .supportGet | .supportPutStatus | .supportPostReply | .supportDelete => .support_tickets

/-- The handler mounted on a by-id route. -/
def run (r : ById) (env : Env) (db : Store) (uid id : String) (body : Obj) : Outcome :=
  match r with
  | .leadsGet => Portal.leadsGet env db uid id
  | .leadsPut => Portal.leadsPut env db uid id body
  | .leadsDelete => Portal.leadsDelete env db uid id
  | .appointmentsGet => Portal.appointmentsGet env db uid id
  | .appointmentsPutOutcome => Portal.appointmentsPutOutcome env db uid id body
  | .appointmentsDelete => Portal.appointmentsDelete env db uid id
  | .proposalsGet => Portal.proposalsGet env db uid id
  | .proposalsPutStatus => Portal.proposalsPutStatus env db uid id body
  | .proposalsDownload => Portal.proposalsDownload env db uid id
  | .proposalsDelete => Portal.proposalsDelete env db uid id
  | .supportGet => Portal.supportGet env db uid id
  | .supportPutStatus => Portal.supportPutStatus env db uid id body
  | .supportPostReply => Portal.supportPostReply env db uid id body
  | .supportDelete => Portal.supportDelete env db uid id

/-- The routes whose handler validates the request body before it looks the record up. -/
def validatesBodyFirst : ById → Bool
  | .appointmentsPutOutcome | .proposalsPutStatus | .supportPutStatus | .supportPostReply => true
  | _ => false

/-- The body check that such a handler makes before the lookup; `true` on every other route. -/
def bodyAccepted (r : ById) (body : Obj) : Bool :=
  match r with
  | .appointmentsPutOutcome => (prop body "outcome").includedIn validOutcomes
  | .proposalsPutStatus => (prop body "status").includedIn proposalStatuses
  | .supportPutStatus => (prop body "status").includedIn ticketStatuses
  | .supportPostReply => (prop body "message").truthy
  | _ => true

end ById

/-- The four create routes. -/
inductive Create where
  | leads
  | appointments
  | proposals
  | support
  deriving DecidableEq

namespace Create

/-- The collection a create route adds to. -/
def coll : Create → CollName
  | .leads => .leads
  | .appointments => .appointments
  | .proposals => .proposals
  | .support => .support_tickets

/-- The handler mounted on a create route. -/
def run (r : Create) (env : Env) (db : Store) (uid : String) (body : Obj) : Outcome :=
  match r with
  | .leads => Portal.leadsPost env db uid body
  | .appointments => Portal.appointmentsPost env db uid body
  | .proposals => Portal.proposalsPost env db uid body
  | .support => Portal.supportPost env db uid body

end Create

/-- The four list routes. -/
inductive Listing where
  | leads
  | appointments
  | proposals
  | support
  deriving DecidableEq

/-- The handler mounted on a list route. -/
def Listing.run (r : Listing) (env : Env) (db : Store) (uid : String) (query : Obj) : Outcome :=
  match r with
  | .leads => Portal.leadsList env db uid query
  | .appointments => Portal.appointmentsList env db uid query
  | .proposals => Portal.proposalsList env db uid query
  | .support => Portal.supportList env db uid query

/-- One authenticated request to the four resource routers. -/
inductive Call where
  | list (r : Listing) (query : Obj)
  | create (r : Create) (body : Obj)
  | byId (r : ById) (id : String) (body : Obj)

/-- The outcome of a request made by principal `uid`. -/
def Call.run (c : Call) (env : Env) (db : Store) (uid : String) : Outcome :=
  match c with
  | .list r query => r.run env db uid query
  | .create r body => r.run env db uid body
  | .byId r id body => r.run env db uid id body

/-- The store after a request. -/
def Call.exec (c : Call) (env : Env) (db : Store) (uid : String) : Store :=
  db.applyAll (c.run env db uid).2

/-- The stores that sequences of requests, by any principals, produce from the empty store. -/
inductive Reachable : Store → Prop where
  | empty : Reachable Store.empty
  | step (db : Store) (c : Call) (env : Env) (uid : String) :
      Reachable db → Reachable (c.exec env db uid)

/-! ## Authentication gate (`middleware/auth.js`) -/

/-- The call `s.startsWith(p)`. -/
def jsStartsWith (s p : String) : Bool :=
  p.data.isPrefixOf s.data

/-- The result of `auth.verifyIdToken(token)`: the decoded token, or the error thrown. -/
inductive Verdict where
  | accepted (decodedToken : Obj)
  | rejected (error : Obj)

/-- What a middleware run does: the response it sends (if any), `req.user` afterwards
(`undefined` when never assigned), how often `next()` is called, and the tokens passed to
`auth.verifyIdToken`, in order. -/
structure GateOutcome where
  response : Option Response
  user : JVal
  nextCalls : Nat
  verifierCalls : List String

/-- The object assigned to `req.user`. -/
def userOf (decodedToken : Obj) : JVal :=
  .obj [("uid", prop decodedToken "uid"),
        ("email", prop decodedToken "email"),
        ("email_verified", prop decodedToken "email_verified")]

/-- The response of the `catch` block of `verifyToken`. -/
def verifyFailure (error : Obj) : Response :=
  match prop error "code" with
  | .str code =>
    if code = "auth/id-token-expired" then
      jsonError 401 "Token expired" "Your session has expired. Please login again."
    else if code = "auth/id-token-revoked" then
      jsonError 401 "Token revoked" "Your session has been revoked. Please login again."
    else jsonError 401 "Invalid token" "Authentication failed"
  | _ => jsonError 401 "Invalid token" "Authentication failed"

/-- The middleware `verifyToken`; `authHeader` is `req.headers.authorization`. -/
def verifyToken (verifyIdToken : String → Verdict) (authHeader : Option String) : GateOutcome :=
  match authHeader with
  | none => ⟨some (jsonError 401 "Unauthorized" "No token provided"), .undefined, 0, []⟩
  | some header =>
    if header = "" || !jsStartsWith header "Bearer " then
      ⟨some (jsonError 401 "Unauthorized" "No token provided"), .undefined, 0, []⟩
    else
      match (jsSplit header "Bearer ").get? 1 with
      | none => ⟨some (jsonError 401 "Unauthorized" "Invalid token format"), .undefined, 0, []⟩
      | some token =>
        if token = "" then
          ⟨some (jsonError 401 "Unauthorized" "Invalid token format"), .undefined, 0, []⟩
        else
          match verifyIdToken token with
          | .accepted decodedToken => ⟨none, userOf decodedToken, 1, [token]⟩
          | .rejected error => ⟨some (verifyFailure error), .undefined, 0, [token]⟩

/-- The middleware `optionalAuth`. -/
def optionalAuth (verifyIdToken : String → Verdict) (authHeader : Option String) : GateOutcome :=
  match authHeader with
  | none => ⟨none, .null, 1, []⟩
  | some header =>
    if header = "" || !jsStartsWith header "Bearer " then ⟨none, .null, 1, []⟩
    else
      match (jsSplit header "Bearer ").get? 1 with
      | none => ⟨none, .null, 1, []⟩
      | some token =>
        if token = "" then ⟨none, .null, 1, []⟩
        else
          match verifyIdToken token with
          | .accepted decodedToken => ⟨none, userOf decodedToken, 1, [token]⟩
          | .rejected _ => ⟨none, .null, 1, [token]⟩

/-! ## Definitions used in the statements -/

/-- The five by-id routes that update an existing record: lead update, appointment outcome
update, proposal status update, support status update, support reply. -/
def ById.isUpdate : ById → Bool
  | .leadsPut | .appointmentsPutOutcome | .proposalsPutStatus | .supportPutStatus
  | .supportPostReply => true
  | _ => false

/-- The property that holds the status of a record: `outcome` for appointments, `status` for
the other three collections. -/
def CollName.statusField : CollName → String
  | .appointments => "outcome"
  | _ => "status"

/-- The status enum of each variant. -/
def CollName.statusEnum : CollName → List String
  | .leads => ["hot", "warm", "cold", "dead"]
  | .appointments => ["scheduled", "completed", "no-show", "follow-up", "cancelled"]
  | .proposals => ["draft", "sent", "accepted", "rejected", "revised"]
  | .support_tickets => ["open", "in_progress", "resolved", "closed"]

/-- The status-enum invariant: the status of every stored record is a member of the enum of
its variant. -/
def StatusesValid (db : Store) : Prop :=
  ∀ c, ∀ e ∈ db.coll c, (prop e.2 c.statusField).includedIn c.statusEnum = true

/-- A call that cannot break the status-enum invariant: an `add` of a record with a valid
status, or an `update` that writes only valid values to the status property. -/
def Effect.StatusSafe : Effect → Prop
  | .add c _ data => (prop data c.statusField).includedIn c.statusEnum = true
  | .update c _ data => ∀ v, (c.statusField, v) ∈ data → v.includedIn c.statusEnum = true
  | _ => True

/-- The lead update route and the three status-only routes. -/
def ById.isStatusUpdate : ById → Bool
  | .leadsPut | .appointmentsPutOutcome | .proposalsPutStatus | .supportPutStatus => true
  | _ => false

/-- An environment for evaluating the handlers on concrete requests. -/
def sampleEnv : Env where
  iso := fun _ => "2024-05-01T10:00:00.000Z"
  nowMs := 1714557600000
  autoId := "doc1"
  autoId_ok := by decide
  storeError := "store error"
  parseInt := fun v => v
  parseFloat := fun v => v
  runQuery := fun _ _ _ _ _ => .ok []
  fileDeleteThrows := fun _ => false
  getSignedUrl := fun _ _ => .ok (.str "https://storage.example/signed")

/-- A lead owned by principal alice. -/
def aliceLead : Doc :=
  [("clientId", .str "alice"), ("name", .str "Jane"), ("phone", .str "555"),
   ("email", .str "a@b.com"), ("status", .str "warm"), ("notes", .str ""),
   ("created_at", .str "2024-04-01T09:00:00.000Z"), ("updated_at", .str "2024-04-01T09:00:00.000Z"),
   ("last_contacted", .null)]

/-- A proposal owned by principal alice. -/
def aliceProposal : Doc :=
  [("clientId", .str "alice"), ("title", .str "Website"), ("description", .str "Redesign"),
   ("amount", .num 500), ("status", .str "draft"), ("pdf_url", .null),
   ("created_at", .str "2024-04-01T09:00:00.000Z"), ("updated_at", .str "2024-04-01T09:00:00.000Z")]

/-- A support ticket owned by principal alice, without replies yet. -/
def aliceTicket : Doc :=
  [("clientId", .str "alice"), ("subject", .str "Login"), ("message", .str "Cannot log in"),
   ("priority", .str "medium"), ("status", .str "open"),
   ("created_at", .str "2024-04-01T09:00:00.000Z"), ("updated_at", .str "2024-04-01T09:00:00.000Z"),
   ("last_updated", .str "2024-04-01T09:00:00.000Z")]

/-- A store holding one lead, one proposal and one ticket, all owned by alice. -/
def sampleStore : Store :=
  ⟨[("l1", aliceLead)], [], [("p1", aliceProposal)], [("t1", aliceTicket)]⟩

/-- The proposal of alice with other contents, under the same owner. -/
def aliceProposalEdited : Doc :=
  [("clientId", .str "alice"), ("title", .str "Mobile app"), ("description", .str "Build"),
   ("amount", .num 9000), ("status", .str "sent"), ("pdf_url", .str "proposals/p1.pdf"),
   ("created_at", .str "2024-04-02T09:00:00.000Z"), ("updated_at", .str "2024-04-03T09:00:00.000Z")]

/-- The sample store with the proposal of alice edited. -/
def sampleStoreEdited : Store :=
  ⟨[("l1", aliceLead)], [], [("p1", aliceProposalEdited)], [("t1", aliceTicket)]⟩

/-- The store after the reply requests `calls` (the environment and the body of each), made one
after the other by principal `uid` on ticket `id`. -/
def replyAll (db : Store) (uid id : String) : List (Env × Obj) → Store
  | [] => db
  | c :: rest => replyAll ((Call.byId .supportPostReply id c.2).exec c.1 db uid) uid id rest

/-- The responses to those reply requests, in order. -/
def replyResponses (db : Store) (uid id : String) : List (Env × Obj) → List Response
  | [] => []
  | c :: rest =>
    (supportPostReply c.1 db uid id c.2).1 ::
      replyResponses ((Call.byId .supportPostReply id c.2).exec c.1 db uid) uid id rest

/-- Two reply requests, with the messages first and second. -/
def sampleReplies : List (Env × Obj) :=
  [(sampleEnv, [("message", .str "first")]), (sampleEnv, [("message", .str "second")])]

/-- The required fields of each create route, as its handler checks them. -/
def Create.required : Create → List String
  | .leads => ["name", "phone", "email"]
  | .appointments => ["leadId", "date", "time"]
  | .proposals => ["title", "description", "amount"]
  | .support => ["subject", "message"]

/-- The default status of each variant. -/
def Create.defaultStatus : Create → String
  | .leads => "warm"
  | .appointments => "scheduled"
  | .proposals => "draft"
  | .support => "open"

/-- The create routes whose handler reads a status from the body (leads and proposals). -/
def Create.takesStatus : Create → Bool
  | .leads | .proposals => true
  | _ => false

/-- The status a create handler stores: the status of the body when the handler reads one and
the body has one, else the default of the variant. -/
def Create.storedStatus (r : Create) (body : Obj) : JVal :=
  if r.takesStatus then (prop body "status").withDefault (.str r.defaultStatus)
  else .str r.defaultStatus

/-- The document a create handler builds from the request. -/
def Create.postData (r : Create) (env : Env) (uid : String) (body : Obj) : Doc :=
  match r with
  | .leads => leadsPostData env uid body
  | .appointments => appointmentsPostData env uid body
  | .proposals => proposalsPostData env uid body
  | .support => supportPostData env uid body

/-- The timestamp property an updating handler refreshes: `last_updated` on the two support
routes, `updated_at` on the others. -/
def ById.stampField : ById → String
  | .supportPutStatus | .supportPostReply => "last_updated"
  | _ => "updated_at"

/-- Which `new Date().toISOString()` of the request gives the refreshed timestamp: the second
on the reply route (the first stamps the reply), the first on the others. -/
def ById.stampIndex : ById → Nat
  | .supportPostReply => 1
  | _ => 0

/-- An appointment of alice on her lead, as created. -/
def aliceAppointment : Doc :=
  [("clientId", .str "alice"), ("leadId", .str "l1"), ("date", .str "2024-06-01"),
   ("time", .str "10:00"), ("outcome", .str "scheduled"), ("notes", .str ""),
   ("created_at", .str "2024-04-01T09:00:00.000Z"), ("updated_at", .str "2024-04-01T09:00:00.000Z")]

/-- The sample store with that appointment. -/
def sampleStoreBooked : Store :=
  ⟨[("l1", aliceLead)], [("a1", aliceAppointment)], [("p1", aliceProposal)], [("t1", aliceTicket)]⟩

/-! ### The query behind the list endpoints -/

mutual
/-- Equality of two values, as an equality filter of the store compares them. -/
def JVal.beq : JVal → JVal → Bool
  | .undefined, .undefined => true
  | .null, .null => true
  | .bool a, .bool b => a == b
  | .num a, .num b => decide (a = b)
  | .str a, .str b => decide (a = b)
  | .arr xs, .arr ys => JVal.beqList xs ys
  | .obj xs, .obj ys => JVal.beqFields xs ys
  | _, _ => false
/-- Equality of two arrays, entry by entry. -/
def JVal.beqList : List JVal → List JVal → Bool
  | [], [] => true
  | x :: xs, y :: ys => JVal.beq x y && JVal.beqList xs ys
  | _, _ => false
/-- Equality of two objects, property by property. -/
def JVal.beqFields : List (String × JVal) → List (String × JVal) → Bool
  | [], [] => true
  | (k, x) :: xs, (l, y) :: ys => decide (k = l) && JVal.beq x y && JVal.beqFields xs ys
  | _, _ => false
end

/-- The natural number a value is, if it is one. -/
def JVal.toNat? : JVal → Option Nat
  | .num q => if q.den = 1 ∧ 0 ≤ q.num then some q.num.toNat else none
  | _ => none

/-- Whether a record passes every equality filter of a query. -/
def passes (filters : List (String × JVal)) (e : String × Doc) : Bool :=
  filters.all (fun f => JVal.beq (prop e.2 f.1) f.2)

/-- Descending order on a field: two string values (timestamps and dates in ISO format) are
compared as strings, character by character; other pairs are left in place. -/
def fieldDesc (field : String) (a b : String × Doc) : Bool :=
  match prop a.2 field, prop b.2 field with
  | .str x, .str y => decide (y.data ≤ x.data)
  | _, _ => true

/-- Modelled from the spec: the query of the document store, a black box outside the
repository that the spec describes as a keyed collection store supporting filtered, ordered,
paginated queries. The records that pass every equality filter are ordered by the given field,
descending; `offset` of them are skipped and at most `limit` returned. A limit or offset that
is not a natural number is refused. -/
def storeQuery (c : Coll) (filters : List (String × JVal)) (limit offset : JVal)
    (orderField : String) : Except String (List (String × Doc)) :=
  match limit.toNat?, offset.toNat? with
  | some n, some m =>
    .ok ((((c.filter (passes filters)).insertionSort
      (fun a b => fieldDesc orderField a b = true)).drop m).take n)
  | _, _ => .error "limit and offset must be non-negative integers"

/-- The sample environment with `storeQuery` as its query engine. -/
def queryEnv : Env :=
  { sampleEnv with runQuery := storeQuery }

/-- The collection a list route reads. -/
def Listing.coll : Listing → CollName
  | .leads => .leads
  | .appointments => .appointments
  | .proposals => .proposals
  | .support => .support_tickets

/-- The records a list request is to return: those of the collection whose clientId is the
principal's uid and, when the status parameter of the query is present (not empty) and not
`all`, whose status (outcome for appointments) equals that parameter. -/
def Listing.matching (r : Listing) (db : Store) (uid : String) (query : Obj) : List (String × Doc) :=
  (db.coll r.coll).filter (fun e =>
    JVal.beq (prop e.2 "clientId") (.str uid) &&
      (if (prop query "status").truthy && (prop query "status").strictNe "all" then
        JVal.beq (prop e.2 r.coll.statusField) (prop query "status")
      else true))

/-- The item a list handler returns for a record: `{ id: doc.id, ...doc.data() }`. -/
def listItem (e : String × Doc) : JVal :=
  .obj (spread [("id", .str e.1)] e.2)

/-- A lead of alice with status dead. -/
def aliceDeadLead : Doc :=
  [("clientId", .str "alice"), ("name", .str "Joe"), ("phone", .str "556"),
   ("email", .str "j@b.com"), ("status", .str "dead"), ("notes", .str ""),
   ("created_at", .str "2024-04-02T09:00:00.000Z"), ("updated_at", .str "2024-04-02T09:00:00.000Z"),
   ("last_contacted", .null)]

/-- A lead of alice with status hot. -/
def aliceHotLead : Doc :=
  [("clientId", .str "alice"), ("name", .str "Ann"), ("phone", .str "557"),
   ("email", .str "n@b.com"), ("status", .str "hot"), ("notes", .str ""),
   ("created_at", .str "2024-04-03T09:00:00.000Z"), ("updated_at", .str "2024-04-03T09:00:00.000Z"),
   ("last_contacted", .null)]

/-- A lead of bob with status dead. -/
def bobDeadLead : Doc :=
  [("clientId", .str "bob"), ("name", .str "Max"), ("phone", .str "558"),
   ("email", .str "m@b.com"), ("status", .str "dead"), ("notes", .str ""),
   ("created_at", .str "2024-04-04T09:00:00.000Z"), ("updated_at", .str "2024-04-04T09:00:00.000Z"),
   ("last_contacted", .null)]

/-- A store in which alice owns three leads, one of them dead, and bob owns a dead lead. -/
def threeLeadsStore : Store :=
  ⟨[("l1", aliceLead), ("l2", aliceDeadLead), ("l3", aliceHotLead), ("l4", bobDeadLead)], [], [], []⟩

/-- The properties of a lead that `PUT /leads/:id` writes when the body holds a truthy value
for them. -/
def leadTruthyFields : List String := ["name", "phone", "email", "status", "last_contacted"]

/-- The invariant that no proposal has a file: the pdf_url of every stored proposal is null. -/
def NoFiles (db : Store) : Prop :=
  ∀ e ∈ db.proposals, prop e.2 "pdf_url" = .null

/-- A call that cannot attach a file to a proposal: an `add` to the proposals with pdf_url
null, an `update` of a proposal without a pdf_url entry, or any other call. -/
def Effect.FileSafe : Effect → Prop
  | .add c _ data => c = .proposals → prop data "pdf_url" = .null
  | .update c _ data => c = .proposals → ∀ v, ("pdf_url", v) ∉ data
  | _ => True

/-- The body of a proposal of amount 500. -/
def proposalBody : Obj :=
  [("title", .str "Website"), ("description", .str "Redesign"), ("amount", .num 500)]

/-- The `error` of the 404 a by-id handler sends when the collection holds no record under the
id. -/
def CollName.notFound : CollName → String
  | .leads => "Lead not found"
  | .appointments => "Appointment not found"
  | .proposals => "Proposal not found"
  | .support_tickets => "Support ticket not found"

/-! ## Responses -/

theorem status_jsonError (code : Nat) (error message : String) :
    (jsonError code error message).status = code := rfl

theorem error_jsonError (code : Nat) (error message : String) :
    (jsonError code error message).error = .str error := rfl

theorem status_jsonOk (message : String) : (jsonOk message).status = 200 := rfl

theorem status_jsonData (code : Nat) (message : Option String) (data : JVal) :
    (jsonData code message data).status = code := by
  cases message <;> rfl

/-! ## Objects: reading after writing -/

theorem lookup_map_replace (o : Obj) (k k' : String) (v : JVal) :
    (o.map (fun kv => if kv.1 = k then (k, v) else kv)).lookup k' =
      if k' = k then (o.lookup k).map (fun _ => v) else o.lookup k' := by
  induction o with
  | nil => simp
  | cons e o ih =>
    obtain ⟨a, b⟩ := e
    by_cases hak : a = k
    · subst hak
      by_cases hk : k' = a
      · subst hk; simp [List.lookup_cons]
      · have hb : (k' == a) = false := by simpa using hk
        simp only [List.map_cons, if_true, List.lookup_cons, hb, ih, hk, if_false]
    · by_cases hk : k' = k
      · subst hk
        have hb : (k' == a) = false := by
          simp only [beq_eq_false_iff_ne, ne_eq]
          exact fun h => hak h.symm
        simp only [List.map_cons, hak, if_false, List.lookup_cons, hb, ih, if_true]
      · simp only [List.map_cons, hak, if_false, List.lookup_cons, ih, hk]

theorem lookup_setProp (o : Obj) (k k' : String) (v : JVal) :
    (setProp o k v).lookup k' = if k' = k then some v else o.lookup k' := by
  unfold setProp
  split
  · rename_i h
    rw [lookup_map_replace]
    split
    · obtain ⟨w, hw⟩ := Option.isSome_iff_exists.mp h
      simp [hw]
    · rfl
  · rename_i h
    have hn : o.lookup k = none := by
      cases hl : o.lookup k with
      | none => rfl
      | some w => simp [hl] at h
    rw [List.lookup_append]
    by_cases hk : k' = k
    · subst hk; simp [hn, List.lookup_cons]
    · have hb : (k' == k) = false := by simpa using hk
      simp [hk, List.lookup_cons, hb]

theorem prop_setProp (o : Obj) (k k' : String) (v : JVal) :
    prop (setProp o k v) k' = if k' = k then v else prop o k' := by
  unfold prop
  rw [lookup_setProp]
  by_cases hk : k' = k
  · simp [hk]
  · simp [hk]

theorem mem_setProp (o : Obj) (k : String) (v : JVal) (e : String × JVal)
    (h : e ∈ setProp o k v) : e ∈ o ∨ e = (k, v) := by
  unfold setProp at h
  split at h
  · obtain ⟨x, hx, rfl⟩ := List.mem_map.mp h
    by_cases hk : x.1 = k
    · right; simp [hk]
    · left; simpa [hk] using hx
  · rcases List.mem_append.mp h with h | h
    · exact Or.inl h
    · right; simpa using h

/-- After a spread, a property holds its old value or one of the values written. -/
theorem prop_spread_cases (data d : Obj) (k : String) :
    prop (spread d data) k = prop d k ∨ (k, prop (spread d data) k) ∈ data := by
  induction data generalizing d with
  | nil => left; rfl
  | cons e data ih =>
    have hs : spread d (e :: data) = spread (setProp d e.1 e.2) data := rfl
    rw [hs]
    rcases ih (setProp d e.1 e.2) with h | h
    · rw [h, prop_setProp]
      by_cases hk : k = e.1
      · right
        simp only [hk, if_true]
        exact List.mem_cons_self _ _
      · left; simp [hk]
    · right; exact List.mem_cons_of_mem _ h

theorem prop_spread_of_not_mem (data d : Obj) (k : String) (h : ∀ v, (k, v) ∉ data) :
    prop (spread d data) k = prop d k := by
  rcases prop_spread_cases data d k with h1 | h1
  · exact h1
  · exact absurd h1 (h _)

/-! ## Collections: reading after writing -/

theorem docRefThrows_of_docId (path id : String) (h : docId path = some id) :
    docRefThrows path = false := by
  unfold docId at h
  split_ifs at h with ht
  simpa using ht

theorem docGet_eq_lookup (c : Coll) (path id : String) (h : docId path = some id) :
    docGet c path = c.lookup id := by
  simp [docGet, h]

theorem docId_of_docGet (c : Coll) (path : String) (d : Doc) (h : docGet c path = some d) :
    ∃ id, docId path = some id ∧ c.lookup id = some d := by
  unfold docGet at h
  cases hid : docId path with
  | none => simp [hid] at h
  | some id => exact ⟨id, rfl, by simpa [hid] using h⟩

theorem docRefThrows_of_docGet (c : Coll) (path : String) (d : Doc)
    (h : docGet c path = some d) : docRefThrows path = false := by
  obtain ⟨id, hid, _⟩ := docId_of_docGet c path d h
  exact docRefThrows_of_docId path id hid

theorem lookup_map_spread (c : Coll) (id j : String) (data : Obj) :
    (c.map (fun e => if e.1 = id then (e.1, spread e.2 data) else e)).lookup j =
      (c.lookup j).map (fun d => if j = id then spread d data else d) := by
  induction c with
  | nil => rfl
  | cons e c ih =>
    obtain ⟨a, b⟩ := e
    by_cases hj : j = a
    · subst hj
      by_cases hid : j = id
      · subst hid; simp [List.lookup_cons]
      · simp [List.lookup_cons, hid]
    · have hb : (j == a) = false := by simpa using hj
      by_cases ha : a = id
      · simp only [List.map_cons, ha, if_true, List.lookup_cons]
        rw [← ha, hb]
        simpa [ha] using ih
      · simp only [List.map_cons, ha, if_false, List.lookup_cons, hb]
        exact ih

theorem docGet_docUpdate (c : Coll) (id j : String) (data : Obj) :
    docGet (docUpdate c id data) j =
      (docGet c j).map (fun d => if docId j = docId id then spread d data else d) := by
  unfold docGet docUpdate
  cases hj : docId j with
  | none => rfl
  | some b =>
    cases hid : docId id with
    | none => simp
    | some a =>
      simp only [lookup_map_spread, Option.some.injEq]

theorem mem_docUpdate (c : Coll) (id : String) (data : Obj) (e : String × Doc)
    (h : e ∈ docUpdate c id data) :
    e ∈ c ∨ ∃ k d, (k, d) ∈ c ∧ e = (k, spread d data) := by
  unfold docUpdate at h
  cases hid : docId id with
  | none => left; simpa [hid] using h
  | some a =>
    simp only [hid] at h
    obtain ⟨x, hx, rfl⟩ := List.mem_map.mp h
    by_cases hk : x.1 = a
    · right
      exact ⟨x.1, x.2, hx, by simp [hk]⟩
    · left; simpa [hk] using hx

theorem mem_docDelete (c : Coll) (id : String) (e : String × Doc)
    (h : e ∈ docDelete c id) : e ∈ c := by
  unfold docDelete at h
  cases hid : docId id with
  | none => simpa [hid] using h
  | some a =>
    simp only [hid] at h
    exact (List.mem_filter.mp h).1

theorem mem_docAdd (c : Coll) (id : String) (data : Doc) (e : String × Doc)
    (h : e ∈ docAdd c id data) : e ∈ c ∨ e = (id, data) := by
  unfold docAdd at h
  rcases List.mem_append.mp h with h | h
  · exact Or.inl h
  · right; simpa using h

theorem coll_setColl (db : Store) (c c' : CollName) (x : Coll) :
    (db.setColl c x).coll c' = if c' = c then x else db.coll c' := by
  cases c <;> cases c' <;> rfl

/-! ## The update objects -/

theorem forall_mem_setProp (P : String × JVal → Prop) (o : Obj) (k : String) (v : JVal)
    (ho : ∀ e ∈ o, P e) (hk : P (k, v)) : ∀ e ∈ setProp o k v, P e := by
  intro e he
  rcases mem_setProp o k v e he with h | h
  · exact ho e h
  · rw [h]; exact hk

theorem forall_mem_setIfTruthy (P : String × JVal → Prop) (o : Obj) (k : String) (v : JVal)
    (ho : ∀ e ∈ o, P e) (hk : v.truthy = true → P (k, v)) : ∀ e ∈ setIfTruthy o k v, P e := by
  unfold setIfTruthy
  split
  · rename_i hc
    exact forall_mem_setProp P o k v ho (hk hc)
  · exact ho

theorem forall_mem_setIfDefined (P : String × JVal → Prop) (o : Obj) (k : String) (v : JVal)
    (ho : ∀ e ∈ o, P e) (hk : P (k, v)) : ∀ e ∈ setIfDefined o k v, P e := by
  unfold setIfDefined
  split
  · exact ho
  · exact forall_mem_setProp P o k v ho hk

/-- A property of every entry of the update object of `PUT /leads/:id`, from the property on
each entry that the handler may write. -/
theorem forall_mem_leadsPutData (P : String × JVal → Prop) (env : Env) (body : Obj)
    (h0 : P ("updated_at", .str (env.iso 0)))
    (h1 : (prop body "name").truthy = true → P ("name", prop body "name"))
    (h2 : (prop body "phone").truthy = true → P ("phone", prop body "phone"))
    (h3 : (prop body "email").truthy = true → P ("email", prop body "email"))
    (h4 : (prop body "status").truthy = true → P ("status", prop body "status"))
    (h5 : P ("notes", prop body "notes"))
    (h6 : (prop body "last_contacted").truthy = true →
      P ("last_contacted", prop body "last_contacted")) :
    ∀ e ∈ leadsPutData env body, P e := by
  unfold leadsPutData
  apply forall_mem_setIfTruthy P _ _ _ _ h6
  apply forall_mem_setIfDefined P _ _ _ _ h5
  apply forall_mem_setIfTruthy P _ _ _ _ h4
  apply forall_mem_setIfTruthy P _ _ _ _ h3
  apply forall_mem_setIfTruthy P _ _ _ _ h2
  apply forall_mem_setIfTruthy P _ _ _ _ h1
  intro e he
  rw [List.mem_singleton.mp he]; exact h0

/-- The same for the update object of `PUT /appointments/outcome/:id`. -/
theorem forall_mem_appointmentsPutOutcomeData (P : String × JVal → Prop) (env : Env) (body : Obj)
    (h0 : P ("outcome", prop body "outcome")) (h1 : P ("updated_at", .str (env.iso 0)))
    (h2 : P ("notes", prop body "notes")) :
    ∀ e ∈ appointmentsPutOutcomeData env body, P e := by
  unfold appointmentsPutOutcomeData
  apply forall_mem_setIfDefined P _ _ _ _ h2
  intro e he
  simp only [List.mem_cons, List.mem_singleton, List.not_mem_nil, or_false] at he
  rcases he with he | he <;> rw [he]
  · exact h0
  · exact h1

/-! ## Objects: what a spread writes -/

theorem mem_setProp_of_ne (o : Obj) (k : String) (v : JVal) (e : String × JVal) (he : e ∈ o)
    (hk : e.1 ≠ k) : e ∈ setProp o k v := by
  unfold setProp
  split
  · exact List.mem_map.mpr ⟨e, he, by simp [hk]⟩
  · exact List.mem_append_left _ he

theorem mem_setIfTruthy_of_ne (o : Obj) (k : String) (v : JVal) (e : String × JVal) (he : e ∈ o)
    (hk : e.1 ≠ k) : e ∈ setIfTruthy o k v := by
  unfold setIfTruthy
  split
  · exact mem_setProp_of_ne o k v e he hk
  · exact he

theorem mem_setIfDefined_of_ne (o : Obj) (k : String) (v : JVal) (e : String × JVal) (he : e ∈ o)
    (hk : e.1 ≠ k) : e ∈ setIfDefined o k v := by
  unfold setIfDefined
  split
  · exact he
  · exact mem_setProp_of_ne o k v e he hk

/-- After a spread, a property that the spread writes holds one of the values written for it. -/
theorem prop_spread_mem (data d : Obj) (k : String) (h : k ∈ data.map Prod.fst) :
    (k, prop (spread d data) k) ∈ data := by
  induction data generalizing d with
  | nil => simp at h
  | cons e data ih =>
    have hs : spread d (e :: data) = spread (setProp d e.1 e.2) data := rfl
    rw [hs]
    by_cases hk : k ∈ data.map Prod.fst
    · exact List.mem_cons_of_mem _ (ih _ hk)
    · have hke : k = e.1 := by
        simp only [List.map_cons, List.mem_cons] at h
        rcases h with h | h
        · exact h
        · exact absurd h hk
      have hnot : ∀ v, (k, v) ∉ data := fun v hv => hk (List.mem_map.mpr ⟨(k, v), hv, rfl⟩)
      rw [prop_spread_of_not_mem data _ k hnot, prop_setProp, if_pos hke, hke]
      exact List.mem_cons_self _ _

theorem prop_spread_of_unique (data d : Obj) (k : String) (v : JVal) (hmem : (k, v) ∈ data)
    (huniq : ∀ w, (k, w) ∈ data → w = v) : prop (spread d data) k = v :=
  huniq _ (prop_spread_mem data d k (List.mem_map.mpr ⟨(k, v), hmem, rfl⟩))

theorem mem_of_lookup_coll (c : Coll) (k : String) (d : Doc) (h : c.lookup k = some d) :
    (k, d) ∈ c := by
  induction c with
  | nil => simp at h
  | cons e c ih =>
    obtain ⟨a, b⟩ := e
    by_cases hk : k = a
    · subst hk
      simp only [List.lookup_cons, beq_self_eq_true, Option.some.injEq] at h
      rw [h]
      exact List.mem_cons_self _ _
    · have hb : (k == a) = false := by simpa using hk
      rw [List.lookup_cons, hb] at h
      exact List.mem_cons_of_mem _ (ih h)

theorem lookup_filter_ne (c : Coll) (id : String) :
    (c.filter (fun e => decide (e.1 ≠ id))).lookup id = none := by
  induction c with
  | nil => rfl
  | cons e c ih =>
    by_cases he : e.1 = id
    · rw [List.filter_cons]
      simp only [ne_eq, he, not_true_eq_false, decide_False, Bool.false_eq_true, if_false]
      exact ih
    · have hb : (id == e.1) = false := by
        simp only [beq_eq_false_iff_ne, ne_eq]
        exact fun h => he h.symm
      obtain ⟨a, b⟩ := e
      simp only [List.filter_cons, ne_eq, he, not_false_eq_true, decide_True, if_true,
        List.lookup_cons]
      simp only at hb
      rw [hb]
      exact ih

theorem docGet_docDelete_self (c : Coll) (id : String) : docGet (docDelete c id) id = none := by
  unfold docGet docDelete
  cases hid : docId id with
  | none => rfl
  | some a => exact lookup_filter_ne c a

/-! ## C1: a record owned by someone else -/

/-- C1, as stated, fails: `PUT /proposals/status/:id` by bob on a proposal owned by alice,
with a status outside the accepted list, answers 400 and not 403. -/
theorem not_owner_bad_status_answers_400 :
    docGet (sampleStore.coll ById.proposalsPutStatus.coll) "p1" = some aliceProposal ∧
    (prop aliceProposal "clientId").strictNe "bob" = true ∧
    (ById.run .proposalsPutStatus sampleEnv sampleStore "bob" "p1"
        [("status", .str "archived")]).1.status = 400 ∧
    (ById.run .proposalsPutStatus sampleEnv sampleStore "bob" "p1"
        [("status", .str "archived")]).1.status ≠ 403 := by
  refine ⟨rfl, rfl, ?_, ?_⟩ <;> decide

/-- C1, amended: when the stored record's clientId differs from the principal's uid, a by-id
handler answers 403 Access denied for every body that passes its body check; the four handlers
that check the body before looking the record up (appointment outcome, proposal status, support
status, support reply) answer 400 for a body that fails the check; the other ten handlers have
no such check and answer 403 for every body. -/
theorem not_owner_forbidden (r : ById) (env : Env) (db : Store) (uid id : String) (body : Obj)
    (d : Doc) (hget : docGet (db.coll r.coll) id = some d)
    (hne : (prop d "clientId").strictNe uid = true) :
    (r.bodyAccepted body = true →
      (r.run env db uid id body).1.status = 403 ∧
      (r.run env db uid id body).1.error = .str "Access denied") ∧
    (r.bodyAccepted body = false →
      r.validatesBodyFirst = true ∧ (r.run env db uid id body).1.status = 400) ∧
    (r.validatesBodyFirst = false → r.bodyAccepted body = true) := by
  have hthrow : docRefThrows id = false := docRefThrows_of_docGet _ _ _ hget
  refine ⟨fun h => ?_, fun h => ?_, fun h => ?_⟩ <;>
    cases r <;>
    simp only [ById.coll, Store.coll] at hget <;>
    simp_all [ById.run, ById.bodyAccepted, ById.validatesBodyFirst, Portal.leadsGet,
      Portal.leadsPut, Portal.leadsDelete, Portal.appointmentsGet, Portal.appointmentsPutOutcome,
      Portal.appointmentsDelete, Portal.proposalsGet, Portal.proposalsPutStatus,
      Portal.proposalsDownload, Portal.proposalsDelete, Portal.supportGet,
      Portal.supportPutStatus, Portal.supportPostReply, Portal.supportDelete,
      status_jsonError, error_jsonError]

/-- Witness for C1 (amended): bob reads a proposal of alice. -/
theorem not_owner_forbidden_witness :
    docGet (sampleStore.coll ById.proposalsGet.coll) "p1" = some aliceProposal ∧
    (prop aliceProposal "clientId").strictNe "bob" = true ∧
    ((ById.proposalsGet.bodyAccepted [] = true →
      (ById.proposalsGet.run sampleEnv sampleStore "bob" "p1" []).1.status = 403 ∧
      (ById.proposalsGet.run sampleEnv sampleStore "bob" "p1" []).1.error = .str "Access denied") ∧
    (ById.proposalsGet.bodyAccepted [] = false →
      ById.proposalsGet.validatesBodyFirst = true ∧
      (ById.proposalsGet.run sampleEnv sampleStore "bob" "p1" []).1.status = 400) ∧
    (ById.proposalsGet.validatesBodyFirst = false → ById.proposalsGet.bodyAccepted [] = true)) :=
  ⟨rfl, rfl, not_owner_forbidden .proposalsGet sampleEnv sampleStore "bob" "p1" [] aliceProposal rfl rfl⟩

/-! ## C2: owner isolation -/

/-- C2: when the addressed record exists and its clientId differs from the principal's uid, a
by-id handler issues no call to the document store or the blob store, so the store after the
request is the store before it; and its response is the same on any other store whose record
under that id has the same clientId, whatever the other fields and the other documents are. -/
theorem owner_isolation (r : ById) (env : Env) (db db' : Store) (uid id : String) (body : Obj)
    (d d' : Doc) (hget : docGet (db.coll r.coll) id = some d)
    (hget' : docGet (db'.coll r.coll) id = some d')
    (hsame : prop d' "clientId" = prop d "clientId")
    (hne : (prop d "clientId").strictNe uid = true) :
    (r.run env db uid id body).2 = [] ∧
    (Call.byId r id body).exec env db uid = db ∧
    (r.run env db' uid id body).1 = (r.run env db uid id body).1 := by
  have hne' : (prop d' "clientId").strictNe uid = true := by rw [hsame]; exact hne
  have hthrow : docRefThrows id = false := docRefThrows_of_docGet _ _ _ hget
  have h1 : (r.run env db uid id body).2 = [] := by
    cases r <;>
      simp only [ById.coll, Store.coll] at hget <;>
      simp [ById.run, Portal.leadsGet, Portal.leadsPut, Portal.leadsDelete,
        Portal.appointmentsGet, Portal.appointmentsPutOutcome, Portal.appointmentsDelete,
        Portal.proposalsGet, Portal.proposalsPutStatus, Portal.proposalsDownload,
        Portal.proposalsDelete, Portal.supportGet, Portal.supportPutStatus,
        Portal.supportPostReply, Portal.supportDelete, hget, hne, hthrow] <;>
      split <;> rfl
  refine ⟨h1, ?_, ?_⟩
  · simp [Call.exec, Call.run, h1, Store.applyAll]
  · cases r <;>
      simp only [ById.coll, Store.coll] at hget hget' <;>
      simp [ById.run, Portal.leadsGet, Portal.leadsPut, Portal.leadsDelete,
        Portal.appointmentsGet, Portal.appointmentsPutOutcome, Portal.appointmentsDelete,
        Portal.proposalsGet, Portal.proposalsPutStatus, Portal.proposalsDownload,
        Portal.proposalsDelete, Portal.supportGet, Portal.supportPutStatus,
        Portal.supportPostReply, Portal.supportDelete, hget, hget', hne, hne', hthrow]

/-- Witness for C2: bob deletes a proposal of alice, on two stores that differ in the
contents of that proposal. -/
theorem owner_isolation_witness :
    (ById.proposalsDelete.run sampleEnv sampleStore "bob" "p1" []).2 = [] ∧
    (Call.byId .proposalsDelete "p1" []).exec sampleEnv sampleStore "bob" = sampleStore ∧
    (ById.proposalsDelete.run sampleEnv sampleStoreEdited "bob" "p1" []).1 =
      (ById.proposalsDelete.run sampleEnv sampleStore "bob" "p1" []).1 :=
  owner_isolation .proposalsDelete sampleEnv sampleStore sampleStoreEdited "bob" "p1" []
    aliceProposal aliceProposalEdited rfl rfl rfl rfl

/-! ## C3: a record that does not exist -/

/-- An id the store client refuses as a document path (`a/b`, `a//b`, `/`): a by-id handler
whose body check passes does not reach the lookup; it answers 500 from its `catch` block and
issues no call. -/
theorem refused_id_answers_500 (r : ById) (env : Env) (db : Store) (uid id : String)
    (body : Obj) (hthrow : docRefThrows id = true) (hbody : r.bodyAccepted body = true) :
    (r.run env db uid id body).1.status = 500 ∧ (r.run env db uid id body).2 = [] := by
  cases r <;>
    simp_all [ById.run, ById.bodyAccepted, Portal.leadsGet, Portal.leadsPut, Portal.leadsDelete,
      Portal.appointmentsGet, Portal.appointmentsPutOutcome, Portal.appointmentsDelete,
      Portal.proposalsGet, Portal.proposalsPutStatus, Portal.proposalsDownload,
      Portal.proposalsDelete, Portal.supportGet, Portal.supportPutStatus,
      Portal.supportPostReply, Portal.supportDelete, status_jsonError]

/-- C3, as stated, fails: `PUT /support/status/:id` on an id the store does not hold, with a
status outside the accepted list, answers 400 and not 404; and `GET /leads/:id` on the id
`a/b`, which the store does not hold and the store client refuses as a document path, answers
500 and not 404. -/
theorem missing_record_not_always_404 :
    docGet (sampleStore.coll ById.supportPutStatus.coll) "t9" = none ∧
    docRefThrows "t9" = false ∧
    (ById.run .supportPutStatus sampleEnv sampleStore "alice" "t9"
        [("status", .str "archived")]).1.status = 400 ∧
    docGet (sampleStore.coll ById.leadsGet.coll) "a/b" = none ∧
    docRefThrows "a/b" = true ∧
    (ById.run .leadsGet sampleEnv sampleStore "alice" "a/b" []).1.status = 500 := by
  refine ⟨rfl, rfl, by decide, rfl, rfl, by decide⟩

/-- C3, amended: when the id is a document path the store client accepts and the store holds no
record under it, a by-id handler answers 404, with the not-found error of its collection, for
every body that passes its body check; the
four handlers that check the body before looking the record up (appointment outcome, proposal
status, support status, support reply) answer 400 for a body that fails the check, whatever the
id; the other ten handlers have no such check. No call is issued to the store in any of these
cases, nor for an id the client refuses. -/
theorem missing_record_not_found (r : ById) (env : Env) (db : Store) (uid id : String)
    (body : Obj) (hget : docGet (db.coll r.coll) id = none) :
    (r.bodyAccepted body = true → docRefThrows id = false →
      (r.run env db uid id body).1.status = 404 ∧
      (r.run env db uid id body).1.error = .str r.coll.notFound) ∧
    (r.bodyAccepted body = false →
      r.validatesBodyFirst = true ∧ (r.run env db uid id body).1.status = 400) ∧
    (r.validatesBodyFirst = false → r.bodyAccepted body = true) ∧
    (r.run env db uid id body).2 = [] := by
  refine ⟨fun h hok => ?_, fun h => ?_, fun h => ?_, ?_⟩ <;>
    cases r <;>
    simp only [ById.coll, Store.coll] at hget <;>
    simp_all [ById.run, ById.bodyAccepted, ById.validatesBodyFirst, ById.coll,
      CollName.notFound, Portal.leadsGet,
      Portal.leadsPut, Portal.leadsDelete, Portal.appointmentsGet, Portal.appointmentsPutOutcome,
      Portal.appointmentsDelete, Portal.proposalsGet, Portal.proposalsPutStatus,
      Portal.proposalsDownload, Portal.proposalsDelete, Portal.supportGet,
      Portal.supportPutStatus, Portal.supportPostReply, Portal.supportDelete,
      status_jsonError, error_jsonError] <;>
    repeat' (first | rfl | split)

/-- Witness for C3 (amended): alice reads a lead the store does not hold. -/
theorem missing_record_not_found_witness :
    docGet (sampleStore.coll ById.leadsGet.coll) "l9" = none ∧
    ((ById.leadsGet.bodyAccepted [] = true → docRefThrows "l9" = false →
      (ById.leadsGet.run sampleEnv sampleStore "alice" "l9" []).1.status = 404 ∧
      (ById.leadsGet.run sampleEnv sampleStore "alice" "l9" []).1.error =
        .str ById.leadsGet.coll.notFound) ∧
    (ById.leadsGet.bodyAccepted [] = false →
      ById.leadsGet.validatesBodyFirst = true ∧
      (ById.leadsGet.run sampleEnv sampleStore "alice" "l9" []).1.status = 400) ∧
    (ById.leadsGet.validatesBodyFirst = false → ById.leadsGet.bodyAccepted [] = true) ∧
    (ById.leadsGet.run sampleEnv sampleStore "alice" "l9" []).2 = []) :=
  ⟨rfl, missing_record_not_found .leadsGet sampleEnv sampleStore "alice" "l9" [] rfl⟩

/-! ## C4: the owner stamped on create -/

/-- What a create handler issues: nothing, or one `add` of a document whose clientId is the
principal's uid. -/
theorem create_effects (r : Create) (env : Env) (db : Store) (uid : String) (body : Obj) :
    (r.run env db uid body).2 = [] ∨
      ∃ data, (r.run env db uid body).2 = [.add r.coll env.autoId data] ∧
        prop data "clientId" = .str uid := by
  cases r <;>
    simp only [Create.run, Create.coll, leadsPost, appointmentsPost, proposalsPost, supportPost] <;>
    repeat' (first | exact Or.inl rfl | exact Or.inr ⟨_, rfl, rfl⟩ | split)

/-- C4: for each create handler and every request body (whatever clientId or ownerId field it
carries), every document the handler adds has clientId equal to the principal's uid: the only
call a create handler issues is an `add` of such a document, and every document of the store
after the request was either there before or has clientId equal to the principal's uid. -/
theorem create_stamps_owner (r : Create) (env : Env) (db : Store) (uid : String) (body : Obj) :
    (∀ e ∈ (r.run env db uid body).2,
      ∃ data, e = Effect.add r.coll env.autoId data ∧ prop data "clientId" = .str uid) ∧
    (∀ c, ∀ x ∈ (((Call.create r body).exec env db uid).coll c),
      x ∈ db.coll c ∨ prop x.2 "clientId" = .str uid) := by
  rcases create_effects r env db uid body with h | ⟨data, h, hc⟩
  · refine ⟨by simp [h], fun c x hx => ?_⟩
    simp only [Call.exec, Call.run, h, Store.applyAll, List.foldl_nil] at hx
    exact Or.inl hx
  · refine ⟨fun e he => ⟨data, by simpa [h] using he, hc⟩, fun c x hx => ?_⟩
    simp only [Call.exec, Call.run, h, Store.applyAll, List.foldl_cons, List.foldl_nil,
      Store.apply, coll_setColl] at hx
    split_ifs at hx with hcc
    · rcases mem_docAdd _ _ _ _ hx with h1 | h1
      · left; rw [hcc]; exact h1
      · right; rw [h1]; exact hc
    · exact Or.inl hx

/-- Witness for C4: bob creates a lead with a body that names alice as clientId and ownerId. -/
theorem create_stamps_owner_witness :
    (∀ e ∈ (Create.leads.run sampleEnv sampleStore "bob" [("name", .str "Joe"), ("phone", .str "1"),
        ("email", .str "j@x.org"), ("clientId", .str "alice"), ("ownerId", .str "alice")]).2,
      ∃ data, e = Effect.add Create.leads.coll sampleEnv.autoId data ∧
        prop data "clientId" = .str "bob") ∧
    (∀ c, ∀ x ∈ (((Call.create .leads [("name", .str "Joe"), ("phone", .str "1"),
        ("email", .str "j@x.org"), ("clientId", .str "alice"),
        ("ownerId", .str "alice")]).exec sampleEnv sampleStore "bob").coll c),
      x ∈ sampleStore.coll c ∨ prop x.2 "clientId" = .str "bob") :=
  create_stamps_owner .leads sampleEnv sampleStore "bob" [("name", .str "Joe"), ("phone", .str "1"),
    ("email", .str "j@x.org"), ("clientId", .str "alice"), ("ownerId", .str "alice")]

/-! ## C5: the owner is never rewritten -/

/-- What an updating handler issues: nothing, or one `update` of the addressed record with an
object that has no clientId entry. -/
theorem update_effects (r : ById) (env : Env) (db : Store) (uid id : String) (body : Obj)
    (hr : r.isUpdate = true) :
    (r.run env db uid id body).2 = [] ∨
      ∃ data, (r.run env db uid id body).2 = [.update r.coll id data] ∧
        ∀ v, ("clientId", v) ∉ data := by
  have hlead : ∀ v, ("clientId", v) ∉ leadsPutData env body := fun v hv =>
    forall_mem_leadsPutData (fun e => e.1 ≠ "clientId") env body (by simp) (fun _ => by simp)
      (fun _ => by simp) (fun _ => by simp) (fun _ => by simp) (by simp)
      (fun _ => by simp) _ hv rfl
  have happ : ∀ v, ("clientId", v) ∉ appointmentsPutOutcomeData env body := fun v hv =>
    forall_mem_appointmentsPutOutcomeData (fun e => e.1 ≠ "clientId") env body (by simp)
      (by simp) (by simp) _ hv rfl
  cases r <;> (try (exact absurd hr (by decide))) <;>
    simp only [ById.run, ById.coll, leadsPut, appointmentsPutOutcome, proposalsPutStatus,
      supportPutStatus, supportPostReply] <;>
    repeat' (first
      | exact Or.inl rfl
      | exact Or.inr ⟨_, rfl, hlead⟩
      | exact Or.inr ⟨_, rfl, happ⟩
      | exact Or.inr ⟨_, rfl, by simp [proposalsPutStatusData, supportPutStatusData]⟩
      | split)

/-- C5: for each of the five handlers that update an existing record (lead update, appointment
outcome update, proposal status update, support status update, support reply) and every request
body, no object passed to `update` has a clientId entry, and every document of the store has
after the request the clientId it had before. -/
theorem update_keeps_owner (r : ById) (env : Env) (db : Store) (uid id : String) (body : Obj)
    (hr : r.isUpdate = true) :
    (∀ c j data, Effect.update c j data ∈ (r.run env db uid id body).2 →
      ∀ v, ("clientId", v) ∉ data) ∧
    (∀ c j, (docGet (((Call.byId r id body).exec env db uid).coll c) j).map
        (fun d => prop d "clientId") = (docGet (db.coll c) j).map (fun d => prop d "clientId")) := by
  rcases update_effects r env db uid id body hr with h | ⟨data, h, hc⟩
  · refine ⟨by simp [h], fun c j => ?_⟩
    simp only [Call.exec, Call.run, h, Store.applyAll, List.foldl_nil]
  · refine ⟨fun c j x hx => ?_, fun c j => ?_⟩
    · simp only [h, List.mem_singleton, Effect.update.injEq] at hx
      rw [hx.2.2]; exact hc
    · simp only [Call.exec, Call.run, h, Store.applyAll, List.foldl_cons, List.foldl_nil,
        Store.apply, coll_setColl]
      split_ifs with hcc
      · rw [docGet_docUpdate, Option.map_map, hcc]
        congr 1
        funext d
        simp only [Function.comp]
        split_ifs
        · exact prop_spread_of_not_mem data d "clientId" hc
        · rfl
      · rfl

/-- Witness for C5: alice updates her lead, sending a clientId of her own choosing. -/
theorem update_keeps_owner_witness :
    ById.leadsPut.isUpdate = true ∧
    ((∀ c j data, Effect.update c j data ∈ (ById.leadsPut.run sampleEnv sampleStore "alice" "l1"
        [("clientId", .str "bob"), ("status", .str "hot")]).2 → ∀ v, ("clientId", v) ∉ data) ∧
    (∀ c j, (docGet (((Call.byId .leadsPut "l1"
        [("clientId", .str "bob"), ("status", .str "hot")]).exec sampleEnv sampleStore "alice").coll c)
          j).map (fun d => prop d "clientId") =
        (docGet (sampleStore.coll c) j).map (fun d => prop d "clientId"))) :=
  ⟨rfl, update_keeps_owner .leadsPut sampleEnv sampleStore "alice" "l1"
    [("clientId", .str "bob"), ("status", .str "hot")] rfl⟩

/-! ## C6: the status-enum invariant -/

theorem apply_statusesValid (db : Store) (eff : Effect) (hdb : StatusesValid db)
    (heff : eff.StatusSafe) : StatusesValid (db.apply eff) := by
  intro c e he
  cases eff with
  | add c' id data =>
    simp only [Store.apply, coll_setColl] at he
    split_ifs at he with hc
    · rcases mem_docAdd _ _ _ _ he with h | h
      · rw [hc]; exact hdb c' e h
      · rw [h, hc]; exact heff
    · exact hdb c e he
  | update c' id data =>
    simp only [Store.apply, coll_setColl] at he
    split_ifs at he with hc
    · rcases mem_docUpdate _ _ _ _ he with h | ⟨k, d, hd, h⟩
      · rw [hc]; exact hdb c' e h
      · rw [h, hc]
        rcases prop_spread_cases data d c'.statusField with h1 | h1
        · rw [h1]; exact hdb c' (k, d) hd
        · exact heff _ h1
    · exact hdb c e he
  | delete c' id =>
    simp only [Store.apply, coll_setColl] at he
    split_ifs at he with hc
    · rw [hc]; exact hdb c' e (mem_docDelete _ _ _ he)
    · exact hdb c e he
  | fileDelete _ _ => exact hdb c e he
  | signedUrl _ _ => exact hdb c e he

theorem applyAll_statusesValid (effects : List Effect) (db : Store) (hdb : StatusesValid db)
    (heff : ∀ eff ∈ effects, eff.StatusSafe) : StatusesValid (db.applyAll effects) := by
  induction effects generalizing db with
  | nil => exact hdb
  | cons eff effects ih =>
    exact ih (db.apply eff) (apply_statusesValid db eff hdb (heff eff (List.mem_cons_self _ _)))
      (fun x hx => heff x (List.mem_cons_of_mem _ hx))

theorem includedIn_of_subset (v : JVal) (xs ys : List String) (h : v.includedIn xs = true)
    (hsub : xs ⊆ ys) : v.includedIn ys = true := by
  cases v <;> simp_all [JVal.includedIn]
  exact hsub h

theorem list_statusSafe (r : Listing) (env : Env) (db : Store) (uid : String) (query : Obj) :
    (r.run env db uid query).2 = [] := by
  cases r <;>
    simp only [Listing.run, leadsList, appointmentsList, proposalsList, supportList, listDocs] <;>
    split <;> rfl

theorem create_statusSafe (r : Create) (env : Env) (db : Store) (uid : String) (body : Obj) :
    ∀ eff ∈ (r.run env db uid body).2, eff.StatusSafe := by
  cases r
  · simp only [Create.run, leadsPost]
    split_ifs with h1 h2 h3
    · simp
    · simp
    · simp
    · intro eff heff
      rw [List.mem_singleton.mp heff]
      simpa [leadStatuses] using h2
  · simp only [Create.run, appointmentsPost]
    repeat' (first | (intro eff heff; simp at heff; done) | split)
    intro eff heff
    rw [List.mem_singleton.mp heff]
    rfl
  · simp only [Create.run, proposalsPost]
    split_ifs with h1 h2 h3
    · simp
    · simp
    · simp
    · intro eff heff
      rw [List.mem_singleton.mp heff]
      simpa [proposalStatuses] using h2
  · simp only [Create.run, supportPost]
    split_ifs with h1 h2 h3
    · simp
    · simp
    · simp
    · intro eff heff
      rw [List.mem_singleton.mp heff]
      rfl

theorem leadsPut_statusSafe (env : Env) (db : Store) (uid id : String) (body : Obj) :
    ∀ eff ∈ (leadsPut env db uid id body).2, eff.StatusSafe := by
  simp only [leadsPut]
  repeat' (first | (intro eff heff; simp at heff; done) | split)
  have h2 : ¬((prop body "status").truthy &&
      !(prop body "status").includedIn leadStatuses) = true := by assumption
  intro eff heff
  rw [List.mem_singleton.mp heff]
  intro v hv
  have hP := forall_mem_leadsPutData
    (fun e => e.1 = "status" → (prop body "status").truthy = true ∧ e.2 = prop body "status")
    env body (by simp) (fun _ => by simp) (fun _ => by simp) (fun _ => by simp)
    (fun h => by simp [h]) (by simp) (fun _ => by simp) _ hv rfl
  simp only [Bool.and_eq_true, Bool.not_eq_true', not_and, Bool.not_eq_false] at h2
  have hv2 : v = prop body "status" := hP.2
  rw [hv2]
  exact h2 hP.1

theorem byId_statusSafe (r : ById) (env : Env) (db : Store) (uid id : String) (body : Obj) :
    ∀ eff ∈ (r.run env db uid id body).2, eff.StatusSafe := by
  cases r
  case leadsPut => exact leadsPut_statusSafe env db uid id body
  case appointmentsPutOutcome =>
    simp only [ById.run, appointmentsPutOutcome]
    split_ifs with h1 h0
    · simp
    · simp
    · split
      · simp
      · split_ifs
        · simp
        · intro eff heff
          rw [List.mem_singleton.mp heff]
          intro v hv
          have hP := forall_mem_appointmentsPutOutcomeData
            (fun e => e.1 = "outcome" → e.2 = prop body "outcome") env body (by simp) (by simp)
            (by simp) _ hv rfl
          simp only [Bool.not_eq_true', Bool.not_eq_false] at h1
          have hv2 : v = prop body "outcome" := hP
          rw [hv2]
          exact includedIn_of_subset _ _ _ h1 (by decide)
  case proposalsPutStatus =>
    simp only [ById.run, proposalsPutStatus]
    split_ifs with h1 h0
    · simp
    · simp
    · split
      · simp
      · split_ifs
        · simp
        · intro eff heff
          rw [List.mem_singleton.mp heff]
          intro v hv
          simp only [Bool.not_eq_true', Bool.not_eq_false] at h1
          simp [proposalsPutStatusData, CollName.statusField] at hv
          rw [hv]; exact h1
  case supportPutStatus =>
    simp only [ById.run, supportPutStatus]
    split_ifs with h1 h0
    · simp
    · simp
    · split
      · simp
      · split_ifs
        · simp
        · intro eff heff
          rw [List.mem_singleton.mp heff]
          intro v hv
          simp only [Bool.not_eq_true', Bool.not_eq_false] at h1
          simp [supportPutStatusData, CollName.statusField] at hv
          rw [hv]; exact h1
  case supportPostReply =>
    simp only [ById.run, supportPostReply]
    repeat' (first | (intro eff heff; simp at heff; done) | split)
    intro eff heff
    rw [List.mem_singleton.mp heff]
    intro v hv
    simp [CollName.statusField] at hv
  all_goals
    simp only [ById.run, Portal.leadsGet, Portal.leadsDelete, Portal.appointmentsGet,
      Portal.appointmentsDelete, Portal.proposalsGet, Portal.proposalsDownload,
      Portal.proposalsDelete, Portal.supportGet, Portal.supportDelete]
    repeat' (first | (intro eff heff; simp at heff; done) | split)
    all_goals simp [Effect.StatusSafe]

theorem call_statusSafe (c : Call) (env : Env) (db : Store) (uid : String) :
    ∀ eff ∈ (c.run env db uid).2, eff.StatusSafe := by
  cases c with
  | list r query => simp [Call.run, list_statusSafe]
  | create r body => exact create_statusSafe r env db uid body
  | byId r id body => exact byId_statusSafe r env db uid id body

/-- C6: in every store reachable from the empty store by any sequence of requests to the four
resource routers, with arbitrary principals, bodies and queries, every lead has status in
hot, warm, cold, dead; every appointment has outcome in scheduled, completed, no-show,
follow-up, cancelled; every proposal has status in draft, sent, accepted, rejected, revised;
and every support ticket has status in open, in_progress, resolved, closed. -/
theorem reachable_statuses_valid (db : Store) (h : Reachable db) :
    (∀ e ∈ db.leads, (prop e.2 "status").includedIn ["hot", "warm", "cold", "dead"] = true) ∧
    (∀ e ∈ db.appointments, (prop e.2 "outcome").includedIn
      ["scheduled", "completed", "no-show", "follow-up", "cancelled"] = true) ∧
    (∀ e ∈ db.proposals, (prop e.2 "status").includedIn
      ["draft", "sent", "accepted", "rejected", "revised"] = true) ∧
    (∀ e ∈ db.support_tickets, (prop e.2 "status").includedIn
      ["open", "in_progress", "resolved", "closed"] = true) := by
  have hv : StatusesValid db := by
    induction h with
    | empty => intro c e he; cases c <;> simp [Store.coll, Store.empty] at he
    | step db c env uid _ ih =>
      exact applyAll_statusesValid _ db ih (call_statusSafe c env db uid)
  exact ⟨hv .leads, hv .appointments, hv .proposals, hv .support_tickets⟩

/-- Witness for C6: the store after alice creates a lead in the empty store. -/
theorem reachable_statuses_valid_witness :
    Reachable ((Call.create .leads [("name", .str "Jane"), ("phone", .str "555"),
      ("email", .str "a@b.com")]).exec sampleEnv Store.empty "alice") ∧
    ((∀ e ∈ ((Call.create .leads [("name", .str "Jane"), ("phone", .str "555"),
        ("email", .str "a@b.com")]).exec sampleEnv Store.empty "alice").leads,
      (prop e.2 "status").includedIn ["hot", "warm", "cold", "dead"] = true) ∧
    (∀ e ∈ ((Call.create .leads [("name", .str "Jane"), ("phone", .str "555"),
        ("email", .str "a@b.com")]).exec sampleEnv Store.empty "alice").appointments,
      (prop e.2 "outcome").includedIn
        ["scheduled", "completed", "no-show", "follow-up", "cancelled"] = true) ∧
    (∀ e ∈ ((Call.create .leads [("name", .str "Jane"), ("phone", .str "555"),
        ("email", .str "a@b.com")]).exec sampleEnv Store.empty "alice").proposals,
      (prop e.2 "status").includedIn ["draft", "sent", "accepted", "rejected", "revised"] = true) ∧
    (∀ e ∈ ((Call.create .leads [("name", .str "Jane"), ("phone", .str "555"),
        ("email", .str "a@b.com")]).exec sampleEnv Store.empty "alice").support_tickets,
      (prop e.2 "status").includedIn ["open", "in_progress", "resolved", "closed"] = true)) :=
  ⟨Reachable.step _ _ _ _ Reachable.empty,
    reachable_statuses_valid _ (Reachable.step _ _ _ _ Reachable.empty)⟩

/-! ## C7: a status outside the enum -/

/-- C7, as stated, fails: `PUT /leads/:id` by the owner with the status set to the empty
string, or to the number 0, neither a member of the enum, is not rejected: it answers 200. -/
theorem lead_update_falsy_status_accepted :
    docGet sampleStore.leads "l1" = some aliceLead ∧
    (prop aliceLead "clientId").strictNe "alice" = false ∧
    (JVal.str "").includedIn CollName.leads.statusEnum = false ∧
    (leadsPut sampleEnv sampleStore "alice" "l1" [("status", .str "")]).1.status = 200 ∧
    (JVal.num 0).includedIn CollName.leads.statusEnum = false ∧
    (leadsPut sampleEnv sampleStore "alice" "l1" [("status", .num 0)]).1.status = 200 := by
  refine ⟨rfl, rfl, rfl, ?_, rfl, ?_⟩ <;> decide

/-- C7, amended: on the lead update handler and the three status-only handlers, called by the
record's owner with a status value (outcome for appointments) that is not a member of the
variant's enum, the request is rejected with 400 Invalid status (400 Invalid outcome on
appointments) and nothing is written, provided that on the lead update handler the value is
truthy; on the lead update handler a falsy value (absent, empty string, null, 0, false) counts
as not provided: the request is answered 200 and the update does not write status. In both
cases the record's persisted status is unchanged. -/
theorem invalid_status_rejected (r : ById) (env : Env) (db : Store) (uid id : String)
    (body : Obj) (d : Doc) (hr : r.isStatusUpdate = true)
    (hget : docGet (db.coll r.coll) id = some d)
    (hown : (prop d "clientId").strictNe uid = false)
    (hbad : (prop body r.coll.statusField).includedIn r.coll.statusEnum = false) :
    ((r = .leadsPut → (prop body "status").truthy = true) →
      (r.run env db uid id body).1.status = 400 ∧
      (r.run env db uid id body).1.error =
        .str (if r = .appointmentsPutOutcome then "Invalid outcome" else "Invalid status") ∧
      (r.run env db uid id body).2 = [] ∧
      (Call.byId r id body).exec env db uid = db ∧
      (docGet (((Call.byId r id body).exec env db uid).coll r.coll) id).map
        (fun x => prop x r.coll.statusField) = some (prop d r.coll.statusField)) ∧
    (r = .leadsPut → (prop body "status").truthy = false →
      (r.run env db uid id body).1.status = 200 ∧
      (r.run env db uid id body).2 = [.update .leads id (leadsPutData env body)] ∧
      (∀ v, ("status", v) ∉ leadsPutData env body) ∧
      (docGet (((Call.byId r id body).exec env db uid).coll r.coll) id).map
        (fun x => prop x r.coll.statusField) = some (prop d r.coll.statusField)) := by
  have hthrow : docRefThrows id = false := docRefThrows_of_docGet _ _ _ hget
  have hrej : ∀ resp : Response, r.run env db uid id body = (resp, []) →
      (Call.byId r id body).exec env db uid = db ∧
      (docGet (((Call.byId r id body).exec env db uid).coll r.coll) id).map
        (fun x => prop x r.coll.statusField) = some (prop d r.coll.statusField) := by
    intro resp hrun
    have hex : (Call.byId r id body).exec env db uid = db := by
      simp [Call.exec, Call.run, hrun, Store.applyAll]
    rw [hex, hget]
    exact ⟨rfl, rfl⟩
  cases r <;> (try (exact absurd hr (by decide)))
  case leadsPut =>
    have hget' : docGet db.leads id = some d := hget
    have hbad' : (prop body "status").includedIn leadStatuses = false := hbad
    refine ⟨fun ht => ?_, fun _ hf => ?_⟩
    · have h1 : ById.run .leadsPut env db uid id body =
          (jsonError 400 "Invalid status" "Status must be one of: hot, warm, cold, dead", []) := by
        simp [ById.run, leadsPut, hget', hown, ht rfl, hbad', hthrow]
      obtain ⟨h2, h3⟩ := hrej _ h1
      refine ⟨by rw [h1]; rfl, by rw [h1]; rfl, by rw [h1], h2, h3⟩
    · have h1 : ById.run .leadsPut env db uid id body =
          (jsonOk "Lead updated successfully", [.update .leads id (leadsPutData env body)]) := by
        simp [ById.run, leadsPut, hget', hown, hf, hthrow]
      have hno : ∀ v, ("status", v) ∉ leadsPutData env body := fun v hv => by
        have hP := forall_mem_leadsPutData
          (fun e => e.1 = "status" → (prop body "status").truthy = true)
          env body (by simp) (fun _ => by simp) (fun _ => by simp) (fun _ => by simp)
          (fun h => by simp [h]) (by simp) (fun _ => by simp) _ hv rfl
        rw [hf] at hP
        exact Bool.false_ne_true hP
      refine ⟨by rw [h1]; rfl, by rw [h1], hno, ?_⟩
      simp only [Call.exec, Call.run, h1, Store.applyAll, List.foldl_cons, List.foldl_nil,
        Store.apply, ById.coll, Store.coll, CollName.statusField]
      show Option.map (fun x => prop x "status")
        (docGet (docUpdate db.leads id (leadsPutData env body)) id) = some (prop d "status")
      rw [docGet_docUpdate, hget']
      simp only [Option.map_some', if_true]
      rw [prop_spread_of_not_mem _ _ _ hno]
  case appointmentsPutOutcome =>
    have hbad0 : (prop body "outcome").includedIn
        ["scheduled", "completed", "no-show", "follow-up", "cancelled"] = false := hbad
    have hbad' : (prop body "outcome").includedIn validOutcomes = false := by
      cases hv : (prop body "outcome").includedIn validOutcomes
      · rfl
      · rw [includedIn_of_subset _ _ _ hv (by decide)] at hbad0
        exact absurd hbad0 (by decide)
    refine ⟨fun _ => ?_, fun h => absurd h (by decide)⟩
    have h1 : ById.run .appointmentsPutOutcome env db uid id body =
        (jsonError 400 "Invalid outcome"
          "Outcome must be one of: completed, no-show, follow-up, cancelled", []) := by
      simp [ById.run, appointmentsPutOutcome, hbad']
    obtain ⟨h2, h3⟩ := hrej _ h1
    refine ⟨by rw [h1]; rfl, by rw [h1]; rfl, by rw [h1], h2, h3⟩
  case proposalsPutStatus =>
    have hbad' : (prop body "status").includedIn proposalStatuses = false := hbad
    refine ⟨fun _ => ?_, fun h => absurd h (by decide)⟩
    have h1 : ById.run .proposalsPutStatus env db uid id body =
        (jsonError 400 "Invalid status"
          "Status must be one of: draft, sent, accepted, rejected, revised", []) := by
      simp [ById.run, proposalsPutStatus, hbad']
    obtain ⟨h2, h3⟩ := hrej _ h1
    refine ⟨by rw [h1]; rfl, by rw [h1]; rfl, by rw [h1], h2, h3⟩
  case supportPutStatus =>
    have hbad' : (prop body "status").includedIn ticketStatuses = false := hbad
    refine ⟨fun _ => ?_, fun h => absurd h (by decide)⟩
    have h1 : ById.run .supportPutStatus env db uid id body =
        (jsonError 400 "Invalid status"
          "Status must be one of: open, in_progress, resolved, closed", []) := by
      simp [ById.run, supportPutStatus, hbad']
    obtain ⟨h2, h3⟩ := hrej _ h1
    refine ⟨by rw [h1]; rfl, by rw [h1]; rfl, by rw [h1], h2, h3⟩

/-- Witness for C7 (amended): alice sets an unknown status on her lead. -/
theorem invalid_status_rejected_witness :
    (ById.leadsPut.run sampleEnv sampleStore "alice" "l1" [("status", .str "lukewarm")]).1.status = 400 ∧
    (ById.leadsPut.run sampleEnv sampleStore "alice" "l1" [("status", .str "lukewarm")]).1.error =
      .str "Invalid status" ∧
    (ById.leadsPut.run sampleEnv sampleStore "alice" "l1" [("status", .str "lukewarm")]).2 = [] ∧
    (Call.byId .leadsPut "l1" [("status", .str "lukewarm")]).exec sampleEnv sampleStore "alice" =
      sampleStore :=
  ⟨((invalid_status_rejected .leadsPut sampleEnv sampleStore "alice" "l1"
      [("status", .str "lukewarm")] aliceLead rfl rfl rfl rfl).1 (fun _ => rfl)).1,
    ((invalid_status_rejected .leadsPut sampleEnv sampleStore "alice" "l1"
      [("status", .str "lukewarm")] aliceLead rfl rfl rfl rfl).1 (fun _ => rfl)).2.1,
    ((invalid_status_rejected .leadsPut sampleEnv sampleStore "alice" "l1"
      [("status", .str "lukewarm")] aliceLead rfl rfl rfl rfl).1 (fun _ => rfl)).2.2.1,
    ((invalid_status_rejected .leadsPut sampleEnv sampleStore "alice" "l1"
      [("status", .str "lukewarm")] aliceLead rfl rfl rfl rfl).1 (fun _ => rfl)).2.2.2.1⟩

/-! ## C8: an appointment needs an owned lead -/

theorem ne_empty_of_not_docRefThrows (path : String) (h : docRefThrows path = false) :
    path ≠ "" := by
  intro hp
  rw [hp] at h
  exact absurd h (by decide)

/-- C8 fails on a leadId the store client refuses as a document path: `POST /appointments`
with leadId `x/y`, or with the number 5, and with date and time, names no lead that exists, and
is answered 500 Failed to create appointment, not 404. Nothing is written. -/
theorem appointment_refused_lead_id_answers_500 :
    (prop [("leadId", .str "x/y"), ("date", .str "2024-06-01"), ("time", .str "10:00")]
      "leadId").truthy = true ∧
    docGet sampleStore.leads "x/y" = none ∧
    (appointmentsPost sampleEnv sampleStore "alice"
      [("leadId", .str "x/y"), ("date", .str "2024-06-01"), ("time", .str "10:00")]).1.status =
        500 ∧
    (appointmentsPost sampleEnv sampleStore "alice"
      [("leadId", .str "x/y"), ("date", .str "2024-06-01"), ("time", .str "10:00")]).1.error =
        .str "Failed to create appointment" ∧
    (appointmentsPost sampleEnv sampleStore "alice"
      [("leadId", .str "x/y"), ("date", .str "2024-06-01"), ("time", .str "10:00")]).2 = [] ∧
    (appointmentsPost sampleEnv sampleStore "alice"
      [("leadId", .num 5), ("date", .str "2024-06-01"), ("time", .str "10:00")]).1.status =
        500 ∧
    (appointmentsPost sampleEnv sampleStore "alice"
      [("leadId", .num 5), ("date", .str "2024-06-01"), ("time", .str "10:00")]).2 = [] := by
  refine ⟨rfl, rfl, by decide, rfl, rfl, by decide, rfl⟩

/-- C8, for a leadId that is a string: on every `POST /appointments` request whose date and
time pass the required-field check of the handler, if the leadId is a document path the store
client accepts and the store holds no lead under it, the answer is 404 Lead not found; if the
lead exists and its clientId differs from the principal's uid, the answer is 403 Access denied;
in both cases nothing is written, so no appointment is added; and whenever the handler does add
an appointment, the referenced lead exists and is owned by the principal. -/
theorem appointment_requires_owned_lead (env : Env) (db : Store) (uid : String) (body : Obj)
    (lid : String) (hlead : prop body "leadId" = .str lid)
    (hdate : (prop body "date").truthy = true) (htime : (prop body "time").truthy = true) :
    (docRefThrows lid = false → docGet db.leads lid = none →
      (appointmentsPost env db uid body).1.status = 404 ∧
      (appointmentsPost env db uid body).1.error = .str "Lead not found" ∧
      (appointmentsPost env db uid body).2 = [] ∧
      (Call.create .appointments body).exec env db uid = db) ∧
    (∀ d, docGet db.leads lid = some d → (prop d "clientId").strictNe uid = true →
      (appointmentsPost env db uid body).1.status = 403 ∧
      (appointmentsPost env db uid body).1.error = .str "Access denied" ∧
      (appointmentsPost env db uid body).2 = [] ∧
      (Call.create .appointments body).exec env db uid = db) ∧
    (∀ eff ∈ (appointmentsPost env db uid body).2,
      eff = .add .appointments env.autoId (appointmentsPostData env uid body) ∧
      ∃ d, docGet db.leads lid = some d ∧ (prop d "clientId").strictNe uid = false) := by
  have ht : docRefThrows lid = false → (JVal.str lid).truthy = true := fun h => by
    simpa [JVal.truthy] using ne_empty_of_not_docRefThrows lid h
  refine ⟨fun hok hnone => ?_, fun d hd hne => ?_, ?_⟩
  · have h1 : appointmentsPost env db uid body =
        (jsonError 404 "Lead not found" "The specified lead does not exist", []) := by
      simp [appointmentsPost, hlead, ht hok, hdate, htime, docPath, hok, hnone]
    simp [Call.exec, Call.run, Create.run, h1, Store.applyAll, status_jsonError, error_jsonError]
  · have hok : docRefThrows lid = false := docRefThrows_of_docGet _ _ _ hd
    have h1 : appointmentsPost env db uid body =
        (jsonError 403 "Access denied"
          "You do not have permission to create appointments for this lead", []) := by
      simp [appointmentsPost, hlead, ht hok, hdate, htime, docPath, hok, hd, hne]
    simp [Call.exec, Call.run, Create.run, h1, Store.applyAll, status_jsonError, error_jsonError]
  · intro eff heff
    cases hok : docRefThrows lid with
    | true =>
      exfalso
      simp only [appointmentsPost, hlead, docPath, hok, if_true] at heff
      split_ifs at heff <;> simp at heff
    | false =>
      simp only [appointmentsPost, hlead, ht hok, hdate, htime, docPath, hok, Bool.not_true,
        Bool.or_self, Bool.false_eq_true, if_false] at heff
      cases hd : docGet db.leads lid with
      | none => simp [hd] at heff
      | some d =>
        simp only [hd] at heff
        cases hne : (prop d "clientId").strictNe uid with
        | true => simp [hne] at heff
        | false =>
          simp only [hne, Bool.false_eq_true, if_false] at heff
          split_ifs at heff
          · simp at heff
          · exact ⟨List.mem_singleton.mp heff, d, rfl, hne⟩

/-- Witness for C8: bob asks for an appointment on a lead of alice. -/
theorem appointment_requires_owned_lead_witness :
    (appointmentsPost sampleEnv sampleStore "bob"
      [("leadId", .str "l1"), ("date", .str "2024-06-01"), ("time", .str "10:00")]).1.status = 403 ∧
    (appointmentsPost sampleEnv sampleStore "bob"
      [("leadId", .str "l1"), ("date", .str "2024-06-01"), ("time", .str "10:00")]).1.error =
        .str "Access denied" ∧
    (appointmentsPost sampleEnv sampleStore "bob"
      [("leadId", .str "l1"), ("date", .str "2024-06-01"), ("time", .str "10:00")]).2 = [] ∧
    (Call.create .appointments
      [("leadId", .str "l1"), ("date", .str "2024-06-01"), ("time", .str "10:00")]).exec
        sampleEnv sampleStore "bob" = sampleStore :=
  (appointment_requires_owned_lead sampleEnv sampleStore "bob"
    [("leadId", .str "l1"), ("date", .str "2024-06-01"), ("time", .str "10:00")] "l1" rfl
    rfl rfl).2.1 aliceLead rfl rfl

/-! ## C9: replies are appended -/

theorem eq_arr_of_orElse (v : JVal) (xs : List JVal) (h : v.orElse (.arr []) = .arr xs)
    (hne : xs ≠ []) : v = .arr xs := by
  unfold JVal.orElse at h
  split at h
  · exact h
  · injection h with h
    exact absurd h.symm hne

/-- One accepted reply: the response is 200 and the ticket afterwards keeps its owner and holds
the old replies followed by the new one. -/
theorem reply_step (env : Env) (db : Store) (uid id : String) (body : Obj) (d : Doc)
    (old : List JVal) (hget : docGet db.support_tickets id = some d)
    (hown : (prop d "clientId").strictNe uid = false)
    (hold : (prop d "replies").orElse (.arr []) = .arr old)
    (hmsg : (prop body "message").truthy = true) :
    (supportPostReply env db uid id body).1.status = 200 ∧
    ∃ d', docGet ((Call.byId .supportPostReply id body).exec env db uid).support_tickets id =
        some d' ∧
      prop d' "clientId" = prop d "clientId" ∧
      prop d' "replies" = .arr (old ++ [.obj (replyData env (prop body "message"))]) := by
  have h1 : supportPostReply env db uid id body =
      (jsonData 200 (some "Reply added successfully") (.obj (replyData env (prop body "message"))),
        [.update .support_tickets id
          [("replies", .arr (old ++ [.obj (replyData env (prop body "message"))])),
           ("last_updated", .str (env.iso 1))]]) := by
    simp [supportPostReply, hmsg, hget, hown, hold, docRefThrows_of_docGet _ _ _ hget]
  refine ⟨by rw [h1]; rfl, spread d [("replies", .arr (old ++ [.obj (replyData env
    (prop body "message"))])), ("last_updated", .str (env.iso 1))], ?_, ?_, ?_⟩
  · simp only [Call.exec, Call.run, ById.run, h1, Store.applyAll, List.foldl_cons,
      List.foldl_nil, Store.apply, Store.coll]
    show docGet (docUpdate db.support_tickets id _) id = _
    rw [docGet_docUpdate, hget]
    simp
  · exact prop_spread_of_not_mem _ _ _ (by simp)
  · simp [spread, prop_setProp]

/-- A sequence of accepted replies on a ticket of the principal appends one entry per request,
in request order, after the replies the ticket had. -/
theorem replyAll_spec (uid id : String) (calls : List (Env × Obj)) :
    ∀ (db : Store) (d : Doc) (old : List JVal), docGet db.support_tickets id = some d →
      (prop d "clientId").strictNe uid = false →
      (prop d "replies").orElse (.arr []) = .arr old →
      (∀ c ∈ calls, (prop c.2 "message").truthy = true) →
      (∀ r ∈ replyResponses db uid id calls, r.status = 200) ∧
      ∃ d', docGet (replyAll db uid id calls).support_tickets id = some d' ∧
        (prop d' "replies").orElse (.arr []) =
          .arr (old ++ calls.map (fun c => .obj (replyData c.1 (prop c.2 "message")))) := by
  induction calls with
  | nil =>
    intro db d old hget _ hold _
    exact ⟨by simp [replyResponses], d, hget, by simpa using hold⟩
  | cons c rest ih =>
    intro db d old hget hown hold hmsg
    obtain ⟨h200, d1, hget1, hown1, hrep1⟩ :=
      reply_step c.1 db uid id c.2 d old hget hown hold (hmsg c (List.mem_cons_self _ _))
    have hold1 : (prop d1 "replies").orElse (.arr []) =
        .arr (old ++ [.obj (replyData c.1 (prop c.2 "message"))]) := by
      rw [hrep1]; rfl
    obtain ⟨hall, d', hget', hrep'⟩ := ih _ d1 _ hget1 (by rw [hown1]; exact hown) hold1
      (fun x hx => hmsg x (List.mem_cons_of_mem _ hx))
    refine ⟨?_, d', hget', ?_⟩
    · intro r hr
      simp only [replyResponses, List.mem_cons] at hr
      rcases hr with hr | hr
      · rw [hr]; exact h200
      · exact hall r hr
    · rw [hrep']; simp

/-- C9: on a ticket owned by the principal whose reply list is absent or empty, after N accepted
`POST /support/reply/:id` requests made one after the other (each with a non-empty message) every
response is 200 and the stored reply list has exactly N entries, the i-th holding the message of
the i-th request and the author client; one accepted request on an owned ticket with replies
`old` stores `old` followed by the new entry, so earlier entries are neither removed nor
reordered; and a request whose message is missing or empty (falsy) is answered 400 and writes
nothing. -/
theorem replies_append_only (db : Store) (uid id : String) (d : Doc) (calls : List (Env × Obj))
    (hget : docGet db.support_tickets id = some d)
    (hown : (prop d "clientId").strictNe uid = false)
    (hempty : prop d "replies" = .undefined ∨ prop d "replies" = .arr [])
    (hmsg : ∀ c ∈ calls, (prop c.2 "message").truthy = true) :
    (∀ r ∈ replyResponses db uid id calls, r.status = 200) ∧
    (calls ≠ [] → ∃ d', docGet (replyAll db uid id calls).support_tickets id = some d' ∧
      prop d' "replies" = .arr (calls.map (fun c => .obj (replyData c.1 (prop c.2 "message"))))) ∧
    (calls.map (fun c => JVal.obj (replyData c.1 (prop c.2 "message")))).length = calls.length ∧
    (∀ env m, prop (replyData env m) "message" = m ∧ prop (replyData env m) "author" = .str "client") ∧
    (∀ env body db1 d1 old, docGet db1.support_tickets id = some d1 →
      (prop d1 "clientId").strictNe uid = false → prop d1 "replies" = .arr old →
      (prop body "message").truthy = true →
      ∃ d', docGet ((Call.byId .supportPostReply id body).exec env db1 uid).support_tickets id =
          some d' ∧
        prop d' "replies" = .arr (old ++ [.obj (replyData env (prop body "message"))])) ∧
    (∀ env body db1, (prop body "message").truthy = false →
      (supportPostReply env db1 uid id body).1.status = 400 ∧
      (supportPostReply env db1 uid id body).2 = [] ∧
      (Call.byId .supportPostReply id body).exec env db1 uid = db1) := by
  have hold : (prop d "replies").orElse (.arr []) = .arr [] := by
    rcases hempty with h | h <;> rw [h] <;> rfl
  obtain ⟨hall, d', hget', hrep'⟩ := replyAll_spec uid id calls db d [] hget hown hold hmsg
  refine ⟨hall, fun hne => ?_, by simp, fun env m => ⟨rfl, rfl⟩, ?_, ?_⟩
  · refine ⟨d', hget', ?_⟩
    rw [List.nil_append] at hrep'
    exact eq_arr_of_orElse _ _ hrep' (by simpa using hne)
  · intro env body db1 d1 old hg ho hr hm
    obtain ⟨_, d2, hget2, _, hrep2⟩ :=
      reply_step env db1 uid id body d1 old hg ho (by rw [hr]; rfl) hm
    exact ⟨d2, hget2, hrep2⟩
  · intro env body db1 hm
    have h1 : supportPostReply env db1 uid id body =
        (jsonError 400 "Missing required fields" "Message is required", []) := by
      simp [supportPostReply, hm]
    simp [Call.exec, Call.run, ById.run, h1, Store.applyAll, status_jsonError]

/-- Witness for C9: alice replies twice to her ticket, which has no replies yet. -/
theorem replies_append_only_witness :
    ∃ d', docGet (replyAll sampleStore "alice" "t1" sampleReplies).support_tickets "t1" = some d' ∧
      prop d' "replies" = .arr [.obj (replyData sampleEnv (.str "first")),
        .obj (replyData sampleEnv (.str "second"))] :=
  (replies_append_only sampleStore "alice" "t1" aliceTicket sampleReplies rfl rfl (Or.inl rfl)
    (by
      intro c hc
      simp only [sampleReplies, List.mem_cons, List.mem_singleton, List.not_mem_nil,
        or_false] at hc
      rcases hc with h | h <;> rw [h] <;> rfl)).2.1 (by simp [sampleReplies])

/-! ## C10: the header rules of `verifyToken` -/

/-- A header that starts with the scheme marker and has nothing after it is the marker. -/
theorem eq_bearer_of_empty_token (s : String) (hs : jsStartsWith s "Bearer " = true)
    (hdrop : s.data.drop 7 = []) : s = "Bearer " := by
  unfold jsStartsWith at hs
  obtain ⟨t, ht⟩ := List.isPrefixOf_iff_prefix.mp hs
  have h7 : ("Bearer " : String).data.length = 7 := by decide
  have ht' : t = [] := by
    rw [← ht, List.drop_append_of_le_length (by rw [h7]), ← h7, List.drop_length,
      List.nil_append] at hdrop
    exact hdrop
  rw [ht', List.append_nil] at ht
  exact String.ext ht.symm

theorem verifyFailure_ne_unauthorized (error : Obj) (message : String) :
    verifyFailure error ≠ jsonError 401 "Unauthorized" message := by
  unfold verifyFailure
  split
  · split_ifs <;> simp [jsonError]
  · simp [jsonError]

/-- What `verifyToken` does on a header that passes the first check: it rejects the token
format without calling the verifier, or it calls the verifier once and proceeds, or it calls the
verifier once and answers with the mapped failure. -/
theorem verifyToken_cases (verifyIdToken : String → Verdict) (s : String)
    (hs : (s = "" || !jsStartsWith s "Bearer ") = false) :
    verifyToken verifyIdToken (some s) =
        ⟨some (jsonError 401 "Unauthorized" "Invalid token format"), .undefined, 0, []⟩ ∨
      (∃ token decoded, verifyToken verifyIdToken (some s) = ⟨none, userOf decoded, 1, [token]⟩) ∨
      (∃ token error, verifyToken verifyIdToken (some s) =
        ⟨some (verifyFailure error), .undefined, 0, [token]⟩) := by
  simp only [verifyToken, hs, Bool.false_eq_true, if_false]
  split
  · exact Or.inl rfl
  · split_ifs
    · exact Or.inl rfl
    · split
      · exact Or.inr (Or.inl ⟨_, _, rfl⟩)
      · exact Or.inr (Or.inr ⟨_, _, rfl⟩)

/-- C10: `verifyToken` answers 401 Unauthorized, No token provided, exactly when the
Authorization header is absent or does not start with the scheme marker; it answers 401
Unauthorized, Invalid token format, when the header starts with the marker and nothing follows
it; and whenever it gives one of these two answers the verifier is not called and `next()` is
not invoked. -/
theorem verifyToken_header_rules (verifyIdToken : String → Verdict) (authHeader : Option String) :
    ((verifyToken verifyIdToken authHeader).response =
        some (jsonError 401 "Unauthorized" "No token provided") ↔
      (authHeader = none ∨ ∃ s, authHeader = some s ∧ jsStartsWith s "Bearer " = false)) ∧
    (∀ s, authHeader = some s → jsStartsWith s "Bearer " = true → s.data.drop 7 = [] →
      (verifyToken verifyIdToken authHeader).response =
        some (jsonError 401 "Unauthorized" "Invalid token format")) ∧
    ((verifyToken verifyIdToken authHeader).response =
          some (jsonError 401 "Unauthorized" "No token provided") ∨
        (verifyToken verifyIdToken authHeader).response =
          some (jsonError 401 "Unauthorized" "Invalid token format") →
      (verifyToken verifyIdToken authHeader).verifierCalls = [] ∧
      (verifyToken verifyIdToken authHeader).nextCalls = 0) := by
  cases authHeader with
  | none =>
    refine ⟨⟨fun _ => Or.inl rfl, fun _ => rfl⟩, ?_, fun _ => ⟨rfl, rfl⟩⟩
    intro s hs
    cases hs
  | some s =>
    cases hg : (s = "" || !jsStartsWith s "Bearer ") with
    | true =>
      have hv : verifyToken verifyIdToken (some s) =
          ⟨some (jsonError 401 "Unauthorized" "No token provided"), .undefined, 0, []⟩ := by
        simp only [verifyToken, hg, if_true]
      have hns : jsStartsWith s "Bearer " = false := by
        simp only [Bool.or_eq_true, decide_eq_true_eq, Bool.not_eq_true'] at hg
        rcases hg with h | h
        · rw [h]; decide
        · exact h
      refine ⟨⟨fun _ => Or.inr ⟨s, rfl, hns⟩, fun _ => by rw [hv]⟩, fun t ht hst _ => ?_,
        fun _ => by rw [hv]; exact ⟨rfl, rfl⟩⟩
      injection ht with ht
      rw [← ht, hns] at hst
      exact absurd hst (by decide)
    | false =>
      have hst : jsStartsWith s "Bearer " = true := by
        simp only [Bool.or_eq_false_iff, Bool.not_eq_false'] at hg
        exact hg.2
      refine ⟨⟨fun h => ?_, fun h => ?_⟩, fun t ht _ hdrop => ?_, fun h => ?_⟩
      · rcases verifyToken_cases verifyIdToken s hg with hc | ⟨_, _, hc⟩ | ⟨_, e, hc⟩
        · rw [hc] at h; simp [jsonError] at h
        · rw [hc] at h; simp at h
        · rw [hc] at h
          simp only [Option.some.injEq] at h
          exact absurd h (verifyFailure_ne_unauthorized e _)
      · rcases h with h | ⟨t, ht, hnt⟩
        · cases h
        · injection ht with ht
          rw [← ht, hst] at hnt
          exact absurd hnt (by decide)
      · injection ht with ht
        subst ht
        have hb := eq_bearer_of_empty_token s hst hdrop
        subst hb
        rfl
      · rcases verifyToken_cases verifyIdToken s hg with hc | ⟨_, _, hc⟩ | ⟨_, e, hc⟩
        · rw [hc]; exact ⟨rfl, rfl⟩
        · rw [hc] at h; simp at h
        · rw [hc] at h
          simp only [Option.some.injEq] at h
          rcases h with h | h <;> exact absurd h (verifyFailure_ne_unauthorized e _)

/-- Witness for C10: the header holds the scheme marker and no token. -/
theorem verifyToken_header_rules_witness :
    (verifyToken (fun _ => .rejected []) (some "Bearer ")).response =
      some (jsonError 401 "Unauthorized" "Invalid token format") :=
  (verifyToken_header_rules (fun _ => .rejected []) (some "Bearer ")).2.1 "Bearer " rfl rfl rfl

/-! ## C11: the verifier outcome in `verifyToken` -/

/-- C11: when the header passes the header checks and `token` is what `verifyToken` extracts
from it, then: if the verifier accepts the token, `req.user` is the object of uid, email and
email_verified of the decoded token, `next()` is called once and no response is sent; if the
verifier fails, `next()` is not called and the response is 401 Token expired for the code
auth/id-token-expired, 401 Token revoked for the code auth/id-token-revoked, and 401 Invalid
token for every other failure. -/
theorem verifyToken_verifier_mapping (verifyIdToken : String → Verdict) (header token : String)
    (hst : jsStartsWith header "Bearer " = true)
    (htok : (jsSplit header "Bearer ").get? 1 = some token) (hne : token ≠ "") :
    (∀ decoded, verifyIdToken token = .accepted decoded →
      (verifyToken verifyIdToken (some header)).response = none ∧
      (verifyToken verifyIdToken (some header)).nextCalls = 1 ∧
      (verifyToken verifyIdToken (some header)).user =
        .obj [("uid", prop decoded "uid"), ("email", prop decoded "email"),
          ("email_verified", prop decoded "email_verified")]) ∧
    (∀ error, verifyIdToken token = .rejected error →
      (verifyToken verifyIdToken (some header)).nextCalls = 0 ∧
      (prop error "code" = .str "auth/id-token-expired" →
        (verifyToken verifyIdToken (some header)).response =
          some (jsonError 401 "Token expired" "Your session has expired. Please login again.")) ∧
      (prop error "code" = .str "auth/id-token-revoked" →
        (verifyToken verifyIdToken (some header)).response =
          some (jsonError 401 "Token revoked" "Your session has been revoked. Please login again.")) ∧
      (prop error "code" ≠ .str "auth/id-token-expired" →
        prop error "code" ≠ .str "auth/id-token-revoked" →
        (verifyToken verifyIdToken (some header)).response =
          some (jsonError 401 "Invalid token" "Authentication failed"))) := by
  have hh : header ≠ "" := by
    intro h
    rw [h] at hst
    exact absurd hst (by decide)
  have hg : (header = "" || !jsStartsWith header "Bearer ") = false := by
    simp [hh, hst]
  refine ⟨fun decoded hv => ?_, fun error hv => ?_⟩
  · have h1 : verifyToken verifyIdToken (some header) = ⟨none, userOf decoded, 1, [token]⟩ := by
      simp only [verifyToken, hg, htok, hne, hv, Bool.false_eq_true, if_false]
    rw [h1]
    exact ⟨rfl, rfl, rfl⟩
  · have h1 : verifyToken verifyIdToken (some header) =
        ⟨some (verifyFailure error), .undefined, 0, [token]⟩ := by
      simp only [verifyToken, hg, htok, hne, hv, Bool.false_eq_true, if_false]
    rw [h1]
    refine ⟨rfl, fun hc => ?_, fun hc => ?_, fun h1 h2 => ?_⟩
    · simp [verifyFailure, hc]
    · simp [verifyFailure, hc]
    · show some (verifyFailure error) = _
      unfold verifyFailure
      split
      · rename_i code hcode
        have e1 : code ≠ "auth/id-token-expired" := fun h => h1 (by rw [hcode, h])
        have e2 : code ≠ "auth/id-token-revoked" := fun h => h2 (by rw [hcode, h])
        simp [e1, e2]
      · rfl

/-- Witness for C11: the verifier reports an expired token. -/
theorem verifyToken_verifier_mapping_witness :
    (verifyToken (fun _ => .rejected [("code", .str "auth/id-token-expired")])
      (some "Bearer abc")).response =
        some (jsonError 401 "Token expired" "Your session has expired. Please login again.") :=
  ((verifyToken_verifier_mapping (fun _ => .rejected [("code", .str "auth/id-token-expired")])
    "Bearer abc" "abc" rfl rfl (by decide)).2 _ rfl).2.1 rfl

/-! ## C12: the token handed to the verifier -/

/-- C12, evaluated at a header whose token contains the scheme marker: for the header
`Bearer abc Bearer def` both middlewares hand `abc ` to the verifier, not `abc Bearer def`; for
the header `Bearer Bearer abc` neither calls the verifier, and `verifyToken` answers Invalid
token format. -/
theorem token_cut_at_second_marker (verifyIdToken : String → Verdict) :
    (verifyToken verifyIdToken (some "Bearer abc Bearer def")).verifierCalls = ["abc "] ∧
    (optionalAuth verifyIdToken (some "Bearer abc Bearer def")).verifierCalls = ["abc "] ∧
    (verifyToken verifyIdToken (some "Bearer Bearer abc")).verifierCalls = [] ∧
    (verifyToken verifyIdToken (some "Bearer Bearer abc")).response =
      some (jsonError 401 "Unauthorized" "Invalid token format") ∧
    (optionalAuth verifyIdToken (some "Bearer Bearer abc")).verifierCalls = [] := by
  have h1 : (jsSplit "Bearer abc Bearer def" "Bearer ").get? 1 = some "abc " := by decide
  have h2 : (jsSplit "Bearer Bearer abc" "Bearer ").get? 1 = some "" := by decide
  have g1 : ("Bearer abc Bearer def" = "" || !jsStartsWith "Bearer abc Bearer def" "Bearer ") =
      false := by decide
  have g2 : ("Bearer Bearer abc" = "" || !jsStartsWith "Bearer Bearer abc" "Bearer ") =
      false := by decide
  have n1 : ("abc " : String) ≠ "" := by decide
  refine ⟨?_, ?_, ?_, ?_, ?_⟩
  · simp only [verifyToken, g1, h1, n1, Bool.false_eq_true, if_false]
    cases verifyIdToken "abc " <;> rfl
  · simp only [optionalAuth, g1, h1, n1, Bool.false_eq_true, if_false]
    cases verifyIdToken "abc " <;> rfl
  · simp only [verifyToken, g2, h2, Bool.false_eq_true, if_false, if_true]
  · simp only [verifyToken, g2, h2, Bool.false_eq_true, if_false, if_true]
  · simp only [optionalAuth, g2, h2, Bool.false_eq_true, if_false, if_true]

/-! ## C13: `optionalAuth` against `verifyToken` -/

/-- C13: for every header and every verifier, `optionalAuth` sends no response and calls
`next()` exactly once; it hands the verifier the same tokens as `verifyToken`; whenever
`verifyToken` proceeds, `req.user` is the same under both; and whenever `verifyToken` sends a
response, that response is a 401 and `optionalAuth` leaves `req.user` null. -/
theorem optionalAuth_agrees (verifyIdToken : String → Verdict) (authHeader : Option String) :
    (optionalAuth verifyIdToken authHeader).response = none ∧
    (optionalAuth verifyIdToken authHeader).nextCalls = 1 ∧
    (optionalAuth verifyIdToken authHeader).verifierCalls =
      (verifyToken verifyIdToken authHeader).verifierCalls ∧
    ((verifyToken verifyIdToken authHeader).nextCalls = 1 →
      (verifyToken verifyIdToken authHeader).response = none ∧
      (optionalAuth verifyIdToken authHeader).user =
        (verifyToken verifyIdToken authHeader).user) ∧
    (∀ r, (verifyToken verifyIdToken authHeader).response = some r →
      r.status = 401 ∧ (verifyToken verifyIdToken authHeader).nextCalls = 0 ∧
      (optionalAuth verifyIdToken authHeader).user = .null) := by
  have hf : ∀ e, (verifyFailure e).status = 401 := by
    intro e
    unfold verifyFailure
    split
    · split_ifs <;> rfl
    · rfl
  cases authHeader with
  | none => simp [optionalAuth, verifyToken, status_jsonError]
  | some s =>
    simp only [optionalAuth, verifyToken]
    split_ifs
    · simp [status_jsonError]
    · split
      · simp [status_jsonError]
      · split_ifs
        · simp [status_jsonError]
        · split <;> simp [hf]

/-- Witness for C13: a header without the scheme marker. -/
theorem optionalAuth_agrees_witness :
    (optionalAuth (fun _ => .rejected []) (some "Token abc")).user = .null :=
  ((optionalAuth_agrees (fun _ => .rejected []) (some "Token abc")).2.2.2.2 _ rfl).2.2

theorem splitGo_of_no_space (t : List Char) (h : ' ' ∉ t) :
    splitGo "Bearer ".data t 0 = [t] := by
  induction t with
  | nil => rfl
  | cons c cs ih =>
    have hp : ("Bearer ".data).isPrefixOf (c :: cs) = false := by
      cases hb : ("Bearer ".data).isPrefixOf (c :: cs) with
      | false => rfl
      | true =>
        obtain ⟨r, hr⟩ := List.isPrefixOf_iff_prefix.mp hb
        have : ' ' ∈ c :: cs := by
          rw [← hr]
          exact List.mem_append_left _ (by decide)
        exact absurd this h
    have hcs : ' ' ∉ cs := fun hx => h (List.mem_cons_of_mem _ hx)
    simp only [splitGo, hp, Bool.false_eq_true, if_false, ih hcs]

theorem jsSplit_bearer_of_no_space (t : String) (h : ' ' ∉ t.data) :
    jsSplit ("Bearer " ++ t) "Bearer " = ["", t] := by
  have hd : ("Bearer " ++ t).data = 'B' :: 'e' :: 'a' :: 'r' :: 'e' :: 'r' :: ' ' :: t.data := rfl
  unfold jsSplit
  rw [hd]
  have h0 : splitGo "Bearer ".data ('B' :: 'e' :: 'a' :: 'r' :: 'e' :: 'r' :: ' ' :: t.data) 0 =
      [] :: splitGo "Bearer ".data t.data 0 := by
    have hp : ("Bearer ".data).isPrefixOf ('B' :: 'e' :: 'a' :: 'r' :: 'e' :: 'r' :: ' ' :: t.data) =
        true := List.isPrefixOf_iff_prefix.mpr ⟨t.data, rfl⟩
    rw [splitGo, if_pos hp]
    rfl
  rw [h0, splitGo_of_no_space t.data h]
  rfl

/-- Where C12 does hold: a token without a space (every token in the three-part dotted format of
the credential provider) is handed to the verifier whole by both middlewares. -/
theorem token_without_space_passed_whole (verifyIdToken : String → Verdict) (t : String)
    (hne : t ≠ "") (h : ' ' ∉ t.data) :
    (verifyToken verifyIdToken (some ("Bearer " ++ t))).verifierCalls = [t] ∧
    (optionalAuth verifyIdToken (some ("Bearer " ++ t))).verifierCalls = [t] := by
  have hst : jsStartsWith ("Bearer " ++ t) "Bearer " = true :=
    List.isPrefixOf_iff_prefix.mpr ⟨t.data, rfl⟩
  have hh : ("Bearer " ++ t) ≠ "" := by
    intro hx
    rw [hx] at hst
    exact absurd hst (by decide)
  have hg : ("Bearer " ++ t = "" || !jsStartsWith ("Bearer " ++ t) "Bearer ") = false := by
    simp [hh, hst]
  have htok : (jsSplit ("Bearer " ++ t) "Bearer ").get? 1 = some t := by
    rw [jsSplit_bearer_of_no_space t h]; rfl
  constructor
  · simp only [verifyToken, hg, htok, hne, Bool.false_eq_true, if_false]
    cases verifyIdToken t <;> rfl
  · simp only [optionalAuth, hg, htok, hne, Bool.false_eq_true, if_false]
    cases verifyIdToken t <;> rfl

/-! ## C14: the download link -/

/-- C14 fails on an id the store client refuses as a document path: for the id `a/b`, which
no proposal has, `GET /proposals/download/:id` answers 500 Failed to generate download URL,
not 404 Proposal not found. Nothing is written. -/
theorem download_refused_id_answers_500 :
    docGet sampleStore.proposals "a/b" = none ∧
    docRefThrows "a/b" = true ∧
    (proposalsDownload sampleEnv sampleStore "alice" "a/b").1.status = 500 ∧
    (proposalsDownload sampleEnv sampleStore "alice" "a/b").1.error =
      .str "Failed to generate download URL" ∧
    (proposalsDownload sampleEnv sampleStore "alice" "a/b").2 = [] := by
  refine ⟨rfl, rfl, by decide, rfl, rfl⟩

/-- C14, for an id the store client accepts as a document path: `GET /proposals/download/:id`
answers 404 Proposal not found when the store holds no proposal under the id; 403 when the
proposal's clientId differs from the principal's uid; 404 PDF not available when the owned
proposal's pdf_url is null, empty or otherwise falsy; and when the pdf_url is set and the blob
store returns a URL for it, requested with expiry now + 15 minutes (in milliseconds), it
answers 200 with that URL and expires_in 900. In every case, for every id, the document store
after the request is the store before it. -/
theorem download_decision_table (env : Env) (db : Store) (uid id : String) (body : Obj) :
    (docRefThrows id = false → docGet db.proposals id = none →
      (proposalsDownload env db uid id).1.status = 404 ∧
      (proposalsDownload env db uid id).1.error = .str "Proposal not found" ∧
      (proposalsDownload env db uid id).2 = []) ∧
    (∀ d, docGet db.proposals id = some d → (prop d "clientId").strictNe uid = true →
      (proposalsDownload env db uid id).1.status = 403 ∧
      (proposalsDownload env db uid id).2 = []) ∧
    (∀ d, docGet db.proposals id = some d → (prop d "clientId").strictNe uid = false →
      (prop d "pdf_url").truthy = false →
      (proposalsDownload env db uid id).1.status = 404 ∧
      (proposalsDownload env db uid id).1.error = .str "PDF not available" ∧
      (proposalsDownload env db uid id).2 = []) ∧
    (∀ d url, docGet db.proposals id = some d → (prop d "clientId").strictNe uid = false →
      (prop d "pdf_url").truthy = true →
      env.getSignedUrl (prop d "pdf_url") (env.nowMs + 900000) = .ok url →
      (proposalsDownload env db uid id).1 =
        jsonData 200 none (.obj [("download_url", url), ("expires_in", .num 900)]) ∧
      (proposalsDownload env db uid id).2 = [.signedUrl (prop d "pdf_url") (env.nowMs + 900000)]) ∧
    (Call.byId .proposalsDownload id body).exec env db uid = db := by
  have h900 : (15 * 60 : ℚ) = 900 := by norm_num
  have hthrow : ∀ d, docGet db.proposals id = some d → docRefThrows id = false :=
    fun d hd => docRefThrows_of_docGet _ _ _ hd
  refine ⟨fun hok hn => ?_, fun d hd hne => ?_, fun d hd hown hf => ?_,
    fun d url hd hown ht hu => ?_, ?_⟩
  · simp [proposalsDownload, hok, hn, status_jsonError, error_jsonError]
  · simp [proposalsDownload, hthrow d hd, hd, hne, status_jsonError]
  · simp [proposalsDownload, hthrow d hd, hd, hown, hf, status_jsonError, error_jsonError]
  · have he : env.nowMs + 15 * 60 * 1000 = env.nowMs + 900000 := by norm_num
    simp [proposalsDownload, hthrow d hd, hd, hown, ht, he, hu, h900]
  · have hall : ∀ eff ∈ (proposalsDownload env db uid id).2, ∃ p e, eff = .signedUrl p e := by
      simp only [proposalsDownload]
      repeat' (first | (intro eff heff; simp at heff; done) | split)
      all_goals
        intro eff heff
        exact ⟨_, _, List.mem_singleton.mp heff⟩
    simp only [Call.exec, Call.run, ById.run, Store.applyAll]
    generalize (proposalsDownload env db uid id).2 = effs at hall
    induction effs with
    | nil => rfl
    | cons e rest ih =>
      obtain ⟨p, x, hp⟩ := hall e (List.mem_cons_self _ _)
      rw [List.foldl_cons, hp]
      exact ih (fun y hy => hall y (List.mem_cons_of_mem _ hy))

/-- Witness for C14: alice asks for the link of her proposal, which has a file. -/
theorem download_decision_table_witness :
    (proposalsDownload sampleEnv sampleStoreEdited "alice" "p1").1 =
      jsonData 200 none (.obj [("download_url", .str "https://storage.example/signed"),
        ("expires_in", .num 900)]) ∧
    (proposalsDownload sampleEnv sampleStoreEdited "alice" "p1").2 =
      [.signedUrl (prop aliceProposalEdited "pdf_url") (sampleEnv.nowMs + 900000)] :=
  (download_decision_table sampleEnv sampleStoreEdited "alice" "p1" []).2.2.2.1
    aliceProposalEdited (.str "https://storage.example/signed") rfl rfl rfl rfl

/-! ## C16: the status of a created record -/

/-- C16, as stated, fails: `POST /leads` with status hot in the body is accepted and stores the
lead with status hot, not with the default warm. -/
theorem lead_created_with_body_status :
    (leadsPost sampleEnv sampleStore "alice" [("name", .str "Jane"), ("phone", .str "555"),
      ("email", .str "a@b.com"), ("status", .str "hot")]).1.status = 201 ∧
    (leadsPost sampleEnv sampleStore "alice" [("name", .str "Jane"), ("phone", .str "555"),
      ("email", .str "a@b.com"), ("status", .str "hot")]).2 =
        [.add .leads "doc1" (leadsPostData sampleEnv "alice" [("name", .str "Jane"),
          ("phone", .str "555"), ("email", .str "a@b.com"), ("status", .str "hot")])] ∧
    prop (leadsPostData sampleEnv "alice" [("name", .str "Jane"), ("phone", .str "555"),
      ("email", .str "a@b.com"), ("status", .str "hot")]) "status" = .str "hot" := by
  refine ⟨by decide, rfl, rfl⟩

theorem withDefault_of_ne (v d : JVal) (h : v ≠ .undefined) : v.withDefault d = v := by
  cases v <;> first | rfl | exact absurd rfl h

theorem data_jsonData (code : Nat) (message : Option String) (data : JVal) :
    (jsonData code message data).data = data := by
  cases message <;> rfl

/-- An accepted create request: the handler adds the document it built and returns it with the
generated id. -/
theorem create_accepted (r : Create) (env : Env) (db : Store) (uid : String) (body : Obj)
    (hacc : (r.run env db uid body).1.status = 201) :
    ∃ m, r.run env db uid body =
      (jsonData 201 (some m) (.obj (spread [("id", .str env.autoId)] (r.postData env uid body))),
        [.add r.coll env.autoId (r.postData env uid body)]) := by
  revert hacc
  cases r <;>
    simp only [Create.run, Create.coll, Create.postData, leadsPost, appointmentsPost,
      proposalsPost, supportPost] <;>
    repeat' (first
      | (intro h; simp [status_jsonError] at h; done)
      | (intro _; exact ⟨_, rfl⟩)
      | split)

/-- An accepted create request on leads or proposals: the status read from the body, or the
default in its place, is a member of the enum. -/
theorem create_accepted_status (r : Create) (env : Env) (db : Store) (uid : String) (body : Obj)
    (hacc : (r.run env db uid body).1.status = 201) (ht : r.takesStatus = true) :
    ((prop body "status").withDefault (.str r.defaultStatus)).includedIn r.coll.statusEnum =
      true := by
  cases r
  case leads =>
    simp only [Create.run, leadsPost] at hacc
    split_ifs at hacc with h1 h2 h3
    · simp [status_jsonError] at hacc
    · simp [status_jsonError] at hacc
    · simp [status_jsonError] at hacc
    · simpa [leadStatuses] using h2
  case proposals =>
    simp only [Create.run, proposalsPost] at hacc
    split_ifs at hacc with h1 h2 h3
    · simp [status_jsonError] at hacc
    · simp [status_jsonError] at hacc
    · simp [status_jsonError] at hacc
    · simpa [proposalStatuses] using h2
  case appointments => cases ht
  case support => cases ht

/-- C16, amended: for every request body accepted by a create handler (answered 201), the
record that is persisted and the record that is returned have the same status: the default of
the variant on appointments (outcome scheduled) and support tickets (open); on leads and
proposals the status of the body when the body has one (it is then a member of the enum), and
the default (warm, draft) when the body has none. -/
theorem create_status (r : Create) (env : Env) (db : Store) (uid : String) (body : Obj)
    (hacc : (r.run env db uid body).1.status = 201) :
    (∃ data, (r.run env db uid body).2 = [.add r.coll env.autoId data] ∧
      prop data r.coll.statusField = r.storedStatus body ∧
      (r.run env db uid body).1.data = .obj (spread [("id", .str env.autoId)] data) ∧
      prop (spread [("id", .str env.autoId)] data) r.coll.statusField = r.storedStatus body) ∧
    (r.takesStatus = false → r.storedStatus body = .str r.defaultStatus) ∧
    (prop body "status" = .undefined → r.storedStatus body = .str r.defaultStatus) ∧
    (r.takesStatus = true → prop body "status" ≠ .undefined →
      r.storedStatus body = prop body "status" ∧
      (prop body "status").includedIn r.coll.statusEnum = true) := by
  obtain ⟨m, hrun⟩ := create_accepted r env db uid body hacc
  refine ⟨⟨r.postData env uid body, by rw [hrun], ?_, by rw [hrun]; exact data_jsonData 201 (some m) _, ?_⟩,
    fun h => by simp [Create.storedStatus, h], fun h => ?_, fun ht hne => ?_⟩
  · cases r <;> rfl
  · cases r <;>
      simp [spread, Create.postData, leadsPostData, appointmentsPostData, proposalsPostData,
        supportPostData, prop_setProp, CollName.statusField, Create.coll, Create.storedStatus,
        Create.takesStatus, Create.defaultStatus]
  · cases r <;>
      simp [Create.storedStatus, Create.takesStatus, Create.defaultStatus, h, JVal.withDefault]
  · have hw := withDefault_of_ne (prop body "status") (.str r.defaultStatus) hne
    have hv := create_accepted_status r env db uid body hacc ht
    rw [hw] at hv
    exact ⟨by simp [Create.storedStatus, ht, hw], hv⟩

/-- Witness for C16 (amended): alice creates a lead without a status. -/
theorem create_status_witness :
    ∃ data, (Create.leads.run sampleEnv sampleStore "alice" [("name", .str "Jane"),
        ("phone", .str "555"), ("email", .str "a@b.com")]).2 =
          [.add Create.leads.coll sampleEnv.autoId data] ∧
      prop data Create.leads.coll.statusField = Create.leads.storedStatus [("name", .str "Jane"),
        ("phone", .str "555"), ("email", .str "a@b.com")] ∧
      (Create.leads.run sampleEnv sampleStore "alice" [("name", .str "Jane"),
        ("phone", .str "555"), ("email", .str "a@b.com")]).1.data =
          .obj (spread [("id", .str sampleEnv.autoId)] data) ∧
      prop (spread [("id", .str sampleEnv.autoId)] data) Create.leads.coll.statusField =
        Create.leads.storedStatus [("name", .str "Jane"), ("phone", .str "555"),
          ("email", .str "a@b.com")] :=
  (create_status .leads sampleEnv sampleStore "alice" [("name", .str "Jane"),
    ("phone", .str "555"), ("email", .str "a@b.com")] (by decide)).1

/-! ## C17: the refreshed timestamp -/

/-- C17, as stated, fails: `PUT /support/status/:id` by the owner with a valid status is answered
200, and the update it writes has the entries status and last_updated only: the ticket's
updated_at keeps its old value, which is not the time of the call. -/
theorem ticket_updated_at_not_refreshed :
    (supportPutStatus sampleEnv sampleStore "alice" "t1" [("status", .str "resolved")]).1.status =
      200 ∧
    (supportPutStatus sampleEnv sampleStore "alice" "t1" [("status", .str "resolved")]).2 =
      [.update .support_tickets "t1"
        [("status", .str "resolved"), ("last_updated", .str "2024-05-01T10:00:00.000Z")]] ∧
    (docGet ((Call.byId .supportPutStatus "t1" [("status", .str "resolved")]).exec sampleEnv
      sampleStore "alice").support_tickets "t1").map (fun d => prop d "updated_at") =
        some (.str "2024-04-01T09:00:00.000Z") ∧
    sampleEnv.iso 0 = "2024-05-01T10:00:00.000Z" := by
  refine ⟨by decide, rfl, rfl, rfl⟩

/-- What an accepted update request (answered 200) issues: one `update` of the addressed,
existing record, whose object has exactly one value for the refreshed timestamp property, the
time of the call; on the two support routes the object has no updated_at entry. -/
theorem update_accepted (r : ById) (env : Env) (db : Store) (uid id : String) (body : Obj)
    (hr : r.isUpdate = true) (hok : (r.run env db uid id body).1.status = 200) :
    ∃ data d, docGet (db.coll r.coll) id = some d ∧
      (r.run env db uid id body).2 = [.update r.coll id data] ∧
      (r.stampField, .str (env.iso r.stampIndex)) ∈ data ∧
      (∀ v, (r.stampField, v) ∈ data → v = .str (env.iso r.stampIndex)) ∧
      (r.stampField = "last_updated" → ∀ v, ("updated_at", v) ∉ data) := by
  have hthrow : docRefThrows id = false := by
    cases h : docRefThrows id with
    | false => rfl
    | true =>
      exfalso
      revert hok
      cases r <;> (try (exact absurd hr (by decide))) <;>
        simp only [ById.run, leadsPut, appointmentsPutOutcome, proposalsPutStatus,
          supportPutStatus, supportPostReply, h, if_true] <;>
        (repeat' (first | (intro hok; simp [status_jsonError] at hok; done) | split))
  cases r <;> (try (exact absurd hr (by decide)))
  case leadsPut =>
    simp only [ById.run, leadsPut] at hok ⊢
    simp only [hthrow, Bool.false_eq_true, if_false] at hok ⊢
    simp only [ById.coll, Store.coll, ById.stampField, ById.stampIndex]
    cases hd : docGet db.leads id with
    | none => simp [hd, status_jsonError] at hok
    | some d =>
      simp only [hd] at hok ⊢
      split_ifs at hok ⊢ with h1 h2
      · simp [status_jsonError] at hok
      · simp [status_jsonError] at hok
      · refine ⟨leadsPutData env body, d, rfl, rfl, ?_, fun v hv => ?_, fun h => absurd h (by decide)⟩
        · unfold leadsPutData
          apply mem_setIfTruthy_of_ne _ _ _ _ _ (by simp)
          apply mem_setIfDefined_of_ne _ _ _ _ _ (by simp)
          apply mem_setIfTruthy_of_ne _ _ _ _ _ (by simp)
          apply mem_setIfTruthy_of_ne _ _ _ _ _ (by simp)
          apply mem_setIfTruthy_of_ne _ _ _ _ _ (by simp)
          apply mem_setIfTruthy_of_ne _ _ _ _ _ (by simp)
          exact List.mem_singleton.mpr rfl
        · exact forall_mem_leadsPutData (fun e => e.1 = "updated_at" → e.2 = .str (env.iso 0))
            env body (by simp) (fun _ => by simp) (fun _ => by simp) (fun _ => by simp)
            (fun _ => by simp) (by simp) (fun _ => by simp) _ hv rfl
  case appointmentsPutOutcome =>
    simp only [ById.run, appointmentsPutOutcome] at hok ⊢
    simp only [hthrow, Bool.false_eq_true, if_false] at hok ⊢
    simp only [ById.coll, Store.coll, ById.stampField, ById.stampIndex]
    split_ifs at hok ⊢ with h0
    · simp [status_jsonError] at hok
    · cases hd : docGet db.appointments id with
      | none => simp [hd, status_jsonError] at hok
      | some d =>
        simp only [hd] at hok ⊢
        split_ifs at hok ⊢ with h1
        · simp [status_jsonError] at hok
        · refine ⟨appointmentsPutOutcomeData env body, d, rfl, rfl, ?_, fun v hv => ?_,
            fun h => absurd h (by decide)⟩
          · unfold appointmentsPutOutcomeData
            apply mem_setIfDefined_of_ne _ _ _ _ _ (by simp)
            simp
          · exact forall_mem_appointmentsPutOutcomeData
              (fun e => e.1 = "updated_at" → e.2 = .str (env.iso 0)) env body (by simp) (by simp)
              (by simp) _ hv rfl
  case proposalsPutStatus =>
    simp only [ById.run, proposalsPutStatus] at hok ⊢
    simp only [hthrow, Bool.false_eq_true, if_false] at hok ⊢
    simp only [ById.coll, Store.coll, ById.stampField, ById.stampIndex]
    split_ifs at hok ⊢ with h0
    · simp [status_jsonError] at hok
    · cases hd : docGet db.proposals id with
      | none => simp [hd, status_jsonError] at hok
      | some d =>
        simp only [hd] at hok ⊢
        split_ifs at hok ⊢ with h1
        · simp [status_jsonError] at hok
        · exact ⟨proposalsPutStatusData env body, d, rfl, rfl, by simp [proposalsPutStatusData],
            fun v hv => by simpa [proposalsPutStatusData] using hv, fun h => absurd h (by decide)⟩
  case supportPutStatus =>
    simp only [ById.run, supportPutStatus] at hok ⊢
    simp only [hthrow, Bool.false_eq_true, if_false] at hok ⊢
    simp only [ById.coll, Store.coll, ById.stampField, ById.stampIndex]
    split_ifs at hok ⊢ with h0
    · simp [status_jsonError] at hok
    · cases hd : docGet db.support_tickets id with
      | none => simp [hd, status_jsonError] at hok
      | some d =>
        simp only [hd] at hok ⊢
        split_ifs at hok ⊢ with h1
        · simp [status_jsonError] at hok
        · exact ⟨supportPutStatusData env body, d, rfl, rfl, by simp [supportPutStatusData],
            fun v hv => by simpa [supportPutStatusData] using hv,
            fun _ v hv => by simp [supportPutStatusData] at hv⟩
  case supportPostReply =>
    simp only [ById.run, supportPostReply] at hok ⊢
    simp only [hthrow, Bool.false_eq_true, if_false] at hok ⊢
    simp only [ById.coll, Store.coll, ById.stampField, ById.stampIndex]
    split_ifs at hok ⊢ with h0
    · simp [status_jsonError] at hok
    · cases hd : docGet db.support_tickets id with
      | none => simp [hd, status_jsonError] at hok
      | some d =>
        simp only [hd] at hok ⊢
        split_ifs at hok ⊢ with h1
        · simp [status_jsonError] at hok
        · split at hok
          · rename_i replies hrep
            simp only [hrep]
            exact ⟨_, d, rfl, rfl, by simp, fun v hv => by simpa using hv,
              fun _ v hv => by simp at hv⟩
          · simp [status_jsonError] at hok

/-- C17, amended: every accepted request (answered 200) to one of the five updating handlers
writes one update whose object sets the refreshed timestamp property to the time of the call,
and the stored record holds that time afterwards. The property is updated_at on lead update,
appointment outcome update and proposal status update; on support status update and support
reply it is last_updated, and the update has no updated_at entry, so the ticket's updated_at
keeps the value it had. -/
theorem update_refreshes_stamp (r : ById) (env : Env) (db : Store) (uid id : String)
    (body : Obj) (hr : r.isUpdate = true) (hok : (r.run env db uid id body).1.status = 200) :
    ∃ data d, docGet (db.coll r.coll) id = some d ∧
      (r.run env db uid id body).2 = [.update r.coll id data] ∧
      (r.stampField, .str (env.iso r.stampIndex)) ∈ data ∧
      (docGet (((Call.byId r id body).exec env db uid).coll r.coll) id).map
        (fun x => prop x r.stampField) = some (.str (env.iso r.stampIndex)) ∧
      (r.stampField = "last_updated" →
        (∀ v, ("updated_at", v) ∉ data) ∧
        (docGet (((Call.byId r id body).exec env db uid).coll r.coll) id).map
          (fun x => prop x "updated_at") = some (prop d "updated_at")) := by
  obtain ⟨data, d, hget, heff, hmem, huniq, hno⟩ := update_accepted r env db uid id body hr hok
  have hafter : docGet (((Call.byId r id body).exec env db uid).coll r.coll) id =
      some (spread d data) := by
    simp only [Call.exec, Call.run, heff, Store.applyAll, List.foldl_cons, List.foldl_nil,
      Store.apply, coll_setColl, if_true, docGet_docUpdate, hget, Option.map_some']
  refine ⟨data, d, hget, heff, hmem, ?_, fun hf => ⟨hno hf, ?_⟩⟩
  · rw [hafter, Option.map_some', prop_spread_of_unique data d _ _ hmem huniq]
  · rw [hafter, Option.map_some', prop_spread_of_not_mem data d "updated_at" (hno hf)]

/-- Witness for C17 (amended): alice sets the status of her lead. -/
theorem update_refreshes_stamp_witness :
    ∃ data d, docGet (sampleStore.coll ById.leadsPut.coll) "l1" = some d ∧
      (ById.leadsPut.run sampleEnv sampleStore "alice" "l1" [("status", .str "hot")]).2 =
        [.update ById.leadsPut.coll "l1" data] ∧
      (ById.leadsPut.stampField, .str (sampleEnv.iso ById.leadsPut.stampIndex)) ∈ data ∧
      (docGet (((Call.byId .leadsPut "l1" [("status", .str "hot")]).exec sampleEnv sampleStore
        "alice").coll ById.leadsPut.coll) "l1").map (fun x => prop x ById.leadsPut.stampField) =
          some (.str (sampleEnv.iso ById.leadsPut.stampIndex)) ∧
      (ById.leadsPut.stampField = "last_updated" →
        (∀ v, ("updated_at", v) ∉ data) ∧
        (docGet (((Call.byId .leadsPut "l1" [("status", .str "hot")]).exec sampleEnv sampleStore
          "alice").coll ById.leadsPut.coll) "l1").map (fun x => prop x "updated_at") =
            some (prop d "updated_at")) :=
  update_refreshes_stamp .leadsPut sampleEnv sampleStore "alice" "l1" [("status", .str "hot")]
    rfl (by decide)

/-! ## C18: required fields on create -/

theorem error_jsonData (code : Nat) (message : Option String) (data : JVal) :
    (jsonData code message data).error = .undefined := by
  cases message <;> rfl

/-- C18 fails on a proposal whose amount is the number 0: `POST /proposals` with a title, a
description and the numeric amount 0 (no field absent, none an empty string) is answered 400
Missing required fields. -/
theorem proposal_amount_zero_rejected :
    prop [("title", .str "Website"), ("description", .str "Redesign"), ("amount", .num 0)]
      "amount" = .num 0 ∧
    (proposalsPost sampleEnv sampleStore "alice" [("title", .str "Website"),
      ("description", .str "Redesign"), ("amount", .num 0)]).1.status = 400 ∧
    (proposalsPost sampleEnv sampleStore "alice" [("title", .str "Website"),
      ("description", .str "Redesign"), ("amount", .num 0)]).1.error =
        .str "Missing required fields" := by
  refine ⟨rfl, by decide, ?_⟩
  simp [proposalsPost, prop, List.lookup, JVal.truthy, error_jsonError]

/-- A create handler answers Missing required fields exactly on its first check. -/
theorem create_missing_iff (r : Create) (env : Env) (db : Store) (uid : String) (body : Obj)
    (c : Bool) (msg : String) (rest : Outcome)
    (hrun : r.run env db uid body =
      if c = true then (jsonError 400 "Missing required fields" msg, []) else rest)
    (hrest : rest.1.error ≠ .str "Missing required fields") :
    ((r.run env db uid body).1.error = .str "Missing required fields" ↔ c = true) ∧
    (c = true → (r.run env db uid body).1.status = 400 ∧ (r.run env db uid body).2 = []) := by
  rw [hrun]
  cases c
  · simp [hrest]
  · simp [status_jsonError, error_jsonError]

/-- The required-field check of a create handler is a truthiness test: the handler answers 400
Missing required fields, and persists nothing, if and only if a required field of the variant is
falsy in the body (absent, an empty string, null, false or the number 0). -/
theorem missing_fields_iff (r : Create) (env : Env) (db : Store) (uid : String) (body : Obj) :
    ((r.run env db uid body).1.error = .str "Missing required fields" ↔
      ∃ f ∈ r.required, (prop body f).truthy = false) ∧
    ((∃ f ∈ r.required, (prop body f).truthy = false) →
      (r.run env db uid body).1.status = 400 ∧ (r.run env db uid body).2 = [] ∧
      (Call.create r body).exec env db uid = db) := by
  have key : ∃ c : Bool, (c = true ↔ ∃ f ∈ r.required, (prop body f).truthy = false) ∧
      ((r.run env db uid body).1.error = .str "Missing required fields" ↔ c = true) ∧
      (c = true → (r.run env db uid body).1.status = 400 ∧ (r.run env db uid body).2 = []) := by
    cases r
    case leads =>
      refine ⟨!(prop body "name").truthy || !(prop body "phone").truthy ||
        !(prop body "email").truthy, by simp [Create.required, or_assoc],
        create_missing_iff .leads env db uid body _ "Name, phone, and email are required" _ rfl ?_⟩
      repeat' (first | (simp [error_jsonError, error_jsonData]; done) | split)
    case appointments =>
      refine ⟨!(prop body "leadId").truthy || !(prop body "date").truthy ||
        !(prop body "time").truthy, by simp [Create.required, or_assoc],
        create_missing_iff .appointments env db uid body _ "Lead ID, date, and time are required"
          _ rfl ?_⟩
      repeat' (first | (simp [error_jsonError, error_jsonData]; done) | split)
    case proposals =>
      refine ⟨!(prop body "title").truthy || !(prop body "description").truthy ||
        !(prop body "amount").truthy, by simp [Create.required, or_assoc],
        create_missing_iff .proposals env db uid body _
          "Title, description, and amount are required" _ rfl ?_⟩
      repeat' (first | (simp [error_jsonError, error_jsonData]; done) | split)
    case support =>
      refine ⟨!(prop body "subject").truthy || !(prop body "message").truthy,
        by simp [Create.required],
        create_missing_iff .support env db uid body _ "Subject and message are required" _ rfl ?_⟩
      repeat' (first | (simp [error_jsonError, error_jsonData]; done) | split)
  obtain ⟨c, hc, hiff, h400⟩ := key
  refine ⟨hiff.trans hc, fun h => ?_⟩
  obtain ⟨h1, h2⟩ := h400 (hc.mpr h)
  exact ⟨h1, h2, by simp [Call.exec, Call.run, h2, Store.applyAll]⟩

theorem falsy_iff_absent_or_empty (v : JVal) (h1 : v ≠ .null) (h2 : v ≠ .bool false)
    (h3 : v ≠ .num 0) : v.truthy = false ↔ (v = .undefined ∨ v = .str "") := by
  cases v with
  | undefined => simp [JVal.truthy]
  | null => exact absurd rfl h1
  | bool b =>
    cases b
    · exact absurd rfl h2
    · simp [JVal.truthy]
  | num q =>
    have hq : q ≠ 0 := fun h => h3 (by rw [h])
    simp [JVal.truthy, hq]
  | str s => simp [JVal.truthy]
  | arr xs => simp [JVal.truthy]
  | obj fs => simp [JVal.truthy]

/-- C18, for bodies in which no required field is null, false or the number 0: a create handler
answers 400 Missing required fields, and persists nothing, if and only if at least one required
field of the variant is absent from the body or is an empty string (Lead: name, phone, email;
Appointment: leadId, date, time; Proposal: title, description, amount; SupportTicket: subject,
message); so a proposal with a title, a description and a numeric amount other than 0 is not
rejected as missing fields. -/
theorem missing_fields_iff_absent_or_empty (r : Create) (env : Env) (db : Store) (uid : String)
    (body : Obj)
    (hb : ∀ f ∈ r.required,
      prop body f ≠ .null ∧ prop body f ≠ .bool false ∧ prop body f ≠ .num 0) :
    ((r.run env db uid body).1.error = .str "Missing required fields" ↔
      ∃ f ∈ r.required, prop body f = .undefined ∨ prop body f = .str "") ∧
    ((∃ f ∈ r.required, prop body f = .undefined ∨ prop body f = .str "") →
      (r.run env db uid body).1.status = 400 ∧ (r.run env db uid body).2 = [] ∧
      (Call.create r body).exec env db uid = db) := by
  have hiff : (∃ f ∈ r.required, (prop body f).truthy = false) ↔
      ∃ f ∈ r.required, prop body f = .undefined ∨ prop body f = .str "" := by
    constructor
    · rintro ⟨f, hf, h⟩
      exact ⟨f, hf, (falsy_iff_absent_or_empty _ (hb f hf).1 (hb f hf).2.1 (hb f hf).2.2).mp h⟩
    · rintro ⟨f, hf, h⟩
      exact ⟨f, hf, (falsy_iff_absent_or_empty _ (hb f hf).1 (hb f hf).2.1 (hb f hf).2.2).mpr h⟩
  obtain ⟨h1, h2⟩ := missing_fields_iff r env db uid body
  exact ⟨h1.trans hiff, fun h => h2 (hiff.mpr h)⟩

/-- Witness for C18: a lead without an email. -/
theorem missing_fields_iff_absent_or_empty_witness :
    (Create.leads.run sampleEnv sampleStore "alice" [("name", .str "Jane"),
      ("phone", .str "555")]).1.status = 400 ∧
    (Create.leads.run sampleEnv sampleStore "alice" [("name", .str "Jane"),
      ("phone", .str "555")]).2 = [] ∧
    (Call.create .leads [("name", .str "Jane"), ("phone", .str "555")]).exec sampleEnv sampleStore
      "alice" = sampleStore :=
  (missing_fields_iff_absent_or_empty .leads sampleEnv sampleStore "alice"
    [("name", .str "Jane"), ("phone", .str "555")]
    (by
      intro f hf
      simp only [Create.required, List.mem_cons, List.mem_singleton, List.not_mem_nil,
        or_false] at hf
      rcases hf with h | h | h <;> subst h <;> refine ⟨?_, ?_, ?_⟩ <;>
        simp [prop, List.lookup])).2
    ⟨"email", by decide, Or.inl rfl⟩

/-! ## C19: the outcomes the appointment endpoint accepts -/

/-- C19, as stated, fails: `PUT /appointments/outcome/:id` by the owner with the outcome
scheduled, a member of the enum, is rejected with 400. -/
theorem outcome_scheduled_rejected :
    docGet sampleStoreBooked.appointments "a1" = some aliceAppointment ∧
    (prop aliceAppointment "clientId").strictNe "alice" = false ∧
    (JVal.str "scheduled").includedIn CollName.appointments.statusEnum = true ∧
    (appointmentsPutOutcome sampleEnv sampleStoreBooked "alice" "a1"
      [("outcome", .str "scheduled")]).1.status = 400 := by
  refine ⟨rfl, rfl, rfl, by decide⟩

/-- C19, amended: `PUT /appointments/outcome/:id`, called by the owner of an existing
appointment, accepts an outcome if and only if it is one of completed, no-show, follow-up,
cancelled; every other value, the enum member scheduled included, is rejected with 400
Invalid outcome, nothing is written and the stored outcome stays as it was; on acceptance the
stored outcome equals the supplied value. -/
theorem outcome_accepted_iff (env : Env) (db : Store) (uid id : String) (body : Obj) (d : Doc)
    (hget : docGet db.appointments id = some d)
    (hown : (prop d "clientId").strictNe uid = false) :
    ((appointmentsPutOutcome env db uid id body).1.status = 200 ↔
      (prop body "outcome").includedIn ["completed", "no-show", "follow-up", "cancelled"] =
        true) ∧
    ((prop body "outcome").includedIn ["completed", "no-show", "follow-up", "cancelled"] = false →
      (appointmentsPutOutcome env db uid id body).1.status = 400 ∧
      (appointmentsPutOutcome env db uid id body).1.error = .str "Invalid outcome" ∧
      (appointmentsPutOutcome env db uid id body).2 = [] ∧
      (Call.byId .appointmentsPutOutcome id body).exec env db uid = db) ∧
    ((prop body "outcome").includedIn ["completed", "no-show", "follow-up", "cancelled"] = true →
      (docGet ((Call.byId .appointmentsPutOutcome id body).exec env db uid).appointments id).map
        (fun x => prop x "outcome") = some (prop body "outcome")) := by
  have hthrow : docRefThrows id = false := docRefThrows_of_docGet _ _ _ hget
  cases hv : (prop body "outcome").includedIn ["completed", "no-show", "follow-up", "cancelled"]
  · have h1 : appointmentsPutOutcome env db uid id body =
        (jsonError 400 "Invalid outcome"
          "Outcome must be one of: completed, no-show, follow-up, cancelled", []) := by
      simp [appointmentsPutOutcome, validOutcomes, hv]
    have hex : (Call.byId .appointmentsPutOutcome id body).exec env db uid = db := by
      simp [Call.exec, Call.run, ById.run, h1, Store.applyAll]
    rw [h1]
    refine ⟨by simp [status_jsonError], fun _ => ⟨rfl, rfl, rfl, hex⟩, ?_⟩
    intro h
    exact absurd h (by decide)
  · have h1 : appointmentsPutOutcome env db uid id body =
        (jsonOk "Appointment outcome updated successfully",
          [.update .appointments id (appointmentsPutOutcomeData env body)]) := by
      simp [appointmentsPutOutcome, validOutcomes, hv, hget, hown, hthrow]
    have hmem : ("outcome", prop body "outcome") ∈ appointmentsPutOutcomeData env body := by
      unfold appointmentsPutOutcomeData
      apply mem_setIfDefined_of_ne _ _ _ _ _ (by simp)
      simp
    have huniq : ∀ w, ("outcome", w) ∈ appointmentsPutOutcomeData env body →
        w = prop body "outcome" := fun w hw =>
      forall_mem_appointmentsPutOutcomeData (fun e => e.1 = "outcome" → e.2 = prop body "outcome")
        env body (by simp) (by simp) (by simp) _ hw rfl
    refine ⟨by rw [h1]; simp [status_jsonOk], ?_, ?_⟩
    · intro h
      exact absurd h (by decide)
    intro _
    simp only [Call.exec, Call.run, ById.run, h1, Store.applyAll, List.foldl_cons,
      List.foldl_nil, Store.apply, Store.coll]
    show Option.map _ (docGet (docUpdate db.appointments id _) id) = _
    rw [docGet_docUpdate, hget]
    simp only [Option.map_some', if_true]
    rw [prop_spread_of_unique _ d _ _ hmem huniq]

/-- Witness for C19 (amended): alice marks her appointment completed. -/
theorem outcome_accepted_iff_witness :
    (docGet ((Call.byId .appointmentsPutOutcome "a1" [("outcome", .str "completed")]).exec
      sampleEnv sampleStoreBooked "alice").appointments "a1").map (fun x => prop x "outcome") =
        some (prop [("outcome", .str "completed")] "outcome") :=
  (outcome_accepted_iff sampleEnv sampleStoreBooked "alice" "a1" [("outcome", .str "completed")]
    aliceAppointment rfl rfl).2.2 rfl

/-! ## C20: deleting a proposal -/

/-- C20: `DELETE /proposals/:id` on a proposal owned by the principal answers 200 and removes
the record, whether the proposal has no attached file, or has one whose deletion in the blob
store succeeds, or has one whose deletion throws; when the proposal has a file, the blob
deletion is attempted first and the record deletion follows. -/
theorem proposal_delete_authoritative (env : Env) (db : Store) (uid id : String) (d : Doc)
    (hget : docGet db.proposals id = some d)
    (hown : (prop d "clientId").strictNe uid = false) :
    (proposalsDelete env db uid id).1.status = 200 ∧
    docGet ((Call.byId .proposalsDelete id []).exec env db uid).proposals id = none ∧
    ((prop d "pdf_url").truthy = false →
      (proposalsDelete env db uid id).2 = [.delete .proposals id]) ∧
    ((prop d "pdf_url").truthy = true → env.fileDeleteThrows (prop d "pdf_url") = false →
      (proposalsDelete env db uid id).2 =
        [.fileDelete (prop d "pdf_url") true, .delete .proposals id]) ∧
    ((prop d "pdf_url").truthy = true → env.fileDeleteThrows (prop d "pdf_url") = true →
      (proposalsDelete env db uid id).2 =
        [.fileDelete (prop d "pdf_url") false, .delete .proposals id]) := by
  have hthrow : docRefThrows id = false := docRefThrows_of_docGet _ _ _ hget
  have hrun : ∃ cleanup : List Effect, (∀ e ∈ cleanup, ∃ p ok, e = .fileDelete p ok) ∧
      proposalsDelete env db uid id =
        (jsonOk "Proposal deleted successfully", cleanup ++ [.delete .proposals id]) := by
    simp only [proposalsDelete, hthrow, hget, hown, Bool.false_eq_true, if_false]
    refine ⟨_, ?_, rfl⟩
    split_ifs <;> simp
  obtain ⟨cleanup, hcl, hrun'⟩ := hrun
  refine ⟨by rw [hrun']; rfl, ?_, fun hf => ?_, fun ht hs => ?_, fun ht hs => ?_⟩
  · have hfold : ∀ (l : List Effect) (s : Store), (∀ e ∈ l, ∃ p ok, e = .fileDelete p ok) →
        List.foldl Store.apply s l = s := by
      intro l
      induction l with
      | nil => intro s _; rfl
      | cons e l ih =>
        intro s hl
        obtain ⟨p, ok, hp⟩ := hl e (List.mem_cons_self _ _)
        rw [List.foldl_cons, hp]
        exact ih s (fun x hx => hl x (List.mem_cons_of_mem _ hx))
    simp only [Call.exec, Call.run, ById.run, hrun', Store.applyAll, List.foldl_append,
      hfold cleanup db hcl, List.foldl_cons, List.foldl_nil, Store.apply, Store.coll]
    show docGet (docDelete db.proposals id) id = none
    exact docGet_docDelete_self _ _
  · simp [proposalsDelete, hthrow, hget, hown, hf]
  · simp [proposalsDelete, hthrow, hget, hown, ht, hs]
  · simp [proposalsDelete, hthrow, hget, hown, ht, hs]

/-- Witness for C20: alice deletes her proposal, which has a file. -/
theorem proposal_delete_authoritative_witness :
    (proposalsDelete sampleEnv sampleStoreEdited "alice" "p1").1.status = 200 ∧
    docGet ((Call.byId .proposalsDelete "p1" []).exec sampleEnv sampleStoreEdited
      "alice").proposals "p1" = none ∧
    (proposalsDelete sampleEnv sampleStoreEdited "alice" "p1").2 =
      [.fileDelete (prop aliceProposalEdited "pdf_url") true, .delete .proposals "p1"] :=
  ⟨(proposal_delete_authoritative sampleEnv sampleStoreEdited "alice" "p1" aliceProposalEdited
      rfl rfl).1,
    (proposal_delete_authoritative sampleEnv sampleStoreEdited "alice" "p1" aliceProposalEdited
      rfl rfl).2.1,
    (proposal_delete_authoritative sampleEnv sampleStoreEdited "alice" "p1" aliceProposalEdited
      rfl rfl).2.2.2.1 rfl rfl⟩

/-! ## C15: what a list request returns -/

theorem beq_str_iff (v : JVal) (s : String) : JVal.beq v (.str s) = true ↔ v = .str s := by
  cases v <;> simp [JVal.beq]

theorem toNat?_natCast (n : Nat) : (JVal.num (n : ℚ)).toNat? = some n := by
  simp [JVal.toNat?]

theorem lookup_of_mem_nodup (d : Obj) (k : String) (v : JVal) (hnd : (d.map Prod.fst).Nodup)
    (hmem : (k, v) ∈ d) : d.lookup k = some v := by
  induction d with
  | nil => simp at hmem
  | cons e d ih =>
    obtain ⟨a, b⟩ := e
    simp only [List.map_cons, List.nodup_cons] at hnd
    rcases List.mem_cons.mp hmem with h | h
    · injection h with h1 h2
      subst h1; subst h2
      simp [List.lookup_cons]
    · have hne : k ≠ a := by
        intro hk
        subst hk
        exact hnd.1 (List.mem_map.mpr ⟨(k, v), h, rfl⟩)
      have hb : (k == a) = false := by simpa using hne
      rw [List.lookup_cons, hb]
      exact ih hnd.2 h

theorem mem_of_lookup (d : Obj) (k : String) (v : JVal) (h : d.lookup k = some v) :
    (k, v) ∈ d := by
  induction d with
  | nil => simp at h
  | cons e d ih =>
    obtain ⟨a, b⟩ := e
    by_cases hk : k = a
    · subst hk
      simp only [List.lookup_cons, beq_self_eq_true, Option.some.injEq] at h
      rw [h]
      exact List.mem_cons_self _ _
    · have hb : (k == a) = false := by simpa using hk
      rw [List.lookup_cons, hb] at h
      exact List.mem_cons_of_mem _ (ih h)

/-- The item of a well-formed record (no property twice) has, apart from `id`, the properties
of the record. -/
theorem prop_listItem_fields (id : String) (d : Doc) (k : String)
    (hnd : (d.map Prod.fst).Nodup) (hk : k ≠ "id") :
    prop (spread [("id", .str id)] d) k = prop d k := by
  by_cases hmem : k ∈ d.map Prod.fst
  · have h1 := prop_spread_mem d [("id", .str id)] k hmem
    have h2 := lookup_of_mem_nodup d k _ hnd h1
    simp only [prop, h2] at h1 ⊢
  · have hno : ∀ v, (k, v) ∉ d := fun v hv => hmem (List.mem_map.mpr ⟨(k, v), hv, rfl⟩)
    rw [prop_spread_of_not_mem d _ k hno]
    have hl : d.lookup k = none := by
      cases hd : d.lookup k with
      | none => rfl
      | some v =>
        exact absurd (List.mem_map.mpr ⟨(k, v), mem_of_lookup d k v hd, rfl⟩) hmem
    have hb : (k == "id") = false := by simpa using hk
    simp [prop, hl, List.lookup_cons, hb]

/-- The filters a list handler hands to the query select the records the request is to
return. -/
theorem filter_passes_eq_matching (r : Listing) (db : Store) (uid : String) (query : Obj) :
    (db.coll r.coll).filter (passes
      (if ((prop query "status").truthy && (prop query "status").strictNe "all") = true then
        [("clientId", JVal.str uid)] ++ [(r.coll.statusField, prop query "status")]
      else [("clientId", JVal.str uid)])) = r.matching db uid query := by
  unfold Listing.matching
  apply List.filter_congr
  intro e _
  split_ifs <;> simp [passes]

/-- A list handler runs `listDocs` on its collection with its status property. -/
theorem listing_run_eq (r : Listing) (env : Env) (db : Store) (uid : String) (query : Obj) :
    ∃ orderField failure, r.run env db uid query =
      listDocs env (db.coll r.coll) uid query r.coll.statusField orderField failure := by
  cases r <;> exact ⟨_, _, rfl⟩

/-- With `storeQuery` as the query engine and a limit and an offset that are natural numbers
once parsed, a list handler answers 200 with the items of a page of the matching records: the
matching records in descending order, `offset` of them skipped, at most `limit` kept. -/
theorem listing_page (r : Listing) (env : Env) (db : Store) (uid : String) (query : Obj)
    (n m : Nat) (hq : env.runQuery = storeQuery)
    (hlim : (env.parseInt ((prop query "limit").withDefault (.num 50))).toNat? = some n)
    (hoff : (env.parseInt ((prop query "offset").withDefault (.num 0))).toNat? = some m) :
    ∃ orderField, (r.run env db uid query).1.status = 200 ∧
      (r.run env db uid query).1.data = .arr (((((r.matching db uid query).insertionSort
        (fun a b => fieldDesc orderField a b = true)).drop m).take n).map listItem) ∧
      (r.run env db uid query).2 = [] := by
  obtain ⟨orderField, failure, hrun⟩ := listing_run_eq r env db uid query
  refine ⟨orderField, ?_⟩
  rw [hrun]
  simp only [listDocs, hq, hlim, hoff, storeQuery, filter_passes_eq_matching r db uid query]
  refine ⟨trivial, ?_, trivial⟩
  rfl

/-- With `storeQuery` as the query engine, a list handler whose limit or offset is no natural
number once parsed answers 500, without data. -/
theorem listing_refused (r : Listing) (env : Env) (db : Store) (uid : String) (query : Obj)
    (hq : env.runQuery = storeQuery)
    (hno : (env.parseInt ((prop query "limit").withDefault (.num 50))).toNat? = none ∨
      (env.parseInt ((prop query "offset").withDefault (.num 0))).toNat? = none) :
    (r.run env db uid query).1.status = 500 ∧
    (r.run env db uid query).1.data = .undefined ∧
    (r.run env db uid query).2 = [] := by
  obtain ⟨orderField, failure, hrun⟩ := listing_run_eq r env db uid query
  rw [hrun]
  simp only [listDocs, hq, storeQuery]
  rcases hno with h | h
  · rw [h]
    exact ⟨rfl, rfl, rfl⟩
  · rw [h]
    cases (env.parseInt ((prop query "limit").withDefault (.num 50))).toNat? <;>
      exact ⟨rfl, rfl, rfl⟩

/-- C15, as stated, fails: `GET /leads?status=` (the status parameter present, empty, and not
`all`) by alice, who owns three leads with the statuses hot, dead and warm, returns all three:
no returned item has status equal to the parameter. -/
theorem list_empty_status_unfiltered :
    prop [("status", .str "")] "status" = .str "" ∧
    (leadsList queryEnv threeLeadsStore "alice" [("status", .str "")]).1.status = 200 ∧
    (leadsList queryEnv threeLeadsStore "alice" [("status", .str "")]).1.data =
      .arr [listItem ("l3", aliceHotLead), listItem ("l2", aliceDeadLead),
        listItem ("l1", aliceLead)] ∧
    prop (spread [("id", .str "l3")] aliceHotLead) "status" = .str "hot" ∧
    prop (spread [("id", .str "l2")] aliceDeadLead) "status" = .str "dead" ∧
    prop (spread [("id", .str "l1")] aliceLead) "status" = .str "warm" := by
  refine ⟨rfl, by decide, rfl, rfl, rfl, rfl⟩

/-- C15, amended: with the query engine of the store (`storeQuery`), for every store,
principal and query, a list request writes nothing and every item it returns is the item of a
record of the collection whose clientId equals the principal's uid (and the item of a record
without a repeated property shows that clientId itself); when the status parameter is truthy
(present and not empty) and not `all`, the status (outcome for appointments) of every returned
record equals the parameter; when it is absent, empty or `all`, no status filter applies and the
matching records are all records of the principal; and when the limit and the offset, as the
handler parses them, are natural numbers, the answer is 200 with a page that holds exactly the
matching records if the offset is 0 and the matching records are no more than the limit, and
that is empty, not an error, if no record matches. -/
theorem list_scoped (r : Listing) (env : Env) (db : Store) (uid : String) (query : Obj)
    (hq : env.runQuery = storeQuery) :
    (r.run env db uid query).2 = [] ∧
    (∀ items, (r.run env db uid query).1.data = .arr items →
      ∃ page : List (String × Doc), items = page.map listItem ∧
        (∀ e ∈ page, e ∈ db.coll r.coll ∧ prop e.2 "clientId" = .str uid ∧
          ((e.2.map Prod.fst).Nodup →
            prop (spread [("id", .str e.1)] e.2) "clientId" = .str uid)) ∧
        (∀ s, prop query "status" = .str s → s ≠ "" → s ≠ "all" →
          ∀ e ∈ page, prop e.2 r.coll.statusField = .str s ∧
            ((e.2.map Prod.fst).Nodup →
              prop (spread [("id", .str e.1)] e.2) r.coll.statusField = .str s)) ∧
        ((prop query "status").truthy = true → (prop query "status").strictNe "all" = true →
          ∀ e ∈ page, JVal.beq (prop e.2 r.coll.statusField) (prop query "status") = true)) ∧
    (((prop query "status").truthy && (prop query "status").strictNe "all") = false →
      r.matching db uid query =
        (db.coll r.coll).filter (fun e => JVal.beq (prop e.2 "clientId") (.str uid))) ∧
    (∀ n m : Nat,
      env.parseInt ((prop query "limit").withDefault (.num 50)) = .num n →
      env.parseInt ((prop query "offset").withDefault (.num 0)) = .num m →
      (r.run env db uid query).1.status = 200 ∧
      ∃ page : List (String × Doc),
        (r.run env db uid query).1.data = .arr (page.map listItem) ∧
        (m = 0 → (r.matching db uid query).length ≤ n → page.Perm (r.matching db uid query)) ∧
        (r.matching db uid query = [] → page = [])) := by
  have hmatch : ∀ e ∈ r.matching db uid query, e ∈ db.coll r.coll ∧
      JVal.beq (prop e.2 "clientId") (.str uid) = true ∧
      ((prop query "status").truthy = true → (prop query "status").strictNe "all" = true →
        JVal.beq (prop e.2 r.coll.statusField) (prop query "status") = true) := by
    intro e he
    unfold Listing.matching at he
    obtain ⟨h1, h2⟩ := List.mem_filter.mp he
    simp only [Bool.and_eq_true] at h2
    refine ⟨h1, h2.1, fun ht hs => ?_⟩
    simpa [ht, hs] using h2.2
  have hstatusField : r.coll.statusField ≠ "id" := by
    cases r <;> decide
  have hsub : ∀ (orderField : String) (n m : Nat),
      ∀ e ∈ ((((r.matching db uid query).insertionSort
        (fun a b => fieldDesc orderField a b = true)).drop m).take n),
      e ∈ r.matching db uid query := fun _ _ _ e he =>
    (List.perm_insertionSort _ _).subset (List.mem_of_mem_drop (List.mem_of_mem_take he))
  have heff : (r.run env db uid query).2 = [] := list_statusSafe r env db uid query
  refine ⟨heff, fun items hitems => ?_, fun hoffc => ?_, fun n m hlim hoff => ?_⟩
  · cases hl : (env.parseInt ((prop query "limit").withDefault (.num 50))).toNat? with
    | none =>
      rw [(listing_refused r env db uid query hq (Or.inl hl)).2.1] at hitems
      exact absurd hitems (fun h => by cases h)
    | some n =>
      cases ho : (env.parseInt ((prop query "offset").withDefault (.num 0))).toNat? with
      | none =>
        rw [(listing_refused r env db uid query hq (Or.inr ho)).2.1] at hitems
        exact absurd hitems (fun h => by cases h)
      | some m =>
        obtain ⟨orderField, _, hdata, _⟩ := listing_page r env db uid query n m hq hl ho
        rw [hdata] at hitems
        injection hitems with hitems
        refine ⟨_, hitems.symm, fun e he => ?_, fun s hs hne hall e he => ?_,
          fun ht hs e he => (hmatch e (hsub orderField n m e he)).2.2 ht hs⟩
        · have hm := hmatch e (hsub orderField n m e he)
          have hc := (beq_str_iff _ _).mp hm.2.1
          refine ⟨hm.1, hc, fun hnd => ?_⟩
          rw [prop_listItem_fields e.1 e.2 "clientId" hnd (by decide)]
          exact hc
        · have hm := hmatch e (hsub orderField n m e he)
          have ht : (prop query "status").truthy = true := by
            rw [hs]; simpa [JVal.truthy] using hne
          have hst : (prop query "status").strictNe "all" = true := by
            rw [hs]; simpa [JVal.strictNe] using hall
          have hb := hm.2.2 ht hst
          rw [hs] at hb
          have hc := (beq_str_iff _ _).mp hb
          refine ⟨hc, fun hnd => ?_⟩
          rw [prop_listItem_fields e.1 e.2 _ hnd hstatusField]
          exact hc
  · unfold Listing.matching
    apply List.filter_congr
    intro e _
    simp [hoffc]
  · obtain ⟨orderField, h200, hdata, _⟩ := listing_page r env db uid query n m hq
      (by rw [hlim]; exact toNat?_natCast n) (by rw [hoff]; exact toNat?_natCast m)
    refine ⟨h200, _, hdata, fun hm hlen => ?_, fun hnil => ?_⟩
    · subst hm
      rw [List.drop_zero, List.take_of_length_le (by rw [List.length_insertionSort]; exact hlen)]
      exact List.perm_insertionSort _ _
    · rw [hnil]
      simp

/-- Witness for C15 (amended): alice owns three leads, one of them dead, and lists her leads with
status dead: the page holds exactly that lead. -/
theorem list_scoped_witness :
    (Listing.leads.run queryEnv threeLeadsStore "alice" [("status", .str "dead")]).1.status =
      200 ∧
    ∃ page : List (String × Doc),
      (Listing.leads.run queryEnv threeLeadsStore "alice" [("status", .str "dead")]).1.data =
        .arr (page.map listItem) ∧
      page.Perm [("l2", aliceDeadLead)] := by
  have hm : Listing.leads.matching threeLeadsStore "alice" [("status", .str "dead")] =
      [("l2", aliceDeadLead)] := rfl
  obtain ⟨h200, page, hdata, hperm, _⟩ :=
    (list_scoped .leads queryEnv threeLeadsStore "alice" [("status", .str "dead")] rfl).2.2.2
      50 0
      (by simp [queryEnv, sampleEnv, prop, JVal.withDefault, List.lookup])
      (by simp [queryEnv, sampleEnv, prop, JVal.withDefault, List.lookup])
  rw [hm] at hperm
  exact ⟨h200, page, hdata, hperm rfl (by decide)⟩

/-! ## C21: the frame of a lead update -/

theorem mem_setProp_self (o : Obj) (k : String) (v : JVal) : (k, v) ∈ setProp o k v := by
  unfold setProp
  split
  · rename_i h
    obtain ⟨w, hw⟩ := Option.isSome_iff_exists.mp h
    exact List.mem_map.mpr ⟨(k, w), mem_of_lookup o k w hw, by simp⟩
  · exact List.mem_append_right _ (List.mem_singleton.mpr rfl)

theorem mem_setIfTruthy_self (o : Obj) (k : String) (v : JVal) (h : v.truthy = true) :
    (k, v) ∈ setIfTruthy o k v := by
  unfold setIfTruthy
  rw [if_pos h]
  exact mem_setProp_self o k v

theorem mem_setIfDefined_self (o : Obj) (k : String) (v : JVal) (h : v ≠ .undefined) :
    (k, v) ∈ setIfDefined o k v := by
  unfold setIfDefined
  split
  · exact absurd rfl h
  · exact mem_setProp_self o k v

theorem forall_mem_setIfDefined_of_defined (P : String × JVal → Prop) (o : Obj) (k : String)
    (v : JVal) (ho : ∀ e ∈ o, P e) (hk : v ≠ .undefined → P (k, v)) :
    ∀ e ∈ setIfDefined o k v, P e := by
  unfold setIfDefined
  split
  · exact ho
  · rename_i hne
    exact forall_mem_setProp P o k v ho (hk (fun h => hne h))

/-- A property of every entry of the update object of `PUT /leads/:id`, from the property on
each entry that the handler writes, under the condition on which it writes it. -/
theorem forall_mem_leadsPutData_of_written (P : String × JVal → Prop) (env : Env) (body : Obj)
    (h0 : P ("updated_at", .str (env.iso 0)))
    (h1 : (prop body "name").truthy = true → P ("name", prop body "name"))
    (h2 : (prop body "phone").truthy = true → P ("phone", prop body "phone"))
    (h3 : (prop body "email").truthy = true → P ("email", prop body "email"))
    (h4 : (prop body "status").truthy = true → P ("status", prop body "status"))
    (h5 : prop body "notes" ≠ .undefined → P ("notes", prop body "notes"))
    (h6 : (prop body "last_contacted").truthy = true →
      P ("last_contacted", prop body "last_contacted")) :
    ∀ e ∈ leadsPutData env body, P e := by
  unfold leadsPutData
  apply forall_mem_setIfTruthy P _ _ _ _ h6
  apply forall_mem_setIfDefined_of_defined P _ _ _ _ h5
  apply forall_mem_setIfTruthy P _ _ _ _ h4
  apply forall_mem_setIfTruthy P _ _ _ _ h3
  apply forall_mem_setIfTruthy P _ _ _ _ h2
  apply forall_mem_setIfTruthy P _ _ _ _ h1
  intro e he
  rw [List.mem_singleton.mp he]; exact h0

/-- Every entry of the update object of `PUT /leads/:id` is the refreshed updated_at, or a
truthy value of the body for name, phone, email, status or last_contacted, or the notes of
the body when the body has notes. -/
theorem leadsPutData_entry (env : Env) (body : Obj) (e : String × JVal)
    (he : e ∈ leadsPutData env body) :
    e = ("updated_at", .str (env.iso 0)) ∨
    (e.1 ∈ leadTruthyFields ∧ (prop body e.1).truthy = true ∧ e.2 = prop body e.1) ∨
    (e.1 = "notes" ∧ prop body "notes" ≠ .undefined ∧ e.2 = prop body "notes") :=
  forall_mem_leadsPutData_of_written
    (fun e => e = ("updated_at", .str (env.iso 0)) ∨
      (e.1 ∈ leadTruthyFields ∧ (prop body e.1).truthy = true ∧ e.2 = prop body e.1) ∨
      (e.1 = "notes" ∧ prop body "notes" ≠ .undefined ∧ e.2 = prop body "notes"))
    env body (Or.inl rfl)
    (fun h => Or.inr (Or.inl ⟨by simp [leadTruthyFields], h, rfl⟩))
    (fun h => Or.inr (Or.inl ⟨by simp [leadTruthyFields], h, rfl⟩))
    (fun h => Or.inr (Or.inl ⟨by simp [leadTruthyFields], h, rfl⟩))
    (fun h => Or.inr (Or.inl ⟨by simp [leadTruthyFields], h, rfl⟩))
    (fun h => Or.inr (Or.inr ⟨rfl, h, rfl⟩))
    (fun h => Or.inr (Or.inl ⟨by simp [leadTruthyFields], h, rfl⟩)) e he

/-- The update object of `PUT /leads/:id` holds the body's value for each of name, phone, email,
status and last_contacted that is truthy in the body. -/
theorem leadsPutData_mem_truthy (env : Env) (body : Obj) (k : String)
    (hk : k ∈ leadTruthyFields) (ht : (prop body k).truthy = true) :
    (k, prop body k) ∈ leadsPutData env body := by
  unfold leadsPutData
  simp only [leadTruthyFields, List.mem_cons, List.mem_singleton, List.not_mem_nil,
    or_false] at hk
  rcases hk with h | h | h | h | h <;> subst h
  · apply mem_setIfTruthy_of_ne _ _ _ _ _ (by simp)
    apply mem_setIfDefined_of_ne _ _ _ _ _ (by simp)
    apply mem_setIfTruthy_of_ne _ _ _ _ _ (by simp)
    apply mem_setIfTruthy_of_ne _ _ _ _ _ (by simp)
    apply mem_setIfTruthy_of_ne _ _ _ _ _ (by simp)
    exact mem_setIfTruthy_self _ _ _ ht
  · apply mem_setIfTruthy_of_ne _ _ _ _ _ (by simp)
    apply mem_setIfDefined_of_ne _ _ _ _ _ (by simp)
    apply mem_setIfTruthy_of_ne _ _ _ _ _ (by simp)
    apply mem_setIfTruthy_of_ne _ _ _ _ _ (by simp)
    exact mem_setIfTruthy_self _ _ _ ht
  · apply mem_setIfTruthy_of_ne _ _ _ _ _ (by simp)
    apply mem_setIfDefined_of_ne _ _ _ _ _ (by simp)
    apply mem_setIfTruthy_of_ne _ _ _ _ _ (by simp)
    exact mem_setIfTruthy_self _ _ _ ht
  · apply mem_setIfTruthy_of_ne _ _ _ _ _ (by simp)
    apply mem_setIfDefined_of_ne _ _ _ _ _ (by simp)
    exact mem_setIfTruthy_self _ _ _ ht
  · exact mem_setIfTruthy_self _ _ _ ht

/-- The update object of `PUT /leads/:id` holds the notes of the body when the body has notes. -/
theorem leadsPutData_mem_notes (env : Env) (body : Obj) (h : prop body "notes" ≠ .undefined) :
    ("notes", prop body "notes") ∈ leadsPutData env body := by
  unfold leadsPutData
  apply mem_setIfTruthy_of_ne _ _ _ _ _ (by simp)
  exact mem_setIfDefined_self _ _ _ h

/-- C21, as stated, fails: `PUT /leads/:id` by the owner with the name set to the empty string
is answered 200 and writes updated_at only: the name, present in the body, is not written and
the stored name stays as it was. -/
theorem lead_update_empty_name_not_written :
    prop [("name", .str "")] "name" = .str "" ∧
    (leadsPut sampleEnv sampleStore "alice" "l1" [("name", .str "")]).1.status = 200 ∧
    (leadsPut sampleEnv sampleStore "alice" "l1" [("name", .str "")]).2 =
      [.update .leads "l1" [("updated_at", .str "2024-05-01T10:00:00.000Z")]] ∧
    (docGet ((Call.byId .leadsPut "l1" [("name", .str "")]).exec sampleEnv sampleStore
      "alice").leads "l1").map (fun x => prop x "name") = some (.str "Jane") := by
  refine ⟨rfl, by decide, rfl, rfl⟩

/-- C21, amended: every `PUT /leads/:id` by the owner that is not rejected (answered 200)
writes one update that touches only updated_at plus those of name, phone, email, status, notes,
last_contacted that are present in the body; every property other than updated_at that is
absent from the body keeps its stored value; each of name, phone, email, status,
last_contacted is written with the supplied value when that value is truthy, and keeps its
stored value when the value is present but falsy (empty string, null, 0, false); notes is
written with the supplied value whenever it is present, the empty string and null included. -/
theorem lead_update_frame (env : Env) (db : Store) (uid id : String) (body : Obj) (d : Doc)
    (hget : docGet db.leads id = some d)
    (hown : (prop d "clientId").strictNe uid = false)
    (hok : (leadsPut env db uid id body).1.status = 200) :
    (leadsPut env db uid id body).2 = [.update .leads id (leadsPutData env body)] ∧
    (∀ e ∈ leadsPutData env body, e.1 = "updated_at" ∨
      (e.1 ∈ ["name", "phone", "email", "status", "notes", "last_contacted"] ∧
        prop body e.1 ≠ .undefined ∧ e.2 = prop body e.1)) ∧
    ∃ d', docGet ((Call.byId .leadsPut id body).exec env db uid).leads id = some d' ∧
      prop d' "updated_at" = .str (env.iso 0) ∧
      (∀ k, k ≠ "updated_at" → prop body k = .undefined → prop d' k = prop d k) ∧
      (∀ k ∈ leadTruthyFields, (prop body k).truthy = true → prop d' k = prop body k) ∧
      (∀ k ∈ leadTruthyFields, (prop body k).truthy = false → prop d' k = prop d k) ∧
      (prop body "notes" ≠ .undefined → prop d' "notes" = prop body "notes") := by
  have hrun : (leadsPut env db uid id body).2 = [.update .leads id (leadsPutData env body)] := by
    simp only [leadsPut, docRefThrows_of_docGet _ _ _ hget, hget, hown, Bool.false_eq_true,
      if_false] at hok ⊢
    split_ifs at hok ⊢
    · simp [status_jsonError] at hok
    · rfl
  have hundef : ∀ v : JVal, v.truthy = true → v ≠ .undefined := by
    intro v hv h
    rw [h] at hv
    exact absurd hv (by decide)
  have hfive : ∀ k, k ∈ leadTruthyFields → k ≠ "updated_at" ∧ k ≠ "notes" ∧
      k ∈ ["name", "phone", "email", "status", "notes", "last_contacted"] := by
    intro k hk
    simp only [leadTruthyFields, List.mem_cons, List.mem_singleton, List.not_mem_nil,
      or_false] at hk
    rcases hk with h | h | h | h | h <;> subst h <;> decide
  have hafter : docGet ((Call.byId .leadsPut id body).exec env db uid).leads id =
      some (spread d (leadsPutData env body)) := by
    simp only [Call.exec, Call.run, ById.run, hrun, Store.applyAll, List.foldl_cons,
      List.foldl_nil, Store.apply, Store.coll]
    show docGet (docUpdate db.leads id _) id = _
    rw [docGet_docUpdate, hget]
    simp
  have hnot : ∀ k, k ≠ "updated_at" → (k ∈ leadTruthyFields → (prop body k).truthy = false) →
      (k = "notes" → prop body "notes" = .undefined) →
      ∀ v, (k, v) ∉ leadsPutData env body := by
    intro k hk h5 hn v hv
    rcases leadsPutData_entry env body _ hv with h | ⟨h1, h2, _⟩ | ⟨h1, h2, _⟩
    · injection h with h1 _
      exact hk h1
    · rw [h5 h1] at h2
      exact absurd h2 (by decide)
    · exact h2 (hn h1)
  refine ⟨hrun, fun e he => ?_, spread d (leadsPutData env body), hafter, ?_, ?_, ?_, ?_, ?_⟩
  · rcases leadsPutData_entry env body e he with h | ⟨h1, h2, h3⟩ | ⟨h1, h2, h3⟩
    · left; rw [h]
    · right; exact ⟨(hfive _ h1).2.2, hundef _ h2, h3⟩
    · right
      refine ⟨by rw [h1]; decide, ?_, ?_⟩
      · rw [h1]; exact h2
      · rw [h3, h1]
  · apply prop_spread_of_unique
    · unfold leadsPutData
      apply mem_setIfTruthy_of_ne _ _ _ _ _ (by simp)
      apply mem_setIfDefined_of_ne _ _ _ _ _ (by simp)
      apply mem_setIfTruthy_of_ne _ _ _ _ _ (by simp)
      apply mem_setIfTruthy_of_ne _ _ _ _ _ (by simp)
      apply mem_setIfTruthy_of_ne _ _ _ _ _ (by simp)
      apply mem_setIfTruthy_of_ne _ _ _ _ _ (by simp)
      exact List.mem_singleton.mpr rfl
    · intro w hw
      rcases leadsPutData_entry env body _ hw with h | ⟨h1, _, _⟩ | ⟨h1, _, _⟩
      · injection h with _ h2
      · exact absurd rfl (hfive _ h1).1
      · exact absurd h1 (by simp)
  · intro k hk hu
    refine prop_spread_of_not_mem _ _ _ (hnot k hk (fun _ => by rw [hu]; rfl) (fun h => ?_))
    rw [← h]; exact hu
  · intro k hk ht
    apply prop_spread_of_unique _ _ _ _ (leadsPutData_mem_truthy env body k hk ht)
    intro w hw
    rcases leadsPutData_entry env body _ hw with h | ⟨_, _, h3⟩ | ⟨h1, _, _⟩
    · injection h with h1 _
      exact absurd h1 (hfive _ hk).1
    · exact h3
    · exact absurd h1 (hfive _ hk).2.1
  · intro k hk hf
    exact prop_spread_of_not_mem _ _ _
      (hnot k (hfive _ hk).1 (fun _ => hf) (fun h => absurd h (hfive _ hk).2.1))
  · intro hn
    apply prop_spread_of_unique _ _ _ _ (leadsPutData_mem_notes env body hn)
    intro w hw
    rcases leadsPutData_entry env body _ hw with h | ⟨h1, _, _⟩ | ⟨_, _, h3⟩
    · injection h with h1 _
      exact absurd h1 (by decide)
    · exact absurd h1 (by simp [leadTruthyFields])
    · exact h3

/-- Witness for C21 (amended): alice sets the status of her lead to hot and empties the notes. -/
theorem lead_update_frame_witness :
    (leadsPut sampleEnv sampleStore "alice" "l1" [("status", .str "hot"), ("notes", .str "")]).2 =
      [.update .leads "l1" (leadsPutData sampleEnv [("status", .str "hot"), ("notes", .str "")])] :=
  (lead_update_frame sampleEnv sampleStore "alice" "l1" [("status", .str "hot"),
    ("notes", .str "")] aliceLead rfl rfl (by decide)).1

/-! ## C22: no proposal ever has a file -/

theorem mem_of_docGet (c : Coll) (id : String) (d : Doc) (h : docGet c id = some d) :
    ∃ k, (k, d) ∈ c := by
  obtain ⟨k, _, hk⟩ := docId_of_docGet c id d h
  exact ⟨k, mem_of_lookup_coll c k d hk⟩

theorem docGet_docAdd_self (c : Coll) (id : String) (data : Doc) (hid : docId id = some id)
    (h : docGet c id = none) : docGet (docAdd c id data) id = some data := by
  rw [docGet_eq_lookup _ _ _ hid] at h ⊢
  unfold docAdd
  rw [List.lookup_append, h]
  simp [List.lookup_cons]

theorem apply_noFiles (db : Store) (eff : Effect) (hdb : NoFiles db) (heff : eff.FileSafe) :
    NoFiles (db.apply eff) := by
  have hcoll : ∀ s : Store, s.proposals = s.coll .proposals := fun _ => rfl
  intro e he
  rw [hcoll] at he
  cases eff with
  | add c' id data =>
    simp only [Store.apply, coll_setColl] at he
    split_ifs at he with hc
    · rcases mem_docAdd _ _ _ _ he with h | h
      · rw [← hc] at h; exact hdb e h
      · rw [h]; exact heff hc.symm
    · exact hdb e he
  | update c' id data =>
    simp only [Store.apply, coll_setColl] at he
    split_ifs at he with hc
    · rcases mem_docUpdate _ _ _ _ he with h | ⟨k, d, hd, h⟩
      · rw [← hc] at h; exact hdb e h
      · rw [h]
        rw [← hc] at hd
        show prop (spread d data) "pdf_url" = .null
        rw [prop_spread_of_not_mem _ _ _ (heff hc.symm)]
        exact hdb (k, d) hd
    · exact hdb e he
  | delete c' id =>
    simp only [Store.apply, coll_setColl] at he
    split_ifs at he with hc
    · have h := mem_docDelete _ _ _ he
      rw [← hc] at h; exact hdb e h
    · exact hdb e he
  | fileDelete _ _ => exact hdb e he
  | signedUrl _ _ => exact hdb e he

theorem applyAll_noFiles (effects : List Effect) (db : Store) (hdb : NoFiles db)
    (heff : ∀ eff ∈ effects, eff.FileSafe) : NoFiles (db.applyAll effects) := by
  induction effects generalizing db with
  | nil => exact hdb
  | cons eff effects ih =>
    exact ih (db.apply eff) (apply_noFiles db eff hdb (heff eff (List.mem_cons_self _ _)))
      (fun x hx => heff x (List.mem_cons_of_mem _ hx))

theorem create_fileSafe (r : Create) (env : Env) (db : Store) (uid : String) (body : Obj) :
    ∀ eff ∈ (r.run env db uid body).2, eff.FileSafe := by
  cases r <;>
    simp only [Create.run, leadsPost, appointmentsPost, proposalsPost, supportPost] <;>
    repeat' (first | (intro eff heff; simp at heff; done) | split)
  all_goals
    intro eff heff
    rw [List.mem_singleton.mp heff]
    intro hc
    first | exact absurd hc (by decide) | rfl

theorem leadsPut_fileSafe (env : Env) (db : Store) (uid id : String) (body : Obj) :
    ∀ eff ∈ (leadsPut env db uid id body).2, eff.FileSafe := by
  simp only [leadsPut]
  repeat' (first | (intro eff heff; simp at heff; done) | split)
  intro eff heff
  rw [List.mem_singleton.mp heff]
  intro hc
  exact absurd hc (by decide)

theorem byId_fileSafe (r : ById) (env : Env) (db : Store) (uid id : String) (body : Obj) :
    ∀ eff ∈ (r.run env db uid id body).2, eff.FileSafe := by
  cases r
  case leadsPut => exact leadsPut_fileSafe env db uid id body
  case proposalsPutStatus =>
    simp only [ById.run, proposalsPutStatus]
    repeat' (first | (intro eff heff; simp at heff; done) | split)
    intro eff heff
    rw [List.mem_singleton.mp heff]
    intro _ v hv
    simp [proposalsPutStatusData] at hv
  all_goals
    simp only [ById.run, Portal.leadsGet, Portal.leadsDelete, Portal.appointmentsGet,
      Portal.appointmentsPutOutcome, Portal.appointmentsDelete, Portal.proposalsGet,
      Portal.proposalsDownload, Portal.proposalsDelete, Portal.supportGet,
      Portal.supportPutStatus, Portal.supportPostReply, Portal.supportDelete]
    repeat' (first | (intro eff heff; simp at heff; done) | split)
    all_goals simp [Effect.FileSafe]

theorem call_fileSafe (c : Call) (env : Env) (db : Store) (uid : String) :
    ∀ eff ∈ (c.run env db uid).2, eff.FileSafe := by
  cases c with
  | list r query => simp [Call.run, list_statusSafe]
  | create r body => exact create_fileSafe r env db uid body
  | byId r id body => exact byId_fileSafe r env db uid id body

theorem reachable_noFiles (db : Store) (h : Reachable db) : NoFiles db := by
  induction h with
  | empty => intro e he; simp [Store.empty] at he
  | step db c env uid _ ih => exact applyAll_noFiles _ db ih (call_fileSafe c env db uid)

theorem download_noFile (env : Env) (db : Store) (uid id : String) (d : Doc)
    (hdb : NoFiles db) (hget : docGet db.proposals id = some d)
    (hown : (prop d "clientId").strictNe uid = false) :
    proposalsDownload env db uid id =
      (jsonError 404 "PDF not available" "No PDF file has been uploaded for this proposal",
        []) := by
  obtain ⟨k, hk⟩ := mem_of_docGet _ _ _ hget
  have hnull : prop d "pdf_url" = .null := hdb (k, d) hk
  simp [proposalsDownload, docRefThrows_of_docGet _ _ _ hget, hget, hown, hnull, JVal.truthy]

theorem download_no_signedUrl (env : Env) (db : Store) (uid id : String) (hdb : NoFiles db) :
    (proposalsDownload env db uid id).2 = [] := by
  cases hget : docGet db.proposals id with
  | none =>
    simp only [proposalsDownload, hget]
    split_ifs <;> rfl
  | some d =>
    obtain ⟨k, hk⟩ := mem_of_docGet _ _ _ hget
    have hnull : prop d "pdf_url" = .null := hdb (k, d) hk
    simp only [proposalsDownload, hget, hnull]
    split_ifs with h0 h1 h2
    · rfl
    · rfl
    · rfl
    · simp [JVal.truthy] at h2

/-- C22: in every store reachable from the empty store by any sequence of requests to the
four resource routers, every proposal has pdf_url null; hence in such a store
`GET /proposals/download/:id` by the owner of a stored proposal is answered 404
PDF not available and requests no signed URL; the download handler requests no signed URL
for any principal and id; and a proposal just created through `POST /proposals` is stored
under the generated id and its download by the creator is answered 404 PDF not available
with no signed URL requested. -/
theorem reachable_no_file (db : Store) (h : Reachable db) :
    (∀ e ∈ db.proposals, prop e.2 "pdf_url" = .null) ∧
    (∀ (env : Env) (uid id : String) (d : Doc), docGet db.proposals id = some d →
      (prop d "clientId").strictNe uid = false →
      (proposalsDownload env db uid id).1.status = 404 ∧
      (proposalsDownload env db uid id).1.error = .str "PDF not available" ∧
      (proposalsDownload env db uid id).2 = []) ∧
    (∀ (env : Env) (uid id : String), (proposalsDownload env db uid id).2 = []) ∧
    (∀ (env env' : Env) (uid : String) (body : Obj),
      (proposalsPost env db uid body).1.status = 201 →
      docGet ((Call.create .proposals body).exec env db uid).proposals env.autoId =
        some (proposalsPostData env uid body) ∧
      (proposalsDownload env' ((Call.create .proposals body).exec env db uid) uid
        env.autoId).1.status = 404 ∧
      (proposalsDownload env' ((Call.create .proposals body).exec env db uid) uid
        env.autoId).1.error = .str "PDF not available" ∧
      (proposalsDownload env' ((Call.create .proposals body).exec env db uid) uid
        env.autoId).2 = []) := by
  have hdb : NoFiles db := reachable_noFiles db h
  refine ⟨hdb, ?_, fun env uid id => download_no_signedUrl env db uid id hdb, ?_⟩
  · intro env uid id d hget hown
    rw [download_noFile env db uid id d hdb hget hown]
    exact ⟨rfl, rfl, rfl⟩
  · intro env env' uid body hacc
    have hdb' : NoFiles ((Call.create .proposals body).exec env db uid) :=
      reachable_noFiles _ (Reachable.step db _ env uid h)
    have hget : docGet ((Call.create .proposals body).exec env db uid).proposals env.autoId =
        some (proposalsPostData env uid body) := by
      simp only [proposalsPost] at hacc
      split_ifs at hacc with h1 h2 h3
      · simp [status_jsonError] at hacc
      · simp [status_jsonError] at hacc
      · simp [status_jsonError] at hacc
      · have hnone : docGet db.proposals env.autoId = none := by
          cases hg : docGet db.proposals env.autoId with
          | none => rfl
          | some x => simp [hg] at h3
        simp only [Call.exec, Call.run, Create.run, proposalsPost, h1, h2, h3, if_false,
          Bool.false_eq_true, Store.applyAll, List.foldl_cons, List.foldl_nil, Store.apply]
        show docGet (docAdd db.proposals env.autoId _) env.autoId = _
        exact docGet_docAdd_self _ _ _ env.autoId_ok hnone
    have hown : (prop (proposalsPostData env uid body) "clientId").strictNe uid = false := by
      simp [proposalsPostData, prop, List.lookup_cons, JVal.strictNe]
    rw [download_noFile env' _ uid env.autoId _ hdb' hget hown]
    exact ⟨hget, rfl, rfl, rfl⟩

/-- Witness for C22: alice creates a proposal of amount 500 in the empty store and asks for
its download. -/
theorem reachable_no_file_witness :
    Reachable ((Call.create .proposals proposalBody).exec sampleEnv Store.empty "alice") ∧
    (proposalsDownload sampleEnv
      ((Call.create .proposals proposalBody).exec sampleEnv Store.empty "alice") "alice"
      "doc1").1.status = 404 ∧
    (proposalsDownload sampleEnv
      ((Call.create .proposals proposalBody).exec sampleEnv Store.empty "alice") "alice"
      "doc1").1.error = .str "PDF not available" ∧
    (proposalsDownload sampleEnv
      ((Call.create .proposals proposalBody).exec sampleEnv Store.empty "alice") "alice"
      "doc1").2 = [] :=
  ⟨Reachable.step _ _ _ _ Reachable.empty,
    (reachable_no_file _ (Reachable.step _ _ _ _ Reachable.empty)).2.1 sampleEnv "alice" "doc1"
      (proposalsPostData sampleEnv "alice" proposalBody) rfl rfl⟩

end Portal
